import Mathlib

/-!
Personal finance tracker: budget reconciliation, progress, listing and accounts.

A shallow embedding of the backend controllers
(`backend/controllers/transactioncontroller.js`, `backend/controllers/budgetcontroller.js`),
the route validators (`backend/routes/*.js`) and the Mongoose schemas (`backend/models/*.js`).

* Amounts, limits and `spent` are JavaScript numbers, embedded by their rational values. The
  controllers are written over exact arithmetic; `createTransactionWith` and
  `getBudgetProgressWith` take the arithmetic as a parameter, and `doubleArithmetic` is the
  IEEE 754 binary64 arithmetic of the running program.
* A `Date` is held by its local calendar fields; instants compare as the fields compare
  lexicographically (fixed-offset local time).
* The document store is a record of lists in insertion order; `findOne` and
  `findOneAndUpdate` act on the first matching document.
-/

namespace FinanceTracker

/-! ## Dates -/

/-- A JavaScript `Date`, held by its local calendar fields: full year, month (1..12),
day of month (1..) and milliseconds since local midnight (0..86399999). -/
structure Date where
  year : Int
  month : Int
  day : Int
  ms : Int
  deriving DecidableEq

/-- The method `getFullYear()`. -/
def Date.getFullYear (d : Date) : Int := d.year

/-- The method `getMonth()`: the zero-based month index. -/
def Date.getMonth (d : Date) : Int := d.month - 1

/-- Gregorian leap years. -/
def isLeapYear (y : Int) : Bool :=
  decide ((y % 4 = 0 ∧ y % 100 ≠ 0) ∨ y % 400 = 0)

/-- Number of days of month `m` (1..12) of year `y`. -/
def daysInMonth (y m : Int) : Int :=
  if m = 2 then (if isLeapYear y then 29 else 28)
  else if m = 4 ∨ m = 6 ∨ m = 9 ∨ m = 11 then 30
  else 31

/-- Milliseconds in a day. -/
def msPerDay : Int := 86400000

/-- A `Date` denotes an instant when its fields are in calendar range. -/
def Date.valid (d : Date) : Prop :=
  1 ≤ d.month ∧ d.month ≤ 12 ∧ 1 ≤ d.day ∧ d.day ≤ daysInMonth d.year d.month ∧
    0 ≤ d.ms ∧ d.ms < msPerDay

instance (d : Date) : Decidable d.valid :=
  inferInstanceAs (Decidable (_ ∧ _))

/-- The order of instants (`$lte` on dates): lexicographic on the calendar fields. -/
def Date.le (a b : Date) : Prop :=
  a.year < b.year ∨ (a.year = b.year ∧ (a.month < b.month ∨ (a.month = b.month ∧
    (a.day < b.day ∨ (a.day = b.day ∧ a.ms ≤ b.ms)))))

instance (a b : Date) : Decidable (Date.le a b) :=
  inferInstanceAs (Decidable (_ ∨ _))

/-- The year argument of the `Date` constructor: 0..99 stands for 1900..1999. -/
def fullYearOf (year : Int) : Int :=
  if 0 ≤ year ∧ year ≤ 99 then 1900 + year else year

/-- The value `new Date(year, monthIndex, 1)`: local midnight opening the month; a month
index outside 0..11 carries into the year. -/
def newDateFirst (year monthIndex : Int) : Date :=
  { year := fullYearOf year + monthIndex / 12, month := monthIndex % 12 + 1, day := 1, ms := 0 }

/-- The value `new Date(year, monthIndex, 0, 23, 59, 59)`: day 0 is the last day of the
month before `monthIndex`; the time is 23:59:59 with a zero millisecond field. -/
def newDateDayZero (year monthIndex : Int) : Date :=
  let y := fullYearOf year + (monthIndex - 1) / 12
  let m := (monthIndex - 1) % 12 + 1
  { year := y, month := m, day := daysInMonth y m,
    ms := 23 * 3600000 + 59 * 60000 + 59 * 1000 }

/-! ## Documents and the store -/

/-- Modelled from the spec: the User model (`backend/models/user.js` is not part of the
sources): identity with name, unique email and optional avatar. -/
structure User where
  id : Nat
  name : String
  email : String
  avatar : Option String
  deriving DecidableEq

/-- A Transaction document (`backend/models/transactions.js`). -/
structure Transaction where
  id : Nat
  user : Nat
  type : String
  amount : ℚ
  category : String
  description : String
  date : Date
  deriving DecidableEq

/-- A Budget document (`backend/models/budget.js`). -/
structure Budget where
  id : Nat
  user : Nat
  category : String
  limit : ℚ
  spent : ℚ
  month : Int
  year : Int
  deriving DecidableEq

/-- The document store: the three collections, in insertion order. -/
structure Store where
  users : List User
  transactions : List Transaction
  budgets : List Budget
  deriving DecidableEq

/-- The outcome of a mutating request: HTTP status, the store afterwards, and the `message`
of the JSON body when the response is an error raised by the controller (not found,
conflict, server error); validation failures carry a list of errors and no `message`. -/
structure Outcome where
  status : Nat
  store : Store
  message : Option String := none
  deriving DecidableEq

/-- The `message` of the not-found response of the transaction controller. -/
def transactionNotFound : String := "Transaction not found"

/-- The `message` of the not-found response of the budget controller. -/
def budgetNotFound : String := "Budget not found"

/-- The `message` of the conflict response of the budget controller. -/
def budgetExists : String := "Budget already exists for this category and month"

/-- The `message` of the response to an exception caught by a controller. -/
def serverError : String := "Server error"

/-! ## Schemas and route validators -/

/-- The `enum` of `category` in the Transaction schema. -/
def transactionCategories : List String :=
  ["Food", "Transportation", "Entertainment", "Healthcare", "Education",
   "Shopping", "Bills", "Rent", "Salary", "Freelance", "Investment", "Other"]

/-- The `enum` of `category` in the Budget schema. -/
def budgetCategories : List String :=
  ["Food", "Transportation", "Entertainment", "Healthcare", "Education",
   "Shopping", "Bills", "Rent", "Other"]

/-- The `enum` of `type` in the Transaction schema. -/
def transactionTypes : List String := ["income", "expense"]

/-- White space in the sense of the regular expression class `\s`. -/
def isJsSpace (c : Char) : Bool :=
  c.toNat = 9 || c.toNat = 10 || c.toNat = 11 || c.toNat = 12 || c.toNat = 13 ||
  c.toNat = 32 || c.toNat = 160 || c.toNat = 5760 ||
  (8192 ≤ c.toNat && c.toNat ≤ 8202) || c.toNat = 8232 || c.toNat = 8233 ||
  c.toNat = 8239 || c.toNat = 8287 || c.toNat = 12288 || c.toNat = 65279

/-- The sanitizer `.trim()`: strips white space at both ends. -/
def jsTrim (s : String) : String :=
  String.mk (((s.toList.dropWhile isJsSpace).reverse.dropWhile isJsSpace).reverse)

/-- Schema validation of a Transaction document (run by `create` and `save`). -/
def Transaction.schemaValid (t : Transaction) : Prop :=
  t.type ∈ transactionTypes ∧ 0 ≤ t.amount ∧ t.category ∈ transactionCategories ∧
    t.description ≠ "" ∧ t.description.length ≤ 200

instance (t : Transaction) : Decidable t.schemaValid :=
  inferInstanceAs (Decidable (_ ∧ _))

/-- Schema validation of a Budget document. -/
def Budget.schemaValid (b : Budget) : Prop :=
  b.category ∈ budgetCategories ∧ 0 ≤ b.limit ∧ 0 ≤ b.spent ∧ 1 ≤ b.month ∧ b.month ≤ 12

instance (b : Budget) : Decidable b.schemaValid :=
  inferInstanceAs (Decidable (_ ∧ _))

/-- Body of `POST /transactions` (the date already parsed from its ISO 8601 text). -/
structure TransactionBody where
  type : String
  amount : ℚ
  category : String
  description : String
  date : Date
  deriving DecidableEq

/-- Route validators of `POST /transactions`. -/
def TransactionBody.routeValid (b : TransactionBody) : Prop :=
  b.type ∈ transactionTypes ∧ (1 : ℚ) / 100 ≤ b.amount ∧ b.category ≠ "" ∧
    1 ≤ (jsTrim b.description).length ∧ (jsTrim b.description).length ≤ 200

instance (b : TransactionBody) : Decidable b.routeValid :=
  inferInstanceAs (Decidable (_ ∧ _))

/-- Body of `PUT /transactions/:id`: every field is optional. Besides the five validated
fields the body may carry `user`, which `Object.assign` copies onto the document as well. -/
structure TransactionPatch where
  type : Option String
  amount : Option ℚ
  category : Option String
  description : Option String
  date : Option Date
  user : Option Nat
  deriving DecidableEq

/-- Route validators of `PUT /transactions/:id`: each applies only to a supplied field. -/
def TransactionPatch.routeValid (p : TransactionPatch) : Prop :=
  (∀ x ∈ p.type, x ∈ transactionTypes) ∧ (∀ x ∈ p.amount, (1 : ℚ) / 100 ≤ x) ∧
    (∀ x ∈ p.category, x ≠ "") ∧
    (∀ x ∈ p.description, 1 ≤ (jsTrim x).length ∧ (jsTrim x).length ≤ 200)

instance (p : TransactionPatch) : Decidable p.routeValid :=
  inferInstanceAs (Decidable (_ ∧ _))

/-- Body of `POST /budgets`. -/
structure BudgetBody where
  category : String
  limit : ℚ
  month : Int
  year : Int
  deriving DecidableEq

/-- Route validators of `POST /budgets`. -/
def BudgetBody.routeValid (b : BudgetBody) : Prop :=
  b.category ≠ "" ∧ (1 : ℚ) / 100 ≤ b.limit ∧ 1 ≤ b.month ∧ b.month ≤ 12 ∧
    2020 ≤ b.year ∧ b.year ≤ 2050

instance (b : BudgetBody) : Decidable b.routeValid :=
  inferInstanceAs (Decidable (_ ∧ _))

/-! ## Queries and updates of the store -/

/-- The filter `{ user, category, month, year }` on budgets. -/
def Budget.hasKey (b : Budget) (user : Nat) (category : String) (month year : Int) : Prop :=
  b.user = user ∧ b.category = category ∧ b.month = month ∧ b.year = year

instance (b : Budget) (user : Nat) (category : String) (month year : Int) :
    Decidable (b.hasKey user category month year) :=
  inferInstanceAs (Decidable (_ ∧ _))

/-- The query `Budget.findOne({ user, category, month, year })`. -/
def findBudget (bs : List Budget) (user : Nat) (category : String) (month year : Int) :
    Option Budget :=
  bs.find? (fun b => decide (b.hasKey user category month year))

/-- The update `Budget.findOneAndUpdate({ user, category, month, year }, { $inc: { spent: delta } })`:
the first matching document has `delta` added to `spent`; without a match nothing changes.
Update validators are not run, so the schema minimum of `spent` is not checked here. The sum
is exact; `incSpentWith` adds in a given arithmetic. -/
def incSpent (bs : List Budget) (user : Nat) (category : String) (month year : Int)
    (delta : ℚ) : List Budget :=
  match bs with
  | [] => []
  | b :: rest =>
    if b.hasKey user category month year then { b with spent := b.spent + delta } :: rest
    else b :: incSpent rest user category month year delta

/-- The query `Transaction.findOne({ _id: id, user })`. -/
def findTransaction (ts : List Transaction) (id user : Nat) : Option Transaction :=
  ts.find? (fun t => decide (t.id = id ∧ t.user = user))

/-- The call `transaction.save()`: the stored document with the same `_id` is replaced. -/
def saveTransaction (ts : List Transaction) (t : Transaction) : List Transaction :=
  match ts with
  | [] => []
  | x :: rest => if x.id = t.id then t :: rest else x :: saveTransaction rest t

/-- The call `Transaction.findByIdAndDelete(id)`. -/
def deleteById (ts : List Transaction) (id : Nat) : List Transaction :=
  ts.eraseP (fun t => decide (t.id = id))

/-- The `$match` stage used by `createBudget` and `getBudgetProgress`:
`{ user, type: 'expense', category, date: { $gte: startDate, $lte: endDate } }`. -/
def matchExpenses (ts : List Transaction) (user : Nat) (category : String)
    (startDate endDate : Date) : List Transaction :=
  ts.filter (fun t => decide (t.user = user ∧ t.type = "expense" ∧ t.category = category ∧
    Date.le startDate t.date ∧ Date.le t.date endDate))

/-- One result document of a `$group` stage with `_id: null`. -/
structure GroupTotal where
  total : ℚ
  count : Nat
  deriving DecidableEq

/-- The `$group` stage `{ _id: null, total: { $sum: '$amount' }, count: { $sum: 1 } }`:
no document for an empty input, otherwise a single one. -/
def groupAll (ts : List Transaction) : List GroupTotal :=
  match ts with
  | [] => []
  | _ :: _ => [{ total := (ts.map (fun t => t.amount)).sum, count := ts.length }]

/-! ## Transaction controller -/

/-- The controller `createTransaction`; `newId` is the `_id` generated for the document. -/
def createTransaction (s : Store) (user newId : Nat) (body : TransactionBody) : Outcome :=
  if ¬ body.routeValid then { status := 400, store := s }
  else
    let transaction : Transaction :=
      { id := newId, user := user, type := body.type, amount := body.amount,
        category := body.category, description := jsTrim body.description, date := body.date }
    if ¬ transaction.schemaValid then { status := 500, store := s, message := some serverError }
    else
      let s1 : Store := { s with transactions := s.transactions ++ [transaction] }
      let s2 : Store :=
        if body.type = "expense" then
          let month := body.date.getMonth + 1
          let year := body.date.getFullYear
          { s1 with budgets := incSpent s1.budgets user body.category month year body.amount }
        else s1
      { status := 201, store := s2 }

/-- The assignment `Object.assign(transaction, req.body)` followed by the date conversion. -/
def TransactionPatch.applyTo (p : TransactionPatch) (t : Transaction) : Transaction :=
  { t with
    type := p.type.getD t.type
    amount := p.amount.getD t.amount
    category := p.category.getD t.category
    description := (p.description.map jsTrim).getD t.description
    date := p.date.getD t.date
    user := p.user.getD t.user }

/-- The controller `updateTransaction`. -/
def updateTransaction (s : Store) (user id : Nat) (body : TransactionPatch) : Outcome :=
  if ¬ body.routeValid then { status := 400, store := s }
  else
    match findTransaction s.transactions id user with
    | none => { status := 404, store := s, message := some transactionNotFound }
    | some transaction =>
      let oldAmount := transaction.amount
      let oldCategory := transaction.category
      let oldType := transaction.type
      let oldDate := transaction.date
      let updated := body.applyTo transaction
      if ¬ updated.schemaValid then { status := 500, store := s, message := some serverError }
      else
        let s1 : Store := { s with transactions := saveTransaction s.transactions updated }
        let s2 : Store :=
          if oldType = "expense" then
            let oldMonth := oldDate.getMonth + 1
            let oldYear := oldDate.getFullYear
            { s1 with budgets := incSpent s1.budgets user oldCategory oldMonth oldYear (-oldAmount) }
          else s1
        let s3 : Store :=
          if updated.type = "expense" then
            let newMonth := updated.date.getMonth + 1
            let newYear := updated.date.getFullYear
            { s2 with
              budgets := incSpent s2.budgets user updated.category newMonth newYear updated.amount }
          else s2
        { status := 200, store := s3 }

/-- The controller `deleteTransaction`. -/
def deleteTransaction (s : Store) (user id : Nat) : Outcome :=
  match findTransaction s.transactions id user with
  | none => { status := 404, store := s, message := some transactionNotFound }
  | some transaction =>
    let s1 : Store :=
      if transaction.type = "expense" then
        let month := transaction.date.getMonth + 1
        let year := transaction.date.getFullYear
        { s with
          budgets := incSpent s.budgets user transaction.category month year (-transaction.amount) }
      else s
    { status := 200, store := { s1 with transactions := deleteById s1.transactions id } }

/-! ## Budget controller -/

/-- The controller `createBudget`; `newId` is the `_id` generated for the document. -/
def createBudget (s : Store) (user newId : Nat) (body : BudgetBody) : Outcome :=
  if ¬ body.routeValid then { status := 400, store := s }
  else
    match findBudget s.budgets user body.category body.month body.year with
    | some _ => { status := 400, store := s, message := some budgetExists }
    | none =>
      let startDate := newDateFirst body.year (body.month - 1)
      let endDate := newDateDayZero body.year body.month
      let spentAmount :=
        groupAll (matchExpenses s.transactions user body.category startDate endDate)
      let spent : ℚ := match spentAmount with
        | [] => 0
        | g :: _ => g.total
      let budget : Budget :=
        { id := newId, user := user, category := body.category, limit := body.limit,
          spent := spent, month := body.month, year := body.year }
      if ¬ budget.schemaValid then { status := 500, store := s, message := some serverError }
      else { status := 201, store := { s with budgets := s.budgets ++ [budget] } }

/-- The function `Math.round`, on the value of its argument: the nearest integer, halves
upwards. -/
def mathRound (x : ℚ) : Int := ⌊x + 1 / 2⌋

/-- One element of the `getBudgetProgress` response: the budget document and the
computed fields. -/
structure BudgetProgress where
  budget : Budget
  actualSpent : ℚ
  percentage : Int
  remaining : ℚ
  status : String
  transactionCount : Nat
  deriving DecidableEq

/-- The controller `getBudgetProgress`, given the month and year read from the query, over
exact arithmetic; `getBudgetProgressWith` computes in a given arithmetic. -/
def getBudgetProgress (s : Store) (user : Nat) (month year : Int) : List BudgetProgress :=
  let budgets := s.budgets.filter (fun b => decide (b.user = user ∧ b.month = month ∧ b.year = year))
  budgets.map (fun budget =>
    let startDate := newDateFirst year (month - 1)
    let endDate := newDateDayZero year month
    let actualSpending :=
      groupAll (matchExpenses s.transactions user budget.category startDate endDate)
    let spent : ℚ := match actualSpending with
      | [] => 0
      | g :: _ => g.total
    let transactionCount : Nat := match actualSpending with
      | [] => 0
      | g :: _ => g.count
    let percentage : Int := if budget.limit > 0 then mathRound (spent / budget.limit * 100) else 0
    let remaining := budget.limit - spent
    let status : String :=
      if percentage ≥ 100 then "exceeded" else if percentage ≥ 80 then "warning" else "good"
    { budget := budget, actualSpent := spent, percentage := percentage,
      remaining := max 0 remaining, status := status, transactionCount := transactionCount })

/-- The reply to a read by id: HTTP status, the `message` of an error response and the
document of a successful one. -/
structure ReadReply (α : Type) where
  status : Nat
  message : Option String
  document : Option α

/-- The controller `getTransactionById`. -/
def getTransactionById (s : Store) (user id : Nat) : ReadReply Transaction :=
  match findTransaction s.transactions id user with
  | none => { status := 404, message := some transactionNotFound, document := none }
  | some transaction => { status := 200, message := none, document := some transaction }

/-- The query `Budget.findOne({ _id: id, user })`. -/
def findBudgetById (bs : List Budget) (id user : Nat) : Option Budget :=
  bs.find? (fun b => decide (b.id = id ∧ b.user = user))

/-- The controller `getBudgetById`. -/
def getBudgetById (s : Store) (user id : Nat) : ReadReply Budget :=
  match findBudgetById s.budgets id user with
  | none => { status := 404, message := some budgetNotFound, document := none }
  | some budget => { status := 200, message := none, document := some budget }

/-- Body of `PUT /budgets/:id`: every field is optional. Besides the four validated fields
the body may carry `spent` and `user`, which `Object.assign` copies onto the document too. -/
structure BudgetPatch where
  category : Option String
  limit : Option ℚ
  month : Option Int
  year : Option Int
  spent : Option ℚ
  user : Option Nat
  deriving DecidableEq

/-- Route validators of `PUT /budgets/:id`: each applies only to a supplied field. -/
def BudgetPatch.routeValid (p : BudgetPatch) : Prop :=
  (∀ x ∈ p.category, x ≠ "") ∧ (∀ x ∈ p.limit, (1 : ℚ) / 100 ≤ x) ∧
    (∀ x ∈ p.month, 1 ≤ x ∧ x ≤ 12) ∧ (∀ x ∈ p.year, 2020 ≤ x ∧ x ≤ 2050)

instance (p : BudgetPatch) : Decidable p.routeValid :=
  inferInstanceAs (Decidable (_ ∧ _))

/-- The assignment `Object.assign(budget, req.body)`. -/
def BudgetPatch.applyTo (p : BudgetPatch) (b : Budget) : Budget :=
  { b with
    category := p.category.getD b.category
    limit := p.limit.getD b.limit
    month := p.month.getD b.month
    year := p.year.getD b.year
    spent := p.spent.getD b.spent
    user := p.user.getD b.user }

/-- The unique index on `{ user, category, month, year }` refuses to write document `b`:
another document of the collection already holds its four fields (error code 11000). -/
def duplicateKey (bs : List Budget) (b : Budget) : Bool :=
  bs.any (fun x => decide (x.id ≠ b.id ∧ x.hasKey b.user b.category b.month b.year))

/-- The call `budget.save()`: the stored document with the same `_id` is replaced. -/
def saveBudget (bs : List Budget) (b : Budget) : List Budget :=
  match bs with
  | [] => []
  | x :: rest => if x.id = b.id then b :: rest else x :: saveBudget rest b

/-- The controller `updateBudget`. Saving validates the document against the schema
(a failure is answered 500) and then writes it, the unique index refusing a duplicate
(error code 11000, answered 400 with the conflict message). -/
def updateBudget (s : Store) (user id : Nat) (body : BudgetPatch) : Outcome :=
  if ¬ body.routeValid then { status := 400, store := s }
  else
    match findBudgetById s.budgets id user with
    | none => { status := 404, store := s, message := some budgetNotFound }
    | some budget =>
      let updated := body.applyTo budget
      if ¬ updated.schemaValid then { status := 500, store := s, message := some serverError }
      else if duplicateKey s.budgets updated then
        { status := 400, store := s, message := some budgetExists }
      else { status := 200, store := { s with budgets := saveBudget s.budgets updated } }

/-- The controller `deleteBudget`; `Budget.findByIdAndDelete(id)` removes the document
with that `_id`. -/
def deleteBudget (s : Store) (user id : Nat) : Outcome :=
  match findBudgetById s.budgets id user with
  | none => { status := 404, store := s, message := some budgetNotFound }
  | some _ =>
    { status := 200
      store := { s with budgets := s.budgets.eraseP (fun b => decide (b.id = id)) } }

/-! ## Listing transactions -/

/-- Query of `GET /transactions`, numbers and dates already read from their text. -/
structure TransactionQuery where
  page : Option Int
  limit : Option Int
  type : Option String
  category : Option String
  startDate : Option Date
  endDate : Option Date
  search : Option String
  deriving DecidableEq

/-- Route validators of `GET /transactions` (the search text has none). -/
def TransactionQuery.routeValid (q : TransactionQuery) : Prop :=
  (∀ x ∈ q.page, 1 ≤ x) ∧ (∀ x ∈ q.limit, 1 ≤ x ∧ x ≤ 100) ∧
    (∀ x ∈ q.type, x ∈ transactionTypes) ∧ (∀ x ∈ q.category, x ≠ "")

instance (q : TransactionQuery) : Decidable q.routeValid :=
  inferInstanceAs (Decidable (_ ∧ _))

/-- The expression `parseInt(text) || fallback`: the fallback replaces an absent number
and the number 0. -/
def intOr (x : Option Int) (fallback : Int) : Int :=
  match x with
  | none => fallback
  | some v => if v = 0 then fallback else v

/-- Truthiness of an optional query text: an absent and an empty text are both falsy. -/
def textGiven (x : Option String) : Option String :=
  match x with
  | none => none
  | some v => if v = "" then none else some v

/-- The test on `description` built from the search text. With a search text it is the
operator `{ $regex: text, $options: 'i' }`; the regular-expression engine of the store is
the parameter `regex`, which answers `none` for a text that is no valid pattern. -/
def searchTest (regex : String → Option (String → Bool)) (q : TransactionQuery) :
    Option (String → Bool) :=
  match textGiven q.search with
  | none => some (fun _ => true)
  | some text => regex text

/-- The filter object built by `getTransactions`, as a test on a transaction; `test` is the
test on the description. The dates are compared only when both bounds are supplied. -/
def queryFilter (user : Nat) (q : TransactionQuery) (test : String → Bool)
    (t : Transaction) : Bool :=
  decide (t.user = user) &&
  (match textGiven q.type with
   | none => true
   | some ty => decide (t.type = ty)) &&
  (match textGiven q.category with
   | none => true
   | some c => decide (t.category = c)) &&
  (match q.startDate, q.endDate with
   | some a, some b => decide (Date.le a t.date ∧ Date.le t.date b)
   | _, _ => true) &&
  test t.description

/-- The order `.sort({ date: -1 })`: `a` may stand before `b` when its date is not earlier. -/
def dateDesc (a b : Transaction) : Prop := Date.le b.date a.date

instance (a b : Transaction) : Decidable (dateDesc a b) :=
  inferInstanceAs (Decidable (Date.le b.date a.date))

instance : IsTotal Transaction dateDesc :=
  ⟨fun a b => by unfold dateDesc Date.le; omega⟩

instance : IsTrans Transaction dateDesc :=
  ⟨fun a b c => by unfold dateDesc Date.le; omega⟩

/-- The cursor `.sort({ date: -1 })` on a list of documents; documents of equal date keep
the order of the collection. -/
def sortByDateDesc (ts : List Transaction) : List Transaction :=
  ts.insertionSort dateDesc

/-- The `pagination` object of the response. -/
structure Pagination where
  current : Int
  pages : Int
  total : Nat
  deriving DecidableEq

/-- The response of `getTransactions`. -/
structure TransactionsReply where
  status : Nat
  transactions : List Transaction
  pagination : Option Pagination
  deriving DecidableEq

/-- The controller `getTransactions`. -/
def getTransactions (regex : String → Option (String → Bool)) (s : Store) (user : Nat)
    (q : TransactionQuery) : TransactionsReply :=
  if ¬ q.routeValid then { status := 400, transactions := [], pagination := none }
  else
    let page := intOr q.page 1
    let limit := intOr q.limit 20
    let skip := (page - 1) * limit
    match searchTest regex q with
    | none => { status := 500, transactions := [], pagination := none }
    | some test =>
      let filter := queryFilter user q test
      let transactions :=
        ((sortByDateDesc (s.transactions.filter filter)).drop skip.toNat).take limit.toNat
      let total := (s.transactions.filter filter).length
      { status := 200, transactions := transactions
        pagination := some { current := page, pages := ⌈(total : ℚ) / (limit : ℚ)⌉, total := total } }

/-! ## User controller -/

/-- The call `Transaction.deleteMany({ user: userId })`. -/
def deleteTransactionsOf (s : Store) (userId : Nat) : Store :=
  { s with transactions := s.transactions.filter (fun t => decide (t.user ≠ userId)) }

/-- The call `Budget.deleteMany({ user: userId })`. -/
def deleteBudgetsOf (s : Store) (userId : Nat) : Store :=
  { s with budgets := s.budgets.filter (fun b => decide (b.user ≠ userId)) }

/-- The call `User.findByIdAndDelete(userId)`. -/
def deleteUserById (s : Store) (userId : Nat) : Store :=
  { s with users := s.users.eraseP (fun u => decide (u.id = userId)) }

/-- The stores after each of the three awaited writes of `deleteUserAccount`, in the order
in which the controller issues them. -/
def deleteUserAccountWrites (s : Store) (userId : Nat) : List Store :=
  let s1 := deleteTransactionsOf s userId
  let s2 := deleteBudgetsOf s1 userId
  let s3 := deleteUserById s2 userId
  [s1, s2, s3]

/-- The controller `deleteUserAccount`. -/
def deleteUserAccount (s : Store) (userId : Nat) : Outcome :=
  { status := 200, store := (deleteUserAccountWrites s userId).getLastD s }

/-! ## Properties named by the specification -/

/-- The unique index `{ user, category, month, year }` of the Budget collection: no two
documents of the list share the four fields. -/
def uniqueBudgetKeys (bs : List Budget) : Prop :=
  bs.Pairwise (fun a b => ¬ a.hasKey b.user b.category b.month b.year)

instance (bs : List Budget) : Decidable (uniqueBudgetKeys bs) :=
  inferInstanceAs (Decidable (List.Pairwise _ bs))

/-- The primary key of the Transaction collection: no two documents share `_id`. -/
def uniqueTransactionIds (ts : List Transaction) : Prop :=
  ts.Pairwise (fun a b => a.id ≠ b.id)

instance (ts : List Transaction) : Decidable (uniqueTransactionIds ts) :=
  inferInstanceAs (Decidable (List.Pairwise _ ts))

/-- A budget with `delta` added to `spent` when it is the budget of
(user, category, month, year), and unchanged otherwise. -/
def bumpIfKey (user : Nat) (category : String) (month year : Int) (delta : ℚ)
    (b : Budget) : Budget :=
  if b.hasKey user category month year then { b with spent := b.spent + delta } else b

/-- Reconciliation as the specification words it, on one budget `b` of the store: `spent`
decreases by the old amount when the old transaction was an expense and `b` is the caller's
budget of the old (category, month, year); it increases by the new amount when the new
transaction is an expense and `b` is the caller's budget of the new (category, month, year). -/
def reconciled (user : Nat) (old new : Transaction) (b : Budget) : Budget :=
  let removed : ℚ :=
    if old.type = "expense" ∧ b.hasKey user old.category old.date.month old.date.year
    then old.amount else 0
  let added : ℚ :=
    if new.type = "expense" ∧ b.hasKey user new.category new.date.month new.date.year
    then new.amount else 0
  { b with spent := b.spent - removed + added }

/-- The date lies in the calendar month (month, year). -/
def Date.inMonth (d : Date) (month year : Int) : Prop :=
  d.month = month ∧ d.year = year

instance (d : Date) (month year : Int) : Decidable (d.inMonth month year) :=
  inferInstanceAs (Decidable (_ ∧ _))

/-- The expense transactions of `user` in `category` dated in the calendar month
(month, year). -/
def expensesOfMonth (ts : List Transaction) (user : Nat) (category : String)
    (month year : Int) : List Transaction :=
  ts.filter (fun t => decide (t.user = user ∧ t.type = "expense" ∧ t.category = category ∧
    t.date.inMonth month year))

/-- Sum of the amounts of a list of transactions. -/
def totalAmount (ts : List Transaction) : ℚ := (ts.map (fun t => t.amount)).sum

/-- Cache consistency: every budget's `spent` is the sum of its owner's expenses of the
same category dated in the budget's month and year. -/
def spentConsistent (s : Store) : Prop :=
  ∀ b ∈ s.budgets, b.spent = totalAmount (expensesOfMonth s.transactions b.user b.category b.month b.year)

instance (s : Store) : Decidable (spentConsistent s) :=
  inferInstanceAs (Decidable (∀ b ∈ s.budgets, _))

/-! ## Concrete states used by the evaluations -/

/-- June 30th 2024, 23:59:59.500 local time: a date of June 2024 that is later than
`newDateDayZero 2024 6`. -/
def lastSecondOfJune : Date := { year := 2024, month := 6, day := 30, ms := 86399500 }

/-- June 5th 2024, noon. -/
def fifthOfJune : Date := { year := 2024, month := 6, day := 5, ms := 43200000 }

/-- An expense of 120 on Food in the last second of June 2024, owned by user 1. -/
def lateExpense : Transaction :=
  { id := 10, user := 1, type := "expense", amount := 120, category := "Food",
    description := "dinner", date := lastSecondOfJune }

/-- An expense of 120 on Food on June 5th 2024, owned by user 1. -/
def groceries : Transaction :=
  { id := 10, user := 1, type := "expense", amount := 120, category := "Food",
    description := "groceries", date := fifthOfJune }

/-- A salary of 900 received on June 5th 2024 by user 1. -/
def salary : Transaction :=
  { id := 11, user := 1, type := "income", amount := 900, category := "Salary",
    description := "salary", date := fifthOfJune }

/-- The Food budget of user 1 for June 2024 with limit 500. -/
def foodJune (spent : ℚ) : Budget :=
  { id := 1, user := 1, category := "Food", limit := 500, spent := spent, month := 6, year := 2024 }

/-- The Bills budget of user 1 for June 2024 with limit 200. -/
def billsJune (spent : ℚ) : Budget :=
  { id := 2, user := 1, category := "Bills", limit := 200, spent := spent, month := 6, year := 2024 }

/-- The Food budget of user 2 for June 2024 with limit 300. -/
def foodJuneOfUser2 (spent : ℚ) : Budget :=
  { id := 3, user := 2, category := "Food", limit := 300, spent := spent, month := 6, year := 2024 }

/-- The store without documents. -/
def emptyStore : Store := { users := [], transactions := [], budgets := [] }

/-- User 1 holds the late expense and a Food budget for June 2024. -/
def lateStore : Store :=
  { users := [], transactions := [lateExpense], budgets := [foodJune 120] }

/-- User 1 holds the groceries and the salary, a Food and a Bills budget for June 2024;
user 2 holds a Food budget for the same month. -/
def juneStore : Store :=
  { users := [], transactions := [groceries, salary],
    budgets := [foodJune 120, billsJune 0, foodJuneOfUser2 0] }

/-- The request body creating the late expense. -/
def lateBody : TransactionBody :=
  { type := "expense", amount := 120, category := "Food", description := "dinner",
    date := lastSecondOfJune }

/-- The request body creating a Food budget of 500 for June 2024. -/
def foodJuneBody : BudgetBody := { category := "Food", limit := 500, month := 6, year := 2024 }

/-- A patch without any field. -/
def emptyPatch : TransactionPatch :=
  { type := none, amount := none, category := none, description := none, date := none,
    user := none }

/-- The body `{ "category": "Bills" }`. -/
def toBillsPatch : TransactionPatch := { emptyPatch with category := some "Bills" }

/-- The body `{ "amount": 50 }`. -/
def amountPatch : TransactionPatch := { emptyPatch with amount := some 50 }

/-- The body `{ "date": "2024-06-30T23:59:59.500" }`. -/
def toLastSecondPatch : TransactionPatch := { emptyPatch with date := some lastSecondOfJune }

/-- The body `{ "user": 2 }`, naming another user as the owner. -/
def toUser2Patch : TransactionPatch := { emptyPatch with user := some 2 }

/-- The request body creating an income of 900 on June 5th 2024. -/
def salaryBody : TransactionBody :=
  { type := "income", amount := 900, category := "Salary", description := "salary",
    date := fifthOfJune }

/-! ## Properties and states of the budget, listing and account claims -/

/-- The primary key of the Budget collection: no two documents share `_id`. -/
def uniqueBudgetIds (bs : List Budget) : Prop :=
  bs.Pairwise (fun a b => a.id ≠ b.id)

instance (bs : List Budget) : Decidable (uniqueBudgetIds bs) :=
  inferInstanceAs (Decidable (List.Pairwise _ bs))

/-- The primary key of the User collection: no two documents share `_id`. -/
def uniqueUserIds (us : List User) : Prop :=
  us.Pairwise (fun a b => a.id ≠ b.id)

instance (us : List User) : Decidable (uniqueUserIds us) :=
  inferInstanceAs (Decidable (List.Pairwise _ us))

/-- The stores reachable from the empty store by `createBudget`, `updateBudget` and
`deleteBudget`; the `_id` generated for a new budget is not in use. -/
inductive BudgetReachable : Store → Prop
  | empty : BudgetReachable emptyStore
  | create (s : Store) (user newId : Nat) (body : BudgetBody) :
      BudgetReachable s → (∀ b ∈ s.budgets, b.id ≠ newId) →
      BudgetReachable (createBudget s user newId body).store
  | update (s : Store) (user budgetId : Nat) (body : BudgetPatch) :
      BudgetReachable s → BudgetReachable (updateBudget s user budgetId body).store
  | delete (s : Store) (user budgetId : Nat) :
      BudgetReachable s → BudgetReachable (deleteBudget s user budgetId).store

/-- The text `search` occurs in `text`, letter case set aside. -/
def containsIgnoreCase (text search : String) : Bool :=
  (text.toList.map Char.toLower).tails.any
    (fun rest => (search.toList.map Char.toLower).isPrefixOf rest)

/-- The pattern `pat` of literal characters and wildcards `.` matches at the head of `text`,
letter case set aside; the wildcard stands for any character but a line feed. -/
def wildcardMatchesAt (pat text : List Char) : Bool :=
  match pat, text with
  | [], _ => true
  | _ :: _, [] => false
  | p :: ps, c :: cs =>
    (if p = '.' then decide (c ≠ '\n') else decide (p.toLower = c.toLower)) &&
      wildcardMatchesAt ps cs

/-- The characters with a special meaning in a pattern, the wildcard `.` left out:
backslash, caret, dollar, star, plus, question mark, round, square and curly brackets, bar. -/
def patternSpecials : List Nat := [92, 94, 36, 42, 43, 63, 40, 41, 91, 93, 123, 125, 124]

/-- A regular-expression engine for the patterns of literal characters and wildcards `.`,
searched anywhere in the text without regard to letter case; it refuses every other
pattern. It stands for the engine of the store when a listing is run on concrete input. -/
def wildcardRegex (pattern : String) : Option (String → Bool) :=
  if pattern.toList.any (fun c => decide (c.toNat ∈ patternSpecials)) then none
  else some (fun text => text.toList.tails.any (wildcardMatchesAt pattern.toList))

/-- The filtered, date-descending list that a listing pages through: the transactions of the
store that pass the filter of the query, latest first. -/
def listing (s : Store) (user : Nat) (q : TransactionQuery) (test : String → Bool) :
    List Transaction :=
  sortByDateDesc (s.transactions.filter (queryFilter user q test))

/-- The query without any parameter. -/
def emptyQuery : TransactionQuery :=
  { page := none, limit := none, type := none, category := none, startDate := none,
    endDate := none, search := none }

/-- The query `?search=.`. -/
def dotQuery : TransactionQuery := { emptyQuery with search := some "." }

/-- The query `?limit=1&type=expense`. -/
def onePerPageQuery : TransactionQuery :=
  { emptyQuery with limit := some 1, type := some "expense" }

/-- A patch of a budget without any field. -/
def emptyBudgetPatch : BudgetPatch :=
  { category := none, limit := none, month := none, year := none, spent := none,
    user := none }

/-- The body `{ "category": "Food" }` of a budget update. -/
def toFoodPatch : BudgetPatch := { emptyBudgetPatch with category := some "Food" }

/-- June 5th 2024, local midnight. -/
def june5 : Date := { year := 2024, month := 6, day := 5, ms := 0 }

/-- June 20th 2024, local midnight. -/
def june20 : Date := { year := 2024, month := 6, day := 20, ms := 0 }

/-- The starting store of the worked example: user 1 with only the Food budget of June
2024, limit 500. -/
def exampleStart : Store := { users := [], transactions := [], budgets := [foodJune 0] }

/-- The first request of the worked example: an expense of 120 on Food on 2024-06-05. -/
def exampleFirst : TransactionBody :=
  { type := "expense", amount := 120, category := "Food", description := "first",
    date := june5 }

/-- The second request of the worked example: an expense of 300 on Food on 2024-06-20. -/
def exampleSecond : TransactionBody :=
  { type := "expense", amount := 300, category := "Food", description := "second",
    date := june20 }

/-- The store of the worked example after the first request (the transaction gets id 20). -/
def exampleAfterFirst : Store := (createTransaction exampleStart 1 20 exampleFirst).store

/-- The store of the worked example after the second request (id 21). -/
def exampleAfterSecond : Store :=
  (createTransaction exampleAfterFirst 1 21 exampleSecond).store

/-- The store of the worked example after deleting the first transaction. -/
def exampleAfterDelete : Store := (deleteTransaction exampleAfterSecond 1 20).store

/-- The computed fields of a progress entry that the worked example reads. -/
def progressSummary (p : BudgetProgress) : ℚ × Int × String :=
  (p.actualSpent, p.percentage, p.status)

/-- The Progress entry of the worked example after its first request. -/
def exampleEntry : BudgetProgress :=
  { budget := foodJune 120, actualSpent := 120, percentage := 24, remaining := 380,
    status := "good", transactionCount := 1 }

/-- The request body creating a Bills budget of 200 for June 2024. -/
def billsJuneBody : BudgetBody := { category := "Bills", limit := 200, month := 6, year := 2024 }

/-- The store after user 1 created the Food budget (id 1) and the Bills budget (id 2) of
June 2024 in the empty store. -/
def twoBudgetStore : Store :=
  (createBudget (createBudget emptyStore 1 1 foodJuneBody).store 1 2 billsJuneBody).store

/-- A store with two users: user 1 with the records of `juneStore`, user 2 with one
transaction and the Food budget of June 2024. -/
def twoUserStore : Store :=
  { users := [{ id := 1, name := "Ann", email := "ann@example.org", avatar := none },
              { id := 2, name := "Bob", email := "bob@example.org", avatar := none }]
    transactions := [groceries, { salary with id := 12, user := 2 }, salary]
    budgets := [foodJune 120, billsJune 0, foodJuneOfUser2 0] }

/-! ## Budgets of a period, statistics and pagination helper -/

/-- The order `.sort({ category: 1 })` on budgets. -/
def categoryAsc (a b : Budget) : Prop := a.category ≤ b.category

instance (a b : Budget) : Decidable (categoryAsc a b) :=
  inferInstanceAs (Decidable (a.category ≤ b.category))

/-- The controller `getBudgets`, given the month and year read from the query. -/
def getBudgets (s : Store) (user : Nat) (month year : Int) : List Budget :=
  (s.budgets.filter (fun b => decide (b.user = user ∧ b.month = month ∧ b.year = year))).insertionSort
    categoryAsc

/-- The call `d.setMonth(d.getMonth() - 6)`: the month index moves back by six, carrying
into the year; a day of month beyond the end of the month reached rolls over into the
month after it. -/
def sixMonthsBefore (d : Date) : Date :=
  let index := d.month - 1 - 6
  let y := d.year + index / 12
  let m := index % 12 + 1
  if d.day ≤ daysInMonth y m then { year := y, month := m, day := d.day, ms := d.ms }
  else if m = 12 then { year := y + 1, month := 1, day := d.day - daysInMonth y m, ms := d.ms }
  else { year := y, month := m + 1, day := d.day - daysInMonth y m, ms := d.ms }

/-- One result of the `monthly` aggregation: `_id` is the type. -/
structure TypeStat where
  type : String
  total : ℚ
  count : Nat
  deriving DecidableEq

/-- One result of the `categories` aggregation: `_id` is the category. -/
structure CategoryStat where
  category : String
  total : ℚ
  count : Nat
  deriving DecidableEq

/-- One result of the `trends` aggregation: `_id` is (year, month, type). -/
structure TrendStat where
  year : Int
  month : Int
  type : String
  total : ℚ
  deriving DecidableEq

/-- The response of `getTransactionStats`. -/
structure TransactionStats where
  monthly : List TypeStat
  categories : List CategoryStat
  trends : List TrendStat
  deriving DecidableEq

/-- The keys of a `$group` stage: the distinct values of `key` over the documents. -/
def groupKeys {κ : Type} [DecidableEq κ] (key : Transaction → κ) (ts : List Transaction) :
    List κ :=
  (ts.map key).dedup

/-- The order `{ $sort: { total: -1 } }`. -/
def totalDesc (a b : CategoryStat) : Prop := b.total ≤ a.total

instance (a b : CategoryStat) : Decidable (totalDesc a b) :=
  inferInstanceAs (Decidable (b.total ≤ a.total))

instance : IsTotal CategoryStat totalDesc :=
  ⟨fun a b => le_total b.total a.total⟩

instance : IsTrans CategoryStat totalDesc :=
  ⟨fun _ _ _ hab hbc => le_trans hbc hab⟩

/-- The order `{ $sort: { '_id.year': 1, '_id.month': 1 } }`. -/
def yearMonthAsc (a b : TrendStat) : Prop :=
  a.year < b.year ∨ (a.year = b.year ∧ a.month ≤ b.month)

instance (a b : TrendStat) : Decidable (yearMonthAsc a b) :=
  inferInstanceAs (Decidable (_ ∨ _))

instance : IsTotal TrendStat yearMonthAsc :=
  ⟨fun a b => by unfold yearMonthAsc; omega⟩

instance : IsTrans TrendStat yearMonthAsc :=
  ⟨fun a b c => by unfold yearMonthAsc; omega⟩

/-- The `$match` stage of the `monthly` aggregation. -/
def monthlyMatch (ts : List Transaction) (user : Nat) (startOfMonth endOfMonth : Date) :
    List Transaction :=
  ts.filter (fun t => decide (t.user = user ∧
    Date.le startOfMonth t.date ∧ Date.le t.date endOfMonth))

/-- The `$match` stage of the `categories` aggregation. -/
def categoriesMatch (ts : List Transaction) (user : Nat) (startOfMonth endOfMonth : Date) :
    List Transaction :=
  ts.filter (fun t => decide (t.user = user ∧ t.type = "expense" ∧
    Date.le startOfMonth t.date ∧ Date.le t.date endOfMonth))

/-- The `$match` stage of the `trends` aggregation. -/
def trendsMatch (ts : List Transaction) (user : Nat) (sixMonthsAgo : Date) :
    List Transaction :=
  ts.filter (fun t => decide (t.user = user ∧ Date.le sixMonthsAgo t.date))

/-- The controller `getTransactionStats`. `now` is the value of `new Date()`; `utc` gives
the calendar fields in UTC of a date, which the operators `$year` and `$month` read. -/
def getTransactionStats (utc : Date → Date) (now : Date) (s : Store) (user : Nat) :
    TransactionStats :=
  let currentMonth := now.getMonth + 1
  let currentYear := now.getFullYear
  let startOfMonth := newDateFirst currentYear (currentMonth - 1)
  let endOfMonth := newDateDayZero currentYear currentMonth
  let monthlyDocs := monthlyMatch s.transactions user startOfMonth endOfMonth
  let monthlyStats : List TypeStat :=
    (groupKeys (fun t => t.type) monthlyDocs).map (fun k =>
      { type := k
        total := totalAmount (monthlyDocs.filter (fun t => decide (t.type = k)))
        count := (monthlyDocs.filter (fun t => decide (t.type = k))).length })
  let categoryDocs := categoriesMatch s.transactions user startOfMonth endOfMonth
  let categoryStats : List CategoryStat :=
    ((groupKeys (fun t => t.category) categoryDocs).map (fun k =>
      { category := k
        total := totalAmount (categoryDocs.filter (fun t => decide (t.category = k)))
        count := (categoryDocs.filter (fun t => decide (t.category = k))).length })).insertionSort
      totalDesc
  let sixMonthsAgo := sixMonthsBefore now
  let trendDocs := trendsMatch s.transactions user sixMonthsAgo
  let trendKey : Transaction → Int × Int × String :=
    fun t => ((utc t.date).year, (utc t.date).month, t.type)
  let monthlyTrends : List TrendStat :=
    ((groupKeys trendKey trendDocs).map (fun k =>
      { year := k.1, month := k.2.1, type := k.2.2
        total := totalAmount (trendDocs.filter (fun t => decide (trendKey t = k))) })).insertionSort
      yearMonthAsc
  { monthly := monthlyStats, categories := categoryStats, trends := monthlyTrends }

/-- The helper `validatePagination` of `utils/validators.js`; its arguments are the values
of `parseInt(page)` and `parseInt(limit)`, absent when `parseInt` gives no number. -/
def validatePagination (page limit : Option Int) : Int × Int :=
  let pageNum := intOr page 1
  let limitNum := intOr limit 20
  (max 1 pageNum, min 100 (max 1 limitNum))

/-! ## Client: the transaction cache and the budget summary -/

/-- The `filters` of the client state. -/
structure ClientFilters where
  type : String
  category : String
  startDate : String
  endDate : String
  search : String
  page : Int
  limit : Int
  deriving DecidableEq

/-- The payload of `SET_FILTERS`: the filters to overwrite. -/
structure ClientFiltersPatch where
  type : Option String
  category : Option String
  startDate : Option String
  endDate : Option String
  search : Option String
  page : Option Int
  limit : Option Int
  deriving DecidableEq

/-- The state of the transaction context (`context/transactioncontext.jsx`). -/
structure ClientState where
  transactions : List Transaction
  loading : Bool
  error : Option String
  pagination : Pagination
  stats : TransactionStats
  filters : ClientFilters
  deriving DecidableEq

/-- The constant `initialState.filters`. -/
def initialFilters : ClientFilters :=
  { type := "", category := "", startDate := "", endDate := "", search := "", page := 1,
    limit := 20 }

/-- The constant `initialState`. -/
def initialState : ClientState :=
  { transactions := [], loading := false, error := none
    pagination := { current := 1, pages := 1, total := 0 }
    stats := { monthly := [], categories := [], trends := [] }
    filters := initialFilters }

/-- The actions of the transaction context with their payloads; `unknown` stands for an
action whose type is none of the nine handled ones. -/
inductive ClientAction where
  | fetchTransactionsRequest
  | fetchTransactionsSuccess (transactions : List Transaction) (pagination : Pagination)
  | fetchTransactionsError (error : String)
  | createTransactionSuccess (transaction : Transaction)
  | updateTransactionSuccess (transaction : Transaction)
  | deleteTransactionSuccess (id : Nat)
  | fetchStatsSuccess (stats : TransactionStats)
  | setFilters (patch : ClientFiltersPatch)
  | clearFilters
  | unknown (type : String)

/-- The function `transactionReducer`. -/
def transactionReducer (state : ClientState) (action : ClientAction) : ClientState :=
  match action with
  | .fetchTransactionsRequest => { state with loading := true, error := none }
  | .fetchTransactionsSuccess transactions pagination =>
    { state with
      loading := false, transactions := transactions, pagination := pagination, error := none }
  | .fetchTransactionsError error =>
    { state with loading := false, error := some error, transactions := [] }
  | .createTransactionSuccess transaction =>
    { state with transactions := transaction :: state.transactions }
  | .updateTransactionSuccess payload =>
    { state with
      transactions := state.transactions.map (fun transaction =>
        if transaction.id = payload.id then payload else transaction) }
  | .deleteTransactionSuccess payload =>
    { state with
      transactions := state.transactions.filter (fun transaction =>
        decide (transaction.id ≠ payload)) }
  | .fetchStatsSuccess stats => { state with stats := stats }
  | .setFilters patch =>
    { state with
      filters :=
        { type := patch.type.getD state.filters.type
          category := patch.category.getD state.filters.category
          startDate := patch.startDate.getD state.filters.startDate
          endDate := patch.endDate.getD state.filters.endDate
          search := patch.search.getD state.filters.search
          page := patch.page.getD state.filters.page
          limit := patch.limit.getD state.filters.limit } }
  | .clearFilters => { state with filters := initialFilters }
  | .unknown _ => state

/-- The accumulator of `budgetService.getSummary`. -/
structure BudgetSummary where
  totalBudget : ℚ
  totalSpent : ℚ
  totalRemaining : ℚ
  exceededCount : Nat
  warningCount : Nat
  goodCount : Nat
  totalCategories : Nat
  deriving DecidableEq

/-- The callback of the `reduce` in `budgetService.getSummary`; `a || b` on numbers takes
`b` when `a` is 0. -/
def summaryStep (acc : BudgetSummary) (budget : BudgetProgress) : BudgetSummary :=
  let acc1 : BudgetSummary :=
    { acc with
      totalBudget := acc.totalBudget + budget.budget.limit
      totalSpent := acc.totalSpent +
        (if budget.actualSpent = 0 then budget.budget.spent else budget.actualSpent)
      totalRemaining := acc.totalRemaining + budget.remaining }
  if budget.status = "exceeded" then { acc1 with exceededCount := acc1.exceededCount + 1 }
  else if budget.status = "warning" then { acc1 with warningCount := acc1.warningCount + 1 }
  else { acc1 with goodCount := acc1.goodCount + 1 }

/-- The function `budgetService.getSummary`, given the Progress list it fetched. -/
def getSummary (budgets : List BudgetProgress) : BudgetSummary :=
  budgets.foldl summaryStep
    { totalBudget := 0, totalSpent := 0, totalRemaining := 0, exceededCount := 0,
      warningCount := 0, goodCount := 0, totalCategories := budgets.length }

/-! ## Properties and states of the validation, invariant and isolation claims -/

/-- The stores reachable from the empty store by the six mutating requests on
transactions and budgets, with any caller and any arguments. -/
inductive Reachable : Store → Prop
  | empty : Reachable emptyStore
  | transactionCreated (s : Store) (user newId : Nat) (body : TransactionBody) :
      Reachable s → Reachable (createTransaction s user newId body).store
  | transactionUpdated (s : Store) (user txId : Nat) (body : TransactionPatch) :
      Reachable s → Reachable (updateTransaction s user txId body).store
  | transactionDeleted (s : Store) (user txId : Nat) :
      Reachable s → Reachable (deleteTransaction s user txId).store
  | budgetCreated (s : Store) (user newId : Nat) (body : BudgetBody) :
      Reachable s → Reachable (createBudget s user newId body).store
  | budgetUpdated (s : Store) (user budgetId : Nat) (body : BudgetPatch) :
      Reachable s → Reachable (updateBudget s user budgetId body).store
  | budgetDeleted (s : Store) (user budgetId : Nat) :
      Reachable s → Reachable (deleteBudget s user budgetId).store

/-- Two stores agree on the transactions and budgets owned by `user`. -/
def agreeOn (user : Nat) (s1 s2 : Store) : Prop :=
  s1.transactions.filter (fun t => decide (t.user = user)) =
    s2.transactions.filter (fun t => decide (t.user = user)) ∧
  s1.budgets.filter (fun b => decide (b.user = user)) =
    s2.budgets.filter (fun b => decide (b.user = user))

instance (user : Nat) (s1 s2 : Store) : Decidable (agreeOn user s1 s2) :=
  inferInstanceAs (Decidable (_ ∧ _))

/-- The rank of a status: "good" below "warning" below "exceeded". -/
def statusRank (status : String) : Nat :=
  if status = "exceeded" then 2 else if status = "warning" then 1 else 0

/-- A request body with an amount above 999999.99. -/
def millionBody : TransactionBody :=
  { type := "expense", amount := 1000000, category := "Food", description := "villa",
    date := june5 }

/-- A request body with a category outside the allowed set. -/
def giftsBody : TransactionBody :=
  { type := "expense", amount := 30, category := "Gifts", description := "present",
    date := june5 }

/-- The request body creating an expense of 120 on Food on 2024-06-05. -/
def groceriesBody : TransactionBody :=
  { type := "expense", amount := 120, category := "Food", description := "groceries",
    date := fifthOfJune }

/-- The request body creating a Food budget of 500 for July 2024. -/
def foodJulyBody : BudgetBody := { category := "Food", limit := 500, month := 7, year := 2024 }

/-- The body `{ "month": 6 }` of a budget update. -/
def toJunePatch : BudgetPatch := { emptyBudgetPatch with month := some 6 }

/-- User 1 records the groceries of June 5th (id 10). -/
def overdrawn1 : Store := (createTransaction emptyStore 1 10 groceriesBody).store

/-- User 1 then creates the Food budget of July 2024 (id 1), backfilled with 0. -/
def overdrawn2 : Store := (createBudget overdrawn1 1 1 foodJulyBody).store

/-- User 1 then moves the budget to June 2024. -/
def overdrawn3 : Store := (updateBudget overdrawn2 1 1 toJunePatch).store

/-- User 1 then deletes the groceries. -/
def overdrawn4 : Store := (deleteTransaction overdrawn3 1 10).store

/-- June 15th 2024, noon: the time of a statistics request. -/
def midJune : Date := { year := 2024, month := 6, day := 15, ms := 43200000 }

/-- The UTC fields of a date on a server whose local time is UTC. -/
def utcIsLocal (d : Date) : Date := d

/-- A store of user 1 and user 2 that agrees with `juneStore` on the records of user 1. -/
def juneStoreWithOthers : Store :=
  { users := []
    transactions := [{ salary with id := 12, user := 2 }, groceries, salary]
    budgets := [foodJuneOfUser2 40, foodJune 120, billsJune 0] }

/-- The documents that the `monthly` aggregation of a statistics request at `now` groups. -/
def currentMonthDocs (now : Date) (s : Store) (user : Nat) : List Transaction :=
  monthlyMatch s.transactions user (newDateFirst now.getFullYear (now.getMonth + 1 - 1))
    (newDateDayZero now.getFullYear (now.getMonth + 1))

/-- The documents that the `categories` aggregation of a statistics request at `now`
groups. -/
def currentMonthExpenses (now : Date) (s : Store) (user : Nat) : List Transaction :=
  categoriesMatch s.transactions user (newDateFirst now.getFullYear (now.getMonth + 1 - 1))
    (newDateDayZero now.getFullYear (now.getMonth + 1))

/-- The documents that the `trends` aggregation of a statistics request at `now` groups. -/
def trailingDocs (now : Date) (s : Store) (user : Nat) : List Transaction :=
  trendsMatch s.transactions user (sixMonthsBefore now)

/-! ## The arithmetic of JavaScript numbers -/

/-- The arithmetic a controller computes with: the operators `+`, `-`, `*`, `/` on numbers
(`$inc` adds with the same `+`) and the `$sum` accumulator of an aggregation. -/
structure Arithmetic where
  add : ℚ → ℚ → ℚ
  sub : ℚ → ℚ → ℚ
  mul : ℚ → ℚ → ℚ
  div : ℚ → ℚ → ℚ
  sum : List ℚ → ℚ

/-- Arithmetic without rounding: the one the controllers above are written over. -/
def exactArithmetic : Arithmetic :=
  { add := fun a b => a + b, sub := fun a b => a - b, mul := fun a b => a * b,
    div := fun a b => a / b, sum := fun xs => xs.sum }

/-- Number of binary digits of `n`, examining at most `fuel` of them. -/
def bitLength : Nat → Nat → Nat
  | 0, _ => 0
  | fuel + 1, n => if n = 0 then 0 else bitLength fuel (n / 2) + 1

/-- The integer nearest to `N / D`, a tie going to the even one. -/
def roundHalfEven (N D : Nat) : Nat :=
  let q := N / D
  let r := N % D
  if 2 * r < D then q else if D < 2 * r then q + 1 else if q % 2 = 0 then q else q + 1

/-- The IEEE 754 binary64 value nearest to the positive rational `n / d` (ties to even):
with `2 ^ E ≤ n / d < 2 ^ (E + 1)` the result is a multiple of `2 ^ (E - 52)`, and of
`2 ^ (-1074)` in the subnormal range. Results of magnitude `2 ^ 1024` and above, which
IEEE 754 replaces by `Infinity`, are outside the embedding. -/
def toDoublePos (n d : Nat) : ℚ :=
  let k : Int := (bitLength n n : Int) - (bitLength d d : Int)
  let atLeast : Bool :=
    if 0 ≤ k then decide (d * 2 ^ k.toNat ≤ n) else decide (d ≤ n * 2 ^ (-k).toNat)
  let E : Int := if atLeast then k else k - 1
  let e : Int := max (E - 52) (-1074)
  if e ≤ 0 then mkRat (roundHalfEven (n * 2 ^ (-e).toNat) d) (2 ^ (-e).toNat)
  else ((roundHalfEven n (d * 2 ^ e.toNat) * 2 ^ e.toNat : Nat) : ℚ)

/-- The JavaScript number (IEEE 754 binary64, round to nearest, ties to even) that a real
result `x` is rounded to. -/
def toDouble (x : ℚ) : ℚ :=
  if x = 0 then 0
  else if 0 < x then toDoublePos x.num.natAbs x.den
  else - toDoublePos x.num.natAbs x.den

/-- The arithmetic of the running program: every operation returns the binary64 value
nearest to the real result, and `$sum` adds the values one by one in document order. -/
def doubleArithmetic : Arithmetic :=
  { add := fun a b => toDouble (a + b), sub := fun a b => toDouble (a - b),
    mul := fun a b => toDouble (a * b), div := fun a b => toDouble (a / b),
    sum := fun xs => xs.foldl (fun a x => toDouble (a + x)) 0 }

/-- The update `findOneAndUpdate(…, { $inc: { spent: delta } })` over the arithmetic `ops`. -/
def incSpentWith (ops : Arithmetic) (bs : List Budget) (user : Nat) (category : String)
    (month year : Int) (delta : ℚ) : List Budget :=
  match bs with
  | [] => []
  | b :: rest =>
    if b.hasKey user category month year then { b with spent := ops.add b.spent delta } :: rest
    else b :: incSpentWith ops rest user category month year delta

/-- The controller `createTransaction` over the arithmetic `ops`. -/
def createTransactionWith (ops : Arithmetic) (s : Store) (user newId : Nat)
    (body : TransactionBody) : Outcome :=
  if ¬ body.routeValid then { status := 400, store := s }
  else
    let transaction : Transaction :=
      { id := newId, user := user, type := body.type, amount := body.amount,
        category := body.category, description := jsTrim body.description, date := body.date }
    if ¬ transaction.schemaValid then { status := 500, store := s, message := some serverError }
    else
      let s1 : Store := { s with transactions := s.transactions ++ [transaction] }
      let s2 : Store :=
        if body.type = "expense" then
          let month := body.date.getMonth + 1
          let year := body.date.getFullYear
          { s1 with
            budgets := incSpentWith ops s1.budgets user body.category month year body.amount }
        else s1
      { status := 201, store := s2 }

/-- The `$group` stage `{ _id: null, total: { $sum: '$amount' }, count: { $sum: 1 } }` over
the arithmetic `ops`. -/
def groupAllWith (ops : Arithmetic) (ts : List Transaction) : List GroupTotal :=
  match ts with
  | [] => []
  | _ :: _ => [{ total := ops.sum (ts.map (fun t => t.amount)), count := ts.length }]

/-- The controller `getBudgetProgress` over the arithmetic `ops`: the quotient
`spent / budget.limit`, its product with 100 and the difference `budget.limit - spent` are
results of `ops`; `Math.round` and `Math.max` return exact values of their arguments. -/
def getBudgetProgressWith (ops : Arithmetic) (s : Store) (user : Nat) (month year : Int) :
    List BudgetProgress :=
  let budgets := s.budgets.filter (fun b => decide (b.user = user ∧ b.month = month ∧ b.year = year))
  budgets.map (fun budget =>
    let startDate := newDateFirst year (month - 1)
    let endDate := newDateDayZero year month
    let actualSpending :=
      groupAllWith ops (matchExpenses s.transactions user budget.category startDate endDate)
    let spent : ℚ := match actualSpending with
      | [] => 0
      | g :: _ => g.total
    let transactionCount : Nat := match actualSpending with
      | [] => 0
      | g :: _ => g.count
    let percentage : Int :=
      if budget.limit > 0 then mathRound (ops.mul (ops.div spent budget.limit) 100) else 0
    let remaining := ops.sub budget.limit spent
    let status : String :=
      if percentage ≥ 100 then "exceeded" else if percentage ≥ 80 then "warning" else "good"
    { budget := budget, actualSpent := spent, percentage := percentage,
      remaining := max 0 remaining, status := status, transactionCount := transactionCount })

/-- The result of `$inc` by `delta` over `ops` on a budget with the given key; any other
budget as it is. -/
def bumpWith (ops : Arithmetic) (user : Nat) (category : String) (month year : Int) (delta : ℚ)
    (b : Budget) : Budget :=
  if b.hasKey user category month year then { b with spent := ops.add b.spent delta } else b

/-- An expense of 0.1 on Food, dated 2024-06-05; the amount is the number read from `0.1`. -/
def pointOneBody : TransactionBody :=
  { type := "expense", amount := toDouble (1 / 10), category := "Food", description := "Gum",
    date := june5 }

/-- An expense of 0.2 on Food, dated 2024-06-20; the amount is the number read from `0.2`. -/
def pointTwoBody : TransactionBody :=
  { type := "expense", amount := toDouble (2 / 10), category := "Food", description := "Mint",
    date := june20 }

/-- The store after the expense of 0.1 on a Food budget of June 2024 that had spent 0. -/
def pointOneStore : Store :=
  (createTransactionWith doubleArithmetic exampleStart 1 20 pointOneBody).store

/-- User 1 with the Food budget of June 2024 of the given limit and one Food expense of the
given amount in that month. -/
def singleExpenseStore (limit amount : ℚ) : Store :=
  { users := []
    transactions :=
      [{ id := 10, user := 1, type := "expense", amount := amount, category := "Food",
         description := "Sweet", date := june5 }]
    budgets :=
      [{ id := 1, user := 1, category := "Food", limit := limit, spent := amount, month := 6,
         year := 2024 }] }

/-- A Food budget of June 2024 with limit 0.08 and one Food expense of 0.03 in that month;
limit and amount are the numbers read from `0.08` and `0.03`. -/
def centsStore : Store := singleExpenseStore (toDouble (8 / 100)) (toDouble (3 / 100))

/-- The progress entry of `centsStore` for June 2024 over `doubleArithmetic`. -/
def centsEntry : BudgetProgress :=
  { budget := { id := 1, user := 1, category := "Food", limit := toDouble (8 / 100),
                spent := toDouble (3 / 100), month := 6, year := 2024 }
    actualSpent := toDouble (3 / 100), percentage := 38, remaining := toDouble (5 / 100),
    status := "good", transactionCount := 1 }

end FinanceTracker


/-! ## Theorems -/

namespace FinanceTracker

/-! ### The month window of the aggregations -/

/-- The window `[new Date(year, month - 1, 1), new Date(year, month, 0, 23, 59, 59)]` used by
`createBudget` and `getBudgetProgress` holds the dates of the calendar month except those of
its last day later than 23:59:59.000. -/
theorem window_iff_inMonth (d : Date) (month year : Int) (hd : d.valid)
    (hm1 : 1 ≤ month) (hm2 : month ≤ 12) (hy : 100 ≤ year) :
    (Date.le (newDateFirst year (month - 1)) d ∧ Date.le d (newDateDayZero year month)) ↔
      (d.inMonth month year ∧ (d.day < daysInMonth year month ∨ d.ms ≤ 86399000)) := by
  obtain ⟨v1, v2, v3, v4, v5, v6⟩ := hd
  have hfy : fullYearOf year = year := by
    unfold fullYearOf
    rw [if_neg]
    omega
  have hq : (month - 1) / 12 = 0 := by omega
  have hr : (month - 1) % 12 + 1 = month := by omega
  simp only [Date.le, newDateFirst, newDateDayZero, Date.inMonth, hfy, hq, hr, add_zero]
  constructor
  · rintro ⟨h1, h2⟩
    have hy2 : d.year = year := by omega
    have hm : d.month = month := by omega
    refine ⟨⟨hm, hy2⟩, ?_⟩
    omega
  · rintro ⟨⟨hm, hy2⟩, h3⟩
    subst hm hy2
    constructor
    · omega
    · omega

/-- The computed fields of `getBudgetProgress` do not read the cached `spent`: overwriting
`spent` in every budget leaves `actualSpent`, `percentage`, `remaining`, `status` and
`transactionCount` of every reported budget as they were. -/
theorem getBudgetProgress_ignores_cached_spent (s : Store) (f : Budget → ℚ) (user : Nat)
    (month year : Int) :
    (getBudgetProgress { s with budgets := s.budgets.map (fun b => { b with spent := f b }) }
        user month year).map
      (fun p => (p.budget.id, p.actualSpent, p.percentage, p.remaining, p.status,
        p.transactionCount)) =
    (getBudgetProgress s user month year).map
      (fun p => (p.budget.id, p.actualSpent, p.percentage, p.remaining, p.status,
        p.transactionCount)) := by
  unfold getBudgetProgress
  simp only [List.filter_map, List.map_map]
  rfl

/-! ### Lookups and increments -/

theorem hasKey_bump (b : Budget) (d : ℚ) (u : Nat) (c : String) (m y : Int) :
    ({ b with spent := b.spent + d } : Budget).hasKey u c m y ↔ b.hasKey u c m y := by
  simp [Budget.hasKey]

theorem incSpent_length (bs : List Budget) (u : Nat) (c : String) (m y : Int) (d : ℚ) :
    (incSpent bs u c m y d).length = bs.length := by
  induction bs with
  | nil => simp [incSpent]
  | cons b rest ih =>
    unfold incSpent
    split <;> simp [ih]

theorem incSpent_of_findBudget_none (bs : List Budget) (u : Nat) (c : String) (m y : Int)
    (d : ℚ) (h : findBudget bs u c m y = none) : incSpent bs u c m y d = bs := by
  induction bs with
  | nil => simp [incSpent]
  | cons b rest ih =>
    unfold findBudget at h
    rw [List.find?_cons] at h
    by_cases hb : b.hasKey u c m y
    · simp [hb] at h
    · simp only [hb, decide_False] at h
      unfold incSpent
      rw [if_neg hb, ih h]

theorem map_bumpIfKey_of_no_key (bs : List Budget) (u : Nat) (c : String) (m y : Int) (d : ℚ)
    (h : ∀ x ∈ bs, ¬ x.hasKey u c m y) : bs.map (bumpIfKey u c m y d) = bs := by
  induction bs with
  | nil => rfl
  | cons b rest ih =>
    have hb : ¬ b.hasKey u c m y := h b (List.mem_cons_self _ _)
    have hr : ∀ x ∈ rest, ¬ x.hasKey u c m y := fun x hx => h x (List.mem_cons_of_mem _ hx)
    simp [bumpIfKey, hb, ih hr]

theorem incSpent_eq_map (bs : List Budget) (u : Nat) (c : String) (m y : Int) (d : ℚ)
    (h : uniqueBudgetKeys bs) : incSpent bs u c m y d = bs.map (bumpIfKey u c m y d) := by
  induction bs with
  | nil => rfl
  | cons b rest ih =>
    unfold uniqueBudgetKeys at h
    rw [List.pairwise_cons] at h
    unfold incSpent
    by_cases hb : b.hasKey u c m y
    · have hr : ∀ x ∈ rest, ¬ x.hasKey u c m y := by
        intro x hx hxk
        apply h.1 x hx
        unfold Budget.hasKey at hb hxk ⊢
        obtain ⟨h1, h2, h3, h4⟩ := hb
        obtain ⟨k1, k2, k3, k4⟩ := hxk
        exact ⟨h1.trans k1.symm, h2.trans k2.symm, h3.trans k3.symm, h4.trans k4.symm⟩
      rw [if_pos hb, List.map_cons, map_bumpIfKey_of_no_key rest u c m y d hr]
      simp [bumpIfKey, hb]
    · rw [if_neg hb, List.map_cons, ih h.2]
      simp [bumpIfKey, hb]

theorem bumpIfKey_hasKey (u : Nat) (c : String) (m y : Int) (d : ℚ) (b : Budget)
    (u2 : Nat) (c2 : String) (m2 y2 : Int) :
    (bumpIfKey u c m y d b).hasKey u2 c2 m2 y2 ↔ b.hasKey u2 c2 m2 y2 := by
  unfold bumpIfKey
  split
  · exact hasKey_bump b d u2 c2 m2 y2
  · exact Iff.rfl

theorem bumpIfKey_fields (u : Nat) (c : String) (m y : Int) (d : ℚ) (b : Budget) :
    (bumpIfKey u c m y d b).user = b.user ∧ (bumpIfKey u c m y d b).category = b.category ∧
    (bumpIfKey u c m y d b).month = b.month ∧ (bumpIfKey u c m y d b).year = b.year ∧
    (bumpIfKey u c m y d b).id = b.id ∧ (bumpIfKey u c m y d b).limit = b.limit := by
  unfold bumpIfKey
  split <;> simp

theorem uniqueBudgetKeys_map_bumpIfKey (bs : List Budget) (u : Nat) (c : String) (m y : Int)
    (d : ℚ) (h : uniqueBudgetKeys bs) : uniqueBudgetKeys (bs.map (bumpIfKey u c m y d)) := by
  unfold uniqueBudgetKeys at h ⊢
  rw [List.pairwise_map]
  refine h.imp ?_
  intro a b hab hk
  apply hab
  obtain ⟨f1, f2, f3, f4, -, -⟩ := bumpIfKey_fields u c m y d b
  rw [f1, f2, f3, f4] at hk
  exact (bumpIfKey_hasKey u c m y d a _ _ _ _).mp hk

theorem reconciled_eq_bumps (user : Nat) (old new : Transaction) (b : Budget) :
    reconciled user old new b =
      (if new.type = "expense"
        then bumpIfKey user new.category new.date.month new.date.year new.amount else id)
      ((if old.type = "expense"
        then bumpIfKey user old.category old.date.month old.date.year (-old.amount) else id) b) := by
  unfold reconciled
  by_cases h1 : old.type = "expense" <;> by_cases h2 : new.type = "expense" <;>
  by_cases h3 : b.hasKey user old.category old.date.month old.date.year <;>
  by_cases h4 : b.hasKey user new.category new.date.month new.date.year <;>
  simp [h1, h2, h3, h4, bumpIfKey, hasKey_bump, sub_eq_add_neg]

/-! ### Updating a transaction -/

theorem updateTransaction_budgets (s : Store) (user txId : Nat) (body : TransactionPatch)
    (t : Transaction) (hfind : findTransaction s.transactions txId user = some t)
    (hroute : body.routeValid) (hschema : (body.applyTo t).schemaValid) :
    updateTransaction s user txId body =
      { status := 200
        store :=
          { users := s.users
            transactions := saveTransaction s.transactions (body.applyTo t)
            budgets :=
              (fun bs => if (body.applyTo t).type = "expense" then
                incSpent bs user (body.applyTo t).category (body.applyTo t).date.month
                  (body.applyTo t).date.year (body.applyTo t).amount else bs)
              (if t.type = "expense" then
                incSpent s.budgets user t.category t.date.month t.date.year (-t.amount)
               else s.budgets) } } := by
  unfold updateTransaction
  simp only [hroute, not_true_eq_false, if_false, hfind, hschema, Date.getMonth,
    Date.getFullYear, sub_add_cancel]
  by_cases h1 : t.type = "expense" <;> by_cases h2 : (body.applyTo t).type = "expense" <;>
    simp [h1, h2]

theorem updateTransaction_budgets_eq_map (s : Store) (user txId : Nat)
    (body : TransactionPatch) (t : Transaction)
    (hfind : findTransaction s.transactions txId user = some t)
    (hroute : body.routeValid) (hschema : (body.applyTo t).schemaValid)
    (huniq : uniqueBudgetKeys s.budgets) :
    (updateTransaction s user txId body).store.budgets =
      s.budgets.map (reconciled user t (body.applyTo t)) := by
  rw [updateTransaction_budgets s user txId body t hfind hroute hschema]
  have hfun : reconciled user t (body.applyTo t) =
      (if (body.applyTo t).type = "expense"
        then bumpIfKey user (body.applyTo t).category (body.applyTo t).date.month
          (body.applyTo t).date.year (body.applyTo t).amount else id) ∘
      (if t.type = "expense"
        then bumpIfKey user t.category t.date.month t.date.year (-t.amount) else id) := by
    funext b
    exact reconciled_eq_bumps user t (body.applyTo t) b
  rw [hfun, ← List.map_map]
  by_cases h1 : t.type = "expense" <;> by_cases h2 : (body.applyTo t).type = "expense"
  · simp only [h1, h2, if_true]
    rw [incSpent_eq_map _ _ _ _ _ _ huniq,
      incSpent_eq_map _ _ _ _ _ _ (uniqueBudgetKeys_map_bumpIfKey _ _ _ _ _ _ huniq)]
  · simp only [h1, h2, if_true, if_false, List.map_id]
    rw [incSpent_eq_map _ _ _ _ _ _ huniq]
  · simp only [h1, h2, if_true, if_false, List.map_id]
    rw [incSpent_eq_map _ _ _ _ _ _ huniq]
  · simp only [h1, h2, if_false, List.map_id]

/-- C4: a successful `updateTransaction` of a transaction `t` owned by the caller (the
request passes the route validators and the schema) answers 200 and changes the budgets
exactly by reconciliation: the caller's budget of the old (category, month, year) loses the
old amount when the old type is expense, the caller's budget of the new (category, month,
year) gains the new amount when the new type is expense, every other budget is unchanged;
when no budget matches either lookup, no budget changes and the request still succeeds.
Amounts are added and subtracted in exact arithmetic. -/
theorem updateTransaction_reconciles (s : Store) (user txId : Nat) (body : TransactionPatch)
    (t : Transaction) (hfind : findTransaction s.transactions txId user = some t)
    (hroute : body.routeValid) (hschema : (body.applyTo t).schemaValid)
    (huniq : uniqueBudgetKeys s.budgets) :
    (updateTransaction s user txId body).status = 200 ∧
    (updateTransaction s user txId body).store.budgets =
      s.budgets.map (reconciled user t (body.applyTo t)) ∧
    ((∀ b ∈ s.budgets, ¬ b.hasKey user t.category t.date.month t.date.year ∧
        ¬ b.hasKey user (body.applyTo t).category (body.applyTo t).date.month
          (body.applyTo t).date.year) →
      (updateTransaction s user txId body).store.budgets = s.budgets) := by
  have hmap := updateTransaction_budgets_eq_map s user txId body t hfind hroute hschema huniq
  refine ⟨?_, hmap, ?_⟩
  · rw [updateTransaction_budgets s user txId body t hfind hroute hschema]
  · intro hno
    rw [hmap]
    conv_rhs => rw [← List.map_id s.budgets]
    apply List.map_congr_left
    intro b hb
    obtain ⟨n1, n2⟩ := hno b hb
    simp [reconciled, n1, n2]

theorem incSpent_of_no_key (bs : List Budget) (u : Nat) (c : String) (m y : Int) (d : ℚ)
    (h : ∀ b ∈ bs, ¬ b.hasKey u c m y) : incSpent bs u c m y d = bs := by
  apply incSpent_of_findBudget_none
  unfold findBudget
  rw [List.find?_eq_none]
  intro b hb
  simpa using h b hb

theorem bumpIfKey_bumpIfKey (u : Nat) (c : String) (m y : Int) (d e : ℚ) (b : Budget) :
    bumpIfKey u c m y e (bumpIfKey u c m y d b) = bumpIfKey u c m y (d + e) b := by
  by_cases h : b.hasKey u c m y
  · simp [bumpIfKey, h, hasKey_bump, add_assoc]
  · simp [bumpIfKey, h]

theorem bumpIfKey_zero (u : Nat) (c : String) (m y : Int) (b : Budget) :
    bumpIfKey u c m y 0 b = b := by
  unfold bumpIfKey
  split <;> simp

/-- C5: when an expense stays an expense of the same category, month and year, the old and
the new lookup reach the same budget record and the update changes its `spent` by exactly
the new amount minus the old amount, every other budget being unchanged; when the body
carries no amount (as in a description-only update) no budget changes at all. Amounts are
added and subtracted in exact arithmetic. -/
theorem updateTransaction_same_budget (s : Store) (user txId : Nat) (body : TransactionPatch)
    (t : Transaction) (hfind : findTransaction s.transactions txId user = some t)
    (hroute : body.routeValid) (hschema : (body.applyTo t).schemaValid)
    (huniq : uniqueBudgetKeys s.budgets)
    (hold : t.type = "expense") (hnew : (body.applyTo t).type = "expense")
    (hcat : (body.applyTo t).category = t.category)
    (hmonth : (body.applyTo t).date.month = t.date.month)
    (hyear : (body.applyTo t).date.year = t.date.year) :
    (updateTransaction s user txId body).store.budgets =
      s.budgets.map (bumpIfKey user t.category t.date.month t.date.year
        ((body.applyTo t).amount - t.amount)) ∧
    (body.amount = none → (updateTransaction s user txId body).store.budgets = s.budgets) := by
  have hmap : (updateTransaction s user txId body).store.budgets =
      s.budgets.map (bumpIfKey user t.category t.date.month t.date.year
        ((body.applyTo t).amount - t.amount)) := by
    rw [updateTransaction_budgets s user txId body t hfind hroute hschema]
    simp only [hold, hnew, if_true, hcat, hmonth, hyear]
    rw [incSpent_eq_map _ _ _ _ _ _ huniq,
      incSpent_eq_map _ _ _ _ _ _ (uniqueBudgetKeys_map_bumpIfKey _ _ _ _ _ _ huniq),
      List.map_map]
    apply List.map_congr_left
    intro b _
    rw [Function.comp_apply, bumpIfKey_bumpIfKey, neg_add_eq_sub]
  refine ⟨hmap, ?_⟩
  intro hnone
  rw [hmap]
  have hamount : (body.applyTo t).amount = t.amount := by
    simp [TransactionPatch.applyTo, hnone]
  rw [hamount, sub_self]
  conv_rhs => rw [← List.map_id s.budgets]
  apply List.map_congr_left
  intro b _
  rw [bumpIfKey_zero]
  rfl

/-! ### Creating a transaction -/

theorem createTransaction_schemaValid (user newId : Nat) (body : TransactionBody)
    (hroute : body.routeValid) (hcat : body.category ∈ transactionCategories) :
    ({ id := newId, user := user, type := body.type, amount := body.amount,
       category := body.category, description := jsTrim body.description,
       date := body.date } : Transaction).schemaValid := by
  obtain ⟨h1, h2, -, h4, h5⟩ := hroute
  refine ⟨h1, ?_, hcat, ?_, h5⟩
  · exact le_trans (by norm_num) h2
  · intro hempty
    have hempty2 : jsTrim body.description = "" := hempty
    rw [hempty2] at h4
    simp at h4

theorem createTransaction_eq (s : Store) (user newId : Nat) (body : TransactionBody)
    (hroute : body.routeValid) (hcat : body.category ∈ transactionCategories) :
    createTransaction s user newId body =
      { status := 201
        store :=
          { users := s.users
            transactions := s.transactions ++
              [{ id := newId, user := user, type := body.type, amount := body.amount,
                 category := body.category, description := jsTrim body.description,
                 date := body.date }]
            budgets :=
              if body.type = "expense" then
                incSpent s.budgets user body.category body.date.month body.date.year body.amount
              else s.budgets } } := by
  unfold createTransaction
  have hs := createTransaction_schemaValid user newId body hroute hcat
  simp only [hroute, not_true_eq_false, if_false, hs, Date.getMonth, Date.getFullYear,
    sub_add_cancel]
  by_cases h : body.type = "expense" <;> simp [h]

/-- C10: a valid `createTransaction` of type income, or of any type when the caller has no
budget of (category, month of date, year of date), answers 201 with the transaction stored
and leaves the budgets as they were. -/
theorem createTransaction_untracked (s : Store) (user newId : Nat) (body : TransactionBody)
    (hroute : body.routeValid) (hcat : body.category ∈ transactionCategories)
    (h : body.type = "income" ∨
      ∀ b ∈ s.budgets, ¬ b.hasKey user body.category body.date.month body.date.year) :
    (createTransaction s user newId body).status = 201 ∧
    (createTransaction s user newId body).store.transactions = s.transactions ++
      [{ id := newId, user := user, type := body.type, amount := body.amount,
         category := body.category, description := jsTrim body.description,
         date := body.date }] ∧
    (createTransaction s user newId body).store.budgets = s.budgets := by
  rw [createTransaction_eq s user newId body hroute hcat]
  refine ⟨rfl, rfl, ?_⟩
  rcases h with h | h
  · simp [h]
  · simp only []
    split
    · exact incSpent_of_no_key _ _ _ _ _ _ h
    · rfl

/-! ### Deleting a transaction -/

/-- C8: `deleteTransaction` of a transaction of the caller that is an income, or for which
the caller has no budget of the same (category, month, year), answers 200 and leaves the
list of budgets, `spent` included, exactly as it was. -/
theorem deleteTransaction_untracked (s : Store) (user txId : Nat) (t : Transaction)
    (hfind : findTransaction s.transactions txId user = some t)
    (h : t.type = "income" ∨
      ∀ b ∈ s.budgets, ¬ b.hasKey user t.category t.date.month t.date.year) :
    (deleteTransaction s user txId).status = 200 ∧
    (deleteTransaction s user txId).store.budgets = s.budgets := by
  unfold deleteTransaction
  simp only [hfind, Date.getMonth, Date.getFullYear, sub_add_cancel, true_and]
  rcases h with h | h
  · simp [h]
  · split
    · exact incSpent_of_no_key _ _ _ _ _ _ h
    · rfl

/-! ### Cache consistency of `spent` under owner-preserving mutations -/

theorem totalAmount_filter_cons (p : Transaction → Bool) (x : Transaction)
    (rest : List Transaction) :
    totalAmount ((x :: rest).filter p) =
      (if p x then x.amount else 0) + totalAmount (rest.filter p) := by
  by_cases h : p x <;> simp [totalAmount, List.filter_cons, h]

theorem totalAmount_filter_append_singleton (p : Transaction → Bool) (ts : List Transaction)
    (t : Transaction) :
    totalAmount ((ts ++ [t]).filter p) =
      totalAmount (ts.filter p) + (if p t then t.amount else 0) := by
  induction ts with
  | nil =>
    rw [List.nil_append, totalAmount_filter_cons]
    simp [totalAmount]
  | cons x rest ih =>
    rw [List.cons_append, totalAmount_filter_cons, ih, totalAmount_filter_cons, add_assoc]

theorem findTransaction_some (ts : List Transaction) (txId user : Nat) (t : Transaction)
    (h : findTransaction ts txId user = some t) : t ∈ ts ∧ t.id = txId ∧ t.user = user := by
  unfold findTransaction at h
  refine ⟨List.mem_of_find?_eq_some h, ?_⟩
  simpa using List.find?_some h

theorem totalAmount_filter_deleteById (p : Transaction → Bool) (ts : List Transaction)
    (txId user : Nat) (t : Transaction) (hids : uniqueTransactionIds ts)
    (hfind : findTransaction ts txId user = some t) :
    totalAmount ((deleteById ts txId).filter p) =
      totalAmount (ts.filter p) - (if p t then t.amount else 0) := by
  induction ts with
  | nil => simp [findTransaction] at hfind
  | cons x rest ih =>
    unfold uniqueTransactionIds at hids
    rw [List.pairwise_cons] at hids
    rw [totalAmount_filter_cons]
    by_cases hx : x.id = txId
    · have herase : deleteById (x :: rest) txId = rest := by
        unfold deleteById
        exact List.eraseP_cons_of_pos (by simpa using hx)
      rw [herase]
      by_cases hu : x.user = user
      · have htx : t = x := by
          unfold findTransaction at hfind
          rw [List.find?_cons] at hfind
          simp [hx, hu] at hfind
          exact hfind.symm
        rw [htx]
        ring
      · exfalso
        unfold findTransaction at hfind
        rw [List.find?_cons] at hfind
        simp only [hx, hu, and_false, decide_False] at hfind
        obtain ⟨hmem, hid, -⟩ := findTransaction_some rest txId user t hfind
        exact hids.1 t hmem (hx.trans hid.symm)
    · have herase : deleteById (x :: rest) txId = x :: deleteById rest txId := by
        unfold deleteById
        exact List.eraseP_cons_of_neg (by simpa using hx)
      have hfind2 : findTransaction rest txId user = some t := by
        unfold findTransaction at hfind ⊢
        rw [List.find?_cons] at hfind
        simpa [hx] using hfind
      rw [herase, totalAmount_filter_cons, ih hids.2 hfind2]
      ring

theorem totalAmount_filter_saveTransaction (p : Transaction → Bool) (ts : List Transaction)
    (txId user : Nat) (t t2 : Transaction) (hids : uniqueTransactionIds ts)
    (hfind : findTransaction ts txId user = some t) (hid2 : t2.id = txId) :
    totalAmount ((saveTransaction ts t2).filter p) =
      totalAmount (ts.filter p) - (if p t then t.amount else 0) +
        (if p t2 then t2.amount else 0) := by
  induction ts with
  | nil => simp [findTransaction] at hfind
  | cons x rest ih =>
    unfold uniqueTransactionIds at hids
    rw [List.pairwise_cons] at hids
    rw [totalAmount_filter_cons]
    unfold saveTransaction
    by_cases hx : x.id = txId
    · rw [if_pos (hx.trans hid2.symm), totalAmount_filter_cons]
      by_cases hu : x.user = user
      · have htx : t = x := by
          unfold findTransaction at hfind
          rw [List.find?_cons] at hfind
          simp [hx, hu] at hfind
          exact hfind.symm
        rw [htx]
        ring
      · exfalso
        unfold findTransaction at hfind
        rw [List.find?_cons] at hfind
        simp only [hx, hu, and_false, decide_False] at hfind
        obtain ⟨hmem, hid, -⟩ := findTransaction_some rest txId user t hfind
        exact hids.1 t hmem (hx.trans hid.symm)
    · have hne : ¬ x.id = t2.id := fun h => hx (h.trans hid2)
      have hfind2 : findTransaction rest txId user = some t := by
        unfold findTransaction at hfind ⊢
        rw [List.find?_cons] at hfind
        simpa [hx] using hfind
      rw [if_neg hne, totalAmount_filter_cons, ih hids.2 hfind2]
      ring

theorem bumpIfKey_spent (u : Nat) (c : String) (m y : Int) (d : ℚ) (b : Budget) :
    (bumpIfKey u c m y d b).spent = b.spent + (if b.hasKey u c m y then d else 0) := by
  unfold bumpIfKey
  split <;> simp

theorem expensesOfMonth_weight (t : Transaction) (b : Budget) :
    (if decide (t.user = b.user ∧ t.type = "expense" ∧ t.category = b.category ∧
        t.date.inMonth b.month b.year) = true then t.amount else 0) =
      (if t.type = "expense" ∧ b.hasKey t.user t.category t.date.month t.date.year
        then t.amount else 0) := by
  have hiff : (t.user = b.user ∧ t.type = "expense" ∧ t.category = b.category ∧
      t.date.inMonth b.month b.year) ↔
      (t.type = "expense" ∧ b.hasKey t.user t.category t.date.month t.date.year) := by
    unfold Date.inMonth Budget.hasKey
    constructor
    · rintro ⟨h1, h2, h3, h4, h5⟩
      exact ⟨h2, h1.symm, h3.symm, h4.symm, h5.symm⟩
    · rintro ⟨h2, h1, h3, h4, h5⟩
      exact ⟨h1.symm, h2, h3.symm, h4.symm, h5.symm⟩
  by_cases h : t.type = "expense" ∧ b.hasKey t.user t.category t.date.month t.date.year
  · rw [if_pos h, if_pos (by simpa using hiff.mpr h)]
  · rw [if_neg h, if_neg (by simpa using fun h2 => h (hiff.mp h2))]

/-- The invariant of §3 is kept by `createTransaction`: in a store with the unique budget
index, cache consistency before the request gives cache consistency after it. -/
theorem createTransaction_preserves_spentConsistent (s : Store) (user newId : Nat)
    (body : TransactionBody) (huniq : uniqueBudgetKeys s.budgets) (hinv : spentConsistent s) :
    spentConsistent (createTransaction s user newId body).store := by
  unfold createTransaction
  by_cases hroute : body.routeValid
  swap
  · simpa [hroute] using hinv
  simp only [hroute, not_true_eq_false, if_false]
  split
  · exact hinv
  simp only [Date.getMonth, Date.getFullYear, sub_add_cancel]
  intro b2 hb2
  by_cases htype : body.type = "expense"
  · simp only [htype, if_true] at hb2 ⊢
    rw [incSpent_eq_map _ _ _ _ _ _ huniq, List.mem_map] at hb2
    obtain ⟨b, hb, rfl⟩ := hb2
    obtain ⟨f1, f2, f3, f4, -, -⟩ :=
      bumpIfKey_fields user body.category body.date.month body.date.year body.amount b
    rw [f1, f2, f3, f4, bumpIfKey_spent, hinv b hb]
    unfold expensesOfMonth
    rw [totalAmount_filter_append_singleton, expensesOfMonth_weight]
    simp
  · simp only [htype, if_false] at hb2 ⊢
    rw [hinv b2 hb2]
    unfold expensesOfMonth
    rw [totalAmount_filter_append_singleton, expensesOfMonth_weight]
    simp [htype]

/-- The invariant of §3 is kept by `deleteTransaction`, given both unique indexes. -/
theorem deleteTransaction_preserves_spentConsistent (s : Store) (user txId : Nat)
    (huniq : uniqueBudgetKeys s.budgets) (hids : uniqueTransactionIds s.transactions)
    (hinv : spentConsistent s) :
    spentConsistent (deleteTransaction s user txId).store := by
  unfold deleteTransaction
  cases hfind : findTransaction s.transactions txId user with
  | none => exact hinv
  | some t =>
    obtain ⟨-, -, hu⟩ := findTransaction_some _ _ _ _ hfind
    simp only [Date.getMonth, Date.getFullYear, sub_add_cancel]
    intro b2 hb2
    by_cases htype : t.type = "expense"
    · simp only [htype, if_true] at hb2 ⊢
      rw [incSpent_eq_map _ _ _ _ _ _ huniq, List.mem_map] at hb2
      obtain ⟨b, hb, rfl⟩ := hb2
      obtain ⟨f1, f2, f3, f4, -, -⟩ :=
        bumpIfKey_fields user t.category t.date.month t.date.year (-t.amount) b
      rw [f1, f2, f3, f4, bumpIfKey_spent, hinv b hb]
      unfold expensesOfMonth
      rw [totalAmount_filter_deleteById _ _ _ _ _ hids hfind, expensesOfMonth_weight]
      simp only [htype, true_and, hu]
      split <;> ring
    · simp only [htype, if_false] at hb2 ⊢
      rw [hinv b2 hb2]
      unfold expensesOfMonth
      rw [totalAmount_filter_deleteById _ _ _ _ _ hids hfind, expensesOfMonth_weight]
      simp [htype]

/-- The invariant of §3 is kept by `updateTransaction` when the body does not name another
owner, given both unique indexes. -/
theorem updateTransaction_preserves_spentConsistent (s : Store) (user txId : Nat)
    (body : TransactionPatch) (huniq : uniqueBudgetKeys s.budgets)
    (hids : uniqueTransactionIds s.transactions) (hinv : spentConsistent s)
    (howner : ∀ u ∈ body.user, u = user) :
    spentConsistent (updateTransaction s user txId body).store := by
  by_cases hroute : body.routeValid
  swap
  · unfold updateTransaction
    simpa [hroute] using hinv
  cases hfind : findTransaction s.transactions txId user with
  | none =>
    unfold updateTransaction
    simpa [hroute, hfind] using hinv
  | some t =>
    by_cases hschema : (body.applyTo t).schemaValid
    swap
    · unfold updateTransaction
      simpa [hroute, hfind, hschema] using hinv
    obtain ⟨-, hid, hu⟩ := findTransaction_some _ _ _ _ hfind
    have hid2 : (body.applyTo t).id = txId := hid
    have hu2 : (body.applyTo t).user = user := by
      cases hbu : body.user with
      | none => simpa [TransactionPatch.applyTo, hbu] using hu
      | some u =>
        have := howner u (by simp [hbu])
        simpa [TransactionPatch.applyTo, hbu] using this
    intro b2 hb2
    rw [updateTransaction_budgets_eq_map s user txId body t hfind hroute hschema huniq,
      List.mem_map] at hb2
    obtain ⟨b, hb, rfl⟩ := hb2
    have htrans : (updateTransaction s user txId body).store.transactions =
        saveTransaction s.transactions (body.applyTo t) := by
      rw [updateTransaction_budgets s user txId body t hfind hroute hschema]
    rw [htrans]
    show b.spent - _ + _ = totalAmount (expensesOfMonth _ b.user b.category b.month b.year)
    unfold expensesOfMonth
    rw [totalAmount_filter_saveTransaction _ _ _ _ _ _ hids hfind hid2,
      expensesOfMonth_weight, expensesOfMonth_weight, hu, hu2, hinv b hb]
    rfl

/-! ### Witnesses of the theorems above -/

/-- Witness of C4: moving the groceries of user 1 from Food to Bills. -/
theorem updateTransaction_reconciles_witness :
    findTransaction juneStore.transactions 10 1 = some groceries ∧
    uniqueBudgetKeys juneStore.budgets ∧
    (updateTransaction juneStore 1 10 toBillsPatch).status = 200 ∧
    (updateTransaction juneStore 1 10 toBillsPatch).store.budgets =
      juneStore.budgets.map (reconciled 1 groceries (toBillsPatch.applyTo groceries)) :=
  have h := updateTransaction_reconciles juneStore 1 10 toBillsPatch groceries
    (by decide!) (by decide!) (by decide!) (by decide)
  ⟨by decide!, by decide, h.1, h.2.1⟩

/-- Witness of C5: changing the amount of the groceries of user 1 from 120 to 50. -/
theorem updateTransaction_same_budget_witness :
    findTransaction juneStore.transactions 10 1 = some groceries ∧
    (updateTransaction juneStore 1 10 amountPatch).store.budgets =
      juneStore.budgets.map (bumpIfKey 1 "Food" 6 2024 (50 - 120)) :=
  ⟨by decide!,
    (updateTransaction_same_budget juneStore 1 10 amountPatch groceries
      (by decide!) (by decide!) (by decide!) (by decide) (by decide) (by decide)
      (by decide) (by decide) (by decide)).1⟩

/-- Witness of C10: user 1 records a salary. -/
theorem createTransaction_untracked_witness :
    salaryBody.routeValid ∧
    (createTransaction juneStore 1 12 salaryBody).status = 201 ∧
    (createTransaction juneStore 1 12 salaryBody).store.budgets = juneStore.budgets :=
  have h := createTransaction_untracked juneStore 1 12 salaryBody
    (by decide!) (by decide) (Or.inl (by decide))
  ⟨by decide!, h.1, h.2.2⟩

/-- Witness of C8: user 1 deletes the salary. -/
theorem deleteTransaction_untracked_witness :
    findTransaction juneStore.transactions 11 1 = some salary ∧
    (deleteTransaction juneStore 1 11).status = 200 ∧
    (deleteTransaction juneStore 1 11).store.budgets = juneStore.budgets :=
  have h := deleteTransaction_untracked juneStore 1 11 salary (by decide!) (Or.inl (by decide))
  ⟨by decide!, h.1, h.2⟩

/-! ### Evaluations at the last second of a month and at an owner change -/

/-- C1 (evaluation at a failing input): user 1 owns one expense of 120 on Food dated
2024-06-30 23:59:59.500, a valid date of June 2024, so the sum over the expenses of the month
is 120 and their number is 1; `getBudgetProgress` for June 2024 reports `actualSpent` 0 and
`transactionCount` 0 for the Food budget, because its window closes at 23:59:59.000. -/
theorem getBudgetProgress_misses_last_second :
    lateExpense.date.valid ∧
    expensesOfMonth lateStore.transactions 1 "Food" 6 2024 = [lateExpense] ∧
    totalAmount (expensesOfMonth lateStore.transactions 1 "Food" 6 2024) = 120 ∧
    (getBudgetProgress lateStore 1 6 2024).map
      (fun p => (p.budget, p.actualSpent, p.transactionCount)) = [(foodJune 120, 0, 0)] := by
  decide!

/-- C2 (evaluation at a failing input): in a store that is cache-consistent and obeys both
unique indexes, user 1 updates the own expense 10 with the body `{ "user": 2 }`; the request
answers 200, the transaction now belongs to user 2, the Food budget of user 1 keeps
`spent` 120 while user 1 has no Food expense left, and cache consistency no longer holds. -/
theorem updateTransaction_owner_change_breaks_consistency :
    spentConsistent juneStore ∧ uniqueBudgetKeys juneStore.budgets ∧
    uniqueTransactionIds juneStore.transactions ∧
    updateTransaction juneStore 1 10 toUser2Patch =
      { status := 200
        store := { juneStore with transactions := [{ groceries with user := 2 }, salary] } } ∧
    totalAmount (expensesOfMonth
      (updateTransaction juneStore 1 10 toUser2Patch).store.transactions 1 "Food" 6 2024) = 0 ∧
    ¬ spentConsistent (updateTransaction juneStore 1 10 toUser2Patch).store := by
  decide!

/-- C3 (evaluation at a failing input): with an expense of 120 on Food dated
2024-06-30 23:59:59.500, creating the transaction and then the Food budget of June 2024
stores `spent` 0, while creating the budget and then the transaction stores `spent` 120. -/
theorem createBudget_backfill_misses_last_second :
    createBudget (createTransaction emptyStore 1 10 lateBody).store 1 1 foodJuneBody =
      { status := 201
        store := { users := [], transactions := [lateExpense], budgets := [foodJune 0] } } ∧
    createTransaction (createBudget emptyStore 1 1 foodJuneBody).store 1 10 lateBody =
      { status := 201
        store := { users := [], transactions := [lateExpense], budgets := [foodJune 120] } } := by
  decide!

/-- C6 (evaluation at a failing input): moving the expense of 120 from June 5th to
2024-06-30 23:59:59.500 keeps its category, month and year, so old and new bucket are the
Food budget of June 2024; the update answers 200, and `getBudgetProgress` for June 2024
shows `actualSpent` 120 before and 0 after it. -/
theorem progress_after_update_misses_last_second :
    (updateTransaction juneStore 1 10 toLastSecondPatch).status = 200 ∧
    (toLastSecondPatch.applyTo groceries).date.inMonth 6 2024 ∧
    (getBudgetProgress juneStore 1 6 2024).map
      (fun p => (p.budget.category, p.actualSpent)) = [("Food", 120), ("Bills", 0)] ∧
    (getBudgetProgress (updateTransaction juneStore 1 10 toLastSecondPatch).store 1 6 2024).map
      (fun p => (p.budget.category, p.actualSpent)) = [("Food", 0), ("Bills", 0)] := by
  decide!

/-- C7 (evaluation at a failing input): deleting the expense of 120 dated
2024-06-30 23:59:59.500 answers 200, removes the transaction and lowers the cached `spent`
of the Food budget of June 2024 from 120 to 0, while `getBudgetProgress` reports
`actualSpent` 0 both before and after the deletion. -/
theorem deleteTransaction_progress_misses_last_second :
    deleteTransaction lateStore 1 10 =
      { status := 200, store := { users := [], transactions := [], budgets := [foodJune 0] } } ∧
    (getBudgetProgress lateStore 1 6 2024).map (fun p => p.actualSpent) = [0] ∧
    (getBudgetProgress (deleteTransaction lateStore 1 10).store 1 6 2024).map
      (fun p => p.actualSpent) = [0] := by
  decide!

/-! ### Creating a budget twice -/

/-- C11: `createBudget` for a (user, category, month, year) that a budget of the store
already covers answers 400 and leaves the store as it was, so that no budget is created and
the existing budget and every other record are unchanged; for a body that passes the route
validators the response is the conflict response with the message
"Budget already exists for this category and month". -/
theorem createBudget_conflict (s : Store) (user newId : Nat) (body : BudgetBody)
    (existing : Budget) (hmem : existing ∈ s.budgets)
    (hkey : existing.hasKey user body.category body.month body.year) :
    (createBudget s user newId body).status = 400 ∧
    (createBudget s user newId body).store = s ∧
    (body.routeValid →
      createBudget s user newId body =
        { status := 400, store := s, message := some budgetExists }) := by
  have hsome : ∃ b, findBudget s.budgets user body.category body.month body.year = some b := by
    unfold findBudget
    cases hf : s.budgets.find? (fun b => decide (b.hasKey user body.category body.month body.year)) with
    | some b => exact ⟨b, rfl⟩
    | none =>
      rw [List.find?_eq_none] at hf
      exact absurd (by simpa using hkey) (hf existing hmem)
  obtain ⟨b, hb⟩ := hsome
  unfold createBudget
  by_cases hroute : body.routeValid
  · simp [hroute, hb]
  · simp [hroute]

/-! ### The computed fields of a progress entry -/

theorem mem_getBudgetProgress (s : Store) (user : Nat) (month year : Int) (p : BudgetProgress)
    (hp : p ∈ getBudgetProgress s user month year) :
    p.percentage =
      (if p.budget.limit > 0 then mathRound (p.actualSpent / p.budget.limit * 100) else 0) ∧
    p.remaining = max 0 (p.budget.limit - p.actualSpent) ∧
    p.status = (if p.percentage ≥ 100 then "exceeded"
      else if p.percentage ≥ 80 then "warning" else "good") := by
  unfold getBudgetProgress at hp
  simp only [List.mem_map] at hp
  obtain ⟨b, -, rfl⟩ := hp
  exact ⟨rfl, rfl, rfl⟩

/-- C14: in every entry of a Progress result, remaining is max(0, limit − actualSpent), the
difference in exact arithmetic; it is never negative, and it is 0 whenever actualSpent is at
least the limit. -/
theorem progress_remaining (s : Store) (user : Nat) (month year : Int) (p : BudgetProgress)
    (hp : p ∈ getBudgetProgress s user month year) :
    p.remaining = max 0 (p.budget.limit - p.actualSpent) ∧
    0 ≤ p.remaining ∧
    (p.budget.limit ≤ p.actualSpent → p.remaining = 0) := by
  obtain ⟨-, h2, -⟩ := mem_getBudgetProgress s user month year p hp
  refine ⟨h2, ?_, ?_⟩
  · rw [h2]
    exact le_max_left _ _
  · intro hle
    rw [h2]
    exact max_eq_left (by linarith)

/-- C15: in every entry of a Progress result, the status is "exceeded" exactly when the
percentage is at least 100, "warning" exactly when it is at least 80 and below 100, and
"good" exactly otherwise; the status is one of these three distinct values. -/
theorem progress_status (s : Store) (user : Nat) (month year : Int) (p : BudgetProgress)
    (hp : p ∈ getBudgetProgress s user month year) :
    (p.status = "exceeded" ↔ 100 ≤ p.percentage) ∧
    (p.status = "warning" ↔ 80 ≤ p.percentage ∧ p.percentage < 100) ∧
    (p.status = "good" ↔ p.percentage < 80) ∧
    (p.status = "exceeded" ∨ p.status = "warning" ∨ p.status = "good") := by
  obtain ⟨-, -, h3⟩ := mem_getBudgetProgress s user month year p hp
  have e1 : ("exceeded" : String) ≠ "warning" := by decide
  have e2 : ("exceeded" : String) ≠ "good" := by decide
  have e3 : ("warning" : String) ≠ "good" := by decide
  by_cases h100 : p.percentage ≥ 100
  · rw [if_pos h100] at h3
    rw [h3]
    refine ⟨⟨fun _ => h100, fun _ => rfl⟩, ⟨fun h => absurd h e1, fun h => ?_⟩,
      ⟨fun h => absurd h e2, fun h => ?_⟩, Or.inl rfl⟩
    · omega
    · omega
  · by_cases h80 : p.percentage ≥ 80
    · rw [if_neg h100, if_pos h80] at h3
      rw [h3]
      refine ⟨⟨fun h => absurd h.symm e1, fun h => ?_⟩, ⟨fun _ => ⟨h80, by omega⟩, fun _ => rfl⟩,
        ⟨fun h => absurd h e3, fun h => ?_⟩, Or.inr (Or.inl rfl)⟩
      · omega
      · omega
    · rw [if_neg h100, if_neg h80] at h3
      rw [h3]
      refine ⟨⟨fun h => absurd h.symm e2, fun h => ?_⟩, ⟨fun h => absurd h.symm e3, fun h => ?_⟩,
        ⟨fun _ => by omega, fun _ => rfl⟩, Or.inr (Or.inr rfl)⟩
      · omega
      · omega

/-! ### The worked example -/

/-- C16: the worked example. User 1 has only the Food budget of June 2024 with limit 500.
After an expense of 120 on Food dated 2024-06-05 Progress for June 2024 reports actualSpent
120, percentage 24, status "good"; after a further expense of 300 dated 2024-06-20 it
reports 420, 84, "warning"; after the first transaction is deleted it reports 300, 60,
"good". The three requests answer 201, 201 and 200. -/
theorem worked_example :
    (createTransaction exampleStart 1 20 exampleFirst).status = 201 ∧
    (getBudgetProgress exampleAfterFirst 1 6 2024).map progressSummary = [(120, 24, "good")] ∧
    (createTransaction exampleAfterFirst 1 21 exampleSecond).status = 201 ∧
    (getBudgetProgress exampleAfterSecond 1 6 2024).map progressSummary =
      [(420, 84, "warning")] ∧
    (deleteTransaction exampleAfterSecond 1 20).status = 200 ∧
    (getBudgetProgress exampleAfterDelete 1 6 2024).map progressSummary =
      [(300, 60, "good")] := by
  decide!

/-! ### Records of other users -/

theorem findTransaction_none_of_foreign (ts : List Transaction) (user recordId : Nat)
    (h : ∀ t ∈ ts, t.id = recordId → t.user ≠ user) :
    findTransaction ts recordId user = none := by
  unfold findTransaction
  rw [List.find?_eq_none]
  intro t ht
  simp only [decide_eq_true_eq, not_and]
  exact h t ht

theorem findBudgetById_none_of_foreign (bs : List Budget) (user recordId : Nat)
    (h : ∀ b ∈ bs, b.id = recordId → b.user ≠ user) :
    findBudgetById bs recordId user = none := by
  unfold findBudgetById
  rw [List.find?_eq_none]
  intro b hb
  simp only [decide_eq_true_eq, not_and]
  exact h b hb

/-- C17: owner scoping. When no transaction with the given id is owned by the caller (the id
does not exist or belongs to another user), `getTransactionById` and `deleteTransaction`
answer 404 "Transaction not found", and so does `updateTransaction` for every body that
passes the route validators; a body that fails them is answered 400 before the lookup. The
same holds for `getBudgetById`, `deleteBudget` and `updateBudget` with "Budget not found".
None of the requests answers 403 and each leaves the whole store as it was. -/
theorem foreign_id_not_found (s : Store) (user recordId : Nat) :
    ((∀ t ∈ s.transactions, t.id = recordId → t.user ≠ user) →
      (getTransactionById s user recordId).status = 404 ∧
      (getTransactionById s user recordId).document = none ∧
      deleteTransaction s user recordId =
        { status := 404, store := s, message := some transactionNotFound } ∧
      ∀ body : TransactionPatch,
        (updateTransaction s user recordId body).store = s ∧
        ((updateTransaction s user recordId body).status = 404 ∨
          (updateTransaction s user recordId body).status = 400) ∧
        (body.routeValid → updateTransaction s user recordId body =
          { status := 404, store := s, message := some transactionNotFound })) ∧
    ((∀ b ∈ s.budgets, b.id = recordId → b.user ≠ user) →
      (getBudgetById s user recordId).status = 404 ∧
      (getBudgetById s user recordId).document = none ∧
      deleteBudget s user recordId =
        { status := 404, store := s, message := some budgetNotFound } ∧
      ∀ body : BudgetPatch,
        (updateBudget s user recordId body).store = s ∧
        ((updateBudget s user recordId body).status = 404 ∨
          (updateBudget s user recordId body).status = 400) ∧
        (body.routeValid → updateBudget s user recordId body =
          { status := 404, store := s, message := some budgetNotFound })) := by
  constructor
  · intro h
    have hnone := findTransaction_none_of_foreign s.transactions user recordId h
    refine ⟨?_, ?_, ?_, ?_⟩
    · simp [getTransactionById, hnone]
    · simp [getTransactionById, hnone]
    · simp [deleteTransaction, hnone]
    · intro body
      unfold updateTransaction
      by_cases hroute : body.routeValid
      · simp [hroute, hnone]
      · simp [hroute]
  · intro h
    have hnone := findBudgetById_none_of_foreign s.budgets user recordId h
    refine ⟨?_, ?_, ?_, ?_⟩
    · simp [getBudgetById, hnone]
    · simp [getBudgetById, hnone]
    · simp [deleteBudget, hnone]
    · intro body
      unfold updateBudget
      by_cases hroute : body.routeValid
      · simp [hroute, hnone]
      · simp [hroute]

/-! ### Deleting an account -/

theorem eraseP_user_eq_filter (us : List User) (userId : Nat) (h : uniqueUserIds us) :
    us.eraseP (fun u => decide (u.id = userId)) =
      us.filter (fun u => decide (u.id ≠ userId)) := by
  induction us with
  | nil => rfl
  | cons x rest ih =>
    unfold uniqueUserIds at h
    rw [List.pairwise_cons] at h
    by_cases hx : x.id = userId
    · rw [List.eraseP_cons_of_pos (by simpa using hx), List.filter_cons_of_neg (by simpa using hx)]
      symm
      rw [List.filter_eq_self]
      intro u hu
      have := h.1 u hu
      simpa using fun hID : u.id = userId => this (hx.trans hID.symm)
    · rw [List.eraseP_cons_of_neg (by simpa using hx), List.filter_cons_of_pos (by simpa using hx),
        ih h.2]

/-- C18: `deleteUserAccount` by user U answers 200. Afterwards the store holds no
transaction and no budget owned by U and no user record with the id of U, and the three
collections are exactly the records of the other users, unchanged and in their order. The
writes are issued as: transactions of U first (budgets and users still as before), then
budgets of U (users still as before), then the user record. -/
theorem deleteUserAccount_cascade (s : Store) (userId : Nat) (hu : uniqueUserIds s.users) :
    (deleteUserAccount s userId).status = 200 ∧
    (∀ t ∈ (deleteUserAccount s userId).store.transactions, t.user ≠ userId) ∧
    (∀ b ∈ (deleteUserAccount s userId).store.budgets, b.user ≠ userId) ∧
    (∀ u ∈ (deleteUserAccount s userId).store.users, u.id ≠ userId) ∧
    (deleteUserAccount s userId).store.transactions =
      s.transactions.filter (fun t => decide (t.user ≠ userId)) ∧
    (deleteUserAccount s userId).store.budgets =
      s.budgets.filter (fun b => decide (b.user ≠ userId)) ∧
    (deleteUserAccount s userId).store.users =
      s.users.filter (fun u => decide (u.id ≠ userId)) ∧
    deleteUserAccountWrites s userId =
      [{ s with transactions := s.transactions.filter (fun t => decide (t.user ≠ userId)) },
       { s with transactions := s.transactions.filter (fun t => decide (t.user ≠ userId))
                budgets := s.budgets.filter (fun b => decide (b.user ≠ userId)) },
       (deleteUserAccount s userId).store] := by
  have husers : (deleteUserAccount s userId).store.users =
      s.users.filter (fun u => decide (u.id ≠ userId)) := by
    show s.users.eraseP _ = _
    exact eraseP_user_eq_filter s.users userId hu
  refine ⟨rfl, ?_, ?_, ?_, rfl, rfl, husers, rfl⟩
  · intro t ht
    have ht2 : t ∈ s.transactions.filter (fun t => decide (t.user ≠ userId)) := ht
    simpa using (List.mem_filter.mp ht2).2
  · intro b hb
    have hb2 : b ∈ s.budgets.filter (fun b => decide (b.user ≠ userId)) := hb
    simpa using (List.mem_filter.mp hb2).2
  · intro u hmem
    rw [husers] at hmem
    simpa using (List.mem_filter.mp hmem).2

/-! ### Uniqueness of the budget of a period -/

theorem saveBudget_eq_map (bs : List Budget) (u : Budget) (h : uniqueBudgetIds bs) :
    saveBudget bs u = bs.map (fun b => if b.id = u.id then u else b) := by
  induction bs with
  | nil => rfl
  | cons x rest ih =>
    unfold uniqueBudgetIds at h
    rw [List.pairwise_cons] at h
    unfold saveBudget
    by_cases hx : x.id = u.id
    · rw [if_pos hx, List.map_cons, if_pos hx]
      congr 1
      symm
      conv_rhs => rw [← List.map_id rest]
      apply List.map_congr_left
      intro b hb
      have hne : ¬ b.id = u.id := fun hbu => h.1 b hb (hx.trans hbu.symm)
      simp [hne]
    · rw [if_neg hx, List.map_cons, if_neg hx, ih h.2]

theorem unique_after_save (bs : List Budget) (u : Budget) (hkeys : uniqueBudgetKeys bs)
    (hids : uniqueBudgetIds bs) (hdup : duplicateKey bs u = false) :
    uniqueBudgetKeys (saveBudget bs u) ∧ uniqueBudgetIds (saveBudget bs u) := by
  rw [saveBudget_eq_map bs u hids]
  unfold duplicateKey at hdup
  rw [List.any_eq_false] at hdup
  have hfree : ∀ x ∈ bs, x.id ≠ u.id → ¬ x.hasKey u.user u.category u.month u.year := by
    intro x hx hne hk
    exact hdup x hx (by simpa using ⟨hne, hk⟩)
  constructor
  · unfold uniqueBudgetKeys at hkeys ⊢
    unfold uniqueBudgetIds at hids
    rw [List.pairwise_map]
    refine (hkeys.and hids).imp_of_mem ?_
    intro a b ha hb hab
    obtain ⟨hk, hid⟩ := hab
    by_cases h1 : a.id = u.id <;> by_cases h2 : b.id = u.id
    · exact absurd (h1.trans h2.symm) hid
    · simp only [h1, h2, if_true, if_false]
      intro hcontra
      apply hfree b hb h2
      unfold Budget.hasKey at hcontra ⊢
      obtain ⟨c1, c2, c3, c4⟩ := hcontra
      exact ⟨c1.symm, c2.symm, c3.symm, c4.symm⟩
    · simp only [h1, h2, if_true, if_false]
      exact hfree a ha h1
    · simp only [h1, h2, if_false]
      exact hk
  · unfold uniqueBudgetIds at hids ⊢
    rw [List.pairwise_map]
    refine hids.imp ?_
    intro a b hab
    by_cases h1 : a.id = u.id <;> by_cases h2 : b.id = u.id
    · exact absurd (h1.trans h2.symm) hab
    · simp only [h1, h2, if_true, if_false]
      exact fun h => h2 h.symm
    · simp only [h1, h2, if_true, if_false]
      exact h1
    · simp only [h1, h2, if_false]
      exact hab

theorem findBudgetById_some (bs : List Budget) (budgetId user : Nat) (b : Budget)
    (h : findBudgetById bs budgetId user = some b) : b ∈ bs ∧ b.id = budgetId ∧ b.user = user := by
  unfold findBudgetById at h
  refine ⟨List.mem_of_find?_eq_some h, ?_⟩
  simpa using List.find?_some h

theorem unique_after_createBudget (s : Store) (user newId : Nat) (body : BudgetBody)
    (hkeys : uniqueBudgetKeys s.budgets) (hids : uniqueBudgetIds s.budgets)
    (hfresh : ∀ b ∈ s.budgets, b.id ≠ newId) :
    uniqueBudgetKeys (createBudget s user newId body).store.budgets ∧
    uniqueBudgetIds (createBudget s user newId body).store.budgets := by
  unfold createBudget
  by_cases hroute : body.routeValid
  swap
  · simpa [hroute] using ⟨hkeys, hids⟩
  simp only [hroute, not_true_eq_false, if_false]
  cases hf : findBudget s.budgets user body.category body.month body.year with
  | some b => exact ⟨hkeys, hids⟩
  | none =>
    simp only []
    split
    · exact ⟨hkeys, hids⟩
    · unfold findBudget at hf
      rw [List.find?_eq_none] at hf
      constructor
      · unfold uniqueBudgetKeys at hkeys ⊢
        rw [List.pairwise_append]
        refine ⟨hkeys, List.pairwise_singleton _ _, ?_⟩
        intro a ha x hx
        rw [List.mem_singleton] at hx
        subst hx
        simpa using hf a ha
      · unfold uniqueBudgetIds at hids ⊢
        rw [List.pairwise_append]
        refine ⟨hids, List.pairwise_singleton _ _, ?_⟩
        intro a ha x hx
        rw [List.mem_singleton] at hx
        subst hx
        exact hfresh a ha

theorem unique_after_updateBudget (s : Store) (user budgetId : Nat) (body : BudgetPatch)
    (hkeys : uniqueBudgetKeys s.budgets) (hids : uniqueBudgetIds s.budgets) :
    uniqueBudgetKeys (updateBudget s user budgetId body).store.budgets ∧
    uniqueBudgetIds (updateBudget s user budgetId body).store.budgets := by
  unfold updateBudget
  by_cases hroute : body.routeValid
  swap
  · simpa [hroute] using ⟨hkeys, hids⟩
  simp only [hroute, not_true_eq_false, if_false]
  cases hf : findBudgetById s.budgets budgetId user with
  | none => exact ⟨hkeys, hids⟩
  | some b =>
    simp only []
    split
    · exact ⟨hkeys, hids⟩
    · split
      · exact ⟨hkeys, hids⟩
      · rename_i hdup
        exact unique_after_save s.budgets (body.applyTo b) hkeys hids (by simpa using hdup)

theorem unique_after_deleteBudget (s : Store) (user budgetId : Nat)
    (hkeys : uniqueBudgetKeys s.budgets) (hids : uniqueBudgetIds s.budgets) :
    uniqueBudgetKeys (deleteBudget s user budgetId).store.budgets ∧
    uniqueBudgetIds (deleteBudget s user budgetId).store.budgets := by
  unfold deleteBudget
  cases hf : findBudgetById s.budgets budgetId user with
  | none => exact ⟨hkeys, hids⟩
  | some b =>
    exact ⟨List.Pairwise.sublist (List.eraseP_sublist _) hkeys,
      List.Pairwise.sublist (List.eraseP_sublist _) hids⟩

theorem budgetReachable_unique (s : Store) (h : BudgetReachable s) :
    uniqueBudgetKeys s.budgets ∧ uniqueBudgetIds s.budgets := by
  induction h with
  | empty => exact ⟨List.Pairwise.nil, List.Pairwise.nil⟩
  | create s user newId body _ hfresh ih =>
    exact unique_after_createBudget s user newId body ih.1 ih.2 hfresh
  | update s user budgetId body _ ih =>
    exact unique_after_updateBudget s user budgetId body ih.1 ih.2
  | delete s user budgetId _ ih =>
    exact unique_after_deleteBudget s user budgetId ih.1 ih.2

/-- C12: in every store reachable from the empty store by `createBudget`, `updateBudget`
and `deleteBudget` no two budgets share (user, category, month, year). In particular, when
an update would give the caller's budget `b` the four fields of another budget of the
store, `updateBudget` does not answer 200 and leaves the store, hence both budgets,
unchanged; for a body that passes the route validators and a document that passes the
schema the response is the conflict response of the unique index. -/
theorem budget_keys_unique (s : Store) (h : BudgetReachable s) :
    uniqueBudgetKeys s.budgets ∧
    ∀ (user budgetId : Nat) (body : BudgetPatch) (b other : Budget),
      findBudgetById s.budgets budgetId user = some b → other ∈ s.budgets → other ≠ b →
      other.hasKey (body.applyTo b).user (body.applyTo b).category (body.applyTo b).month
        (body.applyTo b).year →
      (updateBudget s user budgetId body).status ≠ 200 ∧
      (updateBudget s user budgetId body).store = s ∧
      (body.routeValid → (body.applyTo b).schemaValid →
        updateBudget s user budgetId body =
          { status := 400, store := s, message := some budgetExists }) := by
  obtain ⟨hkeys, hids⟩ := budgetReachable_unique s h
  refine ⟨hkeys, ?_⟩
  intro user budgetId body b other hfind hmem hne hkey
  obtain ⟨hbmem, -, -⟩ := findBudgetById_some _ _ _ _ hfind
  have hidne : other.id ≠ b.id :=
    List.Pairwise.forall (fun _ _ hxy => Ne.symm hxy) hids hmem hbmem hne
  have hdup : duplicateKey s.budgets (body.applyTo b) = true := by
    unfold duplicateKey
    rw [List.any_eq_true]
    exact ⟨other, hmem, by simpa using ⟨hidne, hkey⟩⟩
  unfold updateBudget
  by_cases hroute : body.routeValid
  · by_cases hschema : (body.applyTo b).schemaValid
    · simp [hroute, hfind, hschema, hdup]
    · simp [hroute, hfind, hschema]
  · simp [hroute]

/-! ### Listing transactions -/

theorem intOr_of_pos (x : Option Int) (fallback : Int) (h : ∀ v ∈ x, 1 ≤ v) :
    intOr x fallback = x.getD fallback := by
  cases x with
  | none => rfl
  | some v =>
    have hv : 1 ≤ v := h v rfl
    have hne : ¬ v = 0 := by omega
    simp [intOr, hne]

theorem flatMap_chunks {α : Type} (l : List α) (limit n : Nat) :
    (List.range n).flatMap (fun k => (l.drop (k * limit)).take limit) = l.take (n * limit) := by
  induction n with
  | zero => simp
  | succ n ih =>
    rw [List.range_succ, List.flatMap_append, ih, Nat.succ_mul, List.take_add]
    simp

theorem getTransactions_eq (regex : String → Option (String → Bool)) (s : Store) (user : Nat)
    (q : TransactionQuery) (test : String → Bool) (hq : q.routeValid)
    (hs : searchTest regex q = some test) :
    getTransactions regex s user q =
      { status := 200
        transactions :=
          ((listing s user q test).drop ((q.page.getD 1 - 1) * q.limit.getD 20).toNat).take
            (q.limit.getD 20).toNat
        pagination := some
          { current := q.page.getD 1
            pages := ⌈((s.transactions.filter (queryFilter user q test)).length : ℚ) /
              ((q.limit.getD 20 : Int) : ℚ)⌉
            total := (s.transactions.filter (queryFilter user q test)).length } } := by
  have hp := intOr_of_pos q.page 1 hq.1
  have hl := intOr_of_pos q.limit 20 (fun v hv => (hq.2.1 v hv).1)
  unfold getTransactions
  simp only [hq, not_true_eq_false, if_false, hs, hp, hl, listing]

theorem page_limit_bounds (q : TransactionQuery) (hq : q.routeValid) :
    1 ≤ q.page.getD 1 ∧ 1 ≤ q.limit.getD 20 ∧ q.limit.getD 20 ≤ 100 := by
  obtain ⟨h1, h2, -, -⟩ := hq
  refine ⟨?_, ?_, ?_⟩
  · cases hp : q.page with
    | none => simp
    | some v => simpa using h1 v (by simp [hp])
  · cases hl : q.limit with
    | none => simp
    | some v => simpa using (h2 v (by simp [hl])).1
  · cases hl : q.limit with
    | none => simp
    | some v => simpa using (h2 v (by simp [hl])).2

theorem length_le_ceil_mul (n limit : Nat) (hlimit : 1 ≤ limit) :
    n ≤ ⌈(n : ℚ) / (limit : ℚ)⌉.toNat * limit := by
  have hpos : (0 : ℚ) < (limit : ℚ) := by exact_mod_cast hlimit
  have hnonneg : (0 : ℚ) ≤ (n : ℚ) / (limit : ℚ) := by positivity
  have hceil : 0 ≤ ⌈(n : ℚ) / (limit : ℚ)⌉ := Int.ceil_nonneg hnonneg
  have hle : (n : ℚ) / (limit : ℚ) ≤ ((⌈(n : ℚ) / (limit : ℚ)⌉ : Int) : ℚ) := Int.le_ceil _
  have hcast : ((⌈(n : ℚ) / (limit : ℚ)⌉.toNat : Nat) : Int) = ⌈(n : ℚ) / (limit : ℚ)⌉ :=
    Int.toNat_of_nonneg hceil
  have hle2 : (n : ℚ) ≤ ((⌈(n : ℚ) / (limit : ℚ)⌉.toNat : Nat) : ℚ) * (limit : ℚ) := by
    rw [div_le_iff₀ hpos] at hle
    have hq : ((⌈(n : ℚ) / (limit : ℚ)⌉.toNat : Nat) : ℚ) =
        ((⌈(n : ℚ) / (limit : ℚ)⌉ : Int) : ℚ) := by
      rw [← Int.cast_natCast, hcast]
    rw [hq]
    exact hle
  exact_mod_cast hle2

/-- C19: pagination of `getTransactions`. A limit above 100 is refused with 400 and no
item. For a query that passes the route validators (and whose search text, if any, is a
valid pattern), with page = the supplied page or 1 and limit = the supplied limit or 20:
the response is 200; the items are the positions (page − 1)·limit .. page·limit − 1 of the
filtered, date-descending list, hence at most `limit` items; `total` is the number of the
caller's transactions passing the filter; `pages` is ceil(total / limit); and the items of
the pages 1..pages, one after the other, are the whole list. -/
theorem getTransactions_pagination (regex : String → Option (String → Bool)) (s : Store)
    (user : Nat) (q : TransactionQuery) :
    (∀ l, q.limit = some l → 100 < l →
      (getTransactions regex s user q).status = 400 ∧
      (getTransactions regex s user q).transactions = []) ∧
    (q.routeValid → ∀ test, searchTest regex q = some test →
      ∃ page limit : Nat,
        (page : Int) = q.page.getD 1 ∧ (limit : Int) = q.limit.getD 20 ∧
        1 ≤ page ∧ 1 ≤ limit ∧ limit ≤ 100 ∧
        (getTransactions regex s user q).status = 200 ∧
        (getTransactions regex s user q).transactions =
          ((listing s user q test).drop ((page - 1) * limit)).take limit ∧
        (getTransactions regex s user q).transactions.length ≤ limit ∧
        (getTransactions regex s user q).pagination = some
          { current := page
            pages := ⌈((listing s user q test).length : ℚ) / (limit : ℚ)⌉
            total := (listing s user q test).length } ∧
        (listing s user q test).length =
          (s.transactions.filter (queryFilter user q test)).length ∧
        (List.range ⌈((listing s user q test).length : ℚ) / (limit : ℚ)⌉.toNat).flatMap
          (fun k => (getTransactions regex s user
            { q with page := some ((k : Int) + 1) }).transactions) =
          listing s user q test) := by
  constructor
  · intro l hl h100
    have hnot : ¬ q.routeValid := by
      intro hq
      have := (hq.2.1 l (by simp [hl])).2
      omega
    unfold getTransactions
    simp [hnot]
  · intro hq test hs
    obtain ⟨hP, hL1, hL2⟩ := page_limit_bounds q hq
    have hpc : ((q.page.getD 1).toNat : Int) = q.page.getD 1 := Int.toNat_of_nonneg (by omega)
    have hlc : ((q.limit.getD 20).toNat : Int) = q.limit.getD 20 := Int.toNat_of_nonneg (by omega)
    have hlen : (listing s user q test).length =
        (s.transactions.filter (queryFilter user q test)).length :=
      List.length_insertionSort _ _
    have hskip : ∀ P L : Int, 1 ≤ P → 0 ≤ L → ((P - 1) * L).toNat = (P.toNat - 1) * L.toNat := by
      intro P L h1 h2
      have e1 : ((P.toNat : Nat) : Int) = P := Int.toNat_of_nonneg (by omega)
      have e2 : ((L.toNat : Nat) : Int) = L := Int.toNat_of_nonneg h2
      have e3 : 1 ≤ P.toNat := by omega
      have : (P - 1) * L = (((P.toNat - 1) * L.toNat : Nat) : Int) := by
        rw [Nat.cast_mul, Nat.cast_sub e3, e1, e2]
        simp
      rw [this, Int.toNat_natCast]
    have hpage : ∀ (q2 : TransactionQuery), q2.routeValid → searchTest regex q2 = some test →
        queryFilter user q2 test = queryFilter user q test → q2.limit = q.limit →
        (getTransactions regex s user q2).transactions =
          ((listing s user q test).drop (((q2.page.getD 1).toNat - 1) * (q.limit.getD 20).toNat)).take
            (q.limit.getD 20).toNat := by
      intro q2 hq2 hs2 hf hlim
      obtain ⟨hP2, -, -⟩ := page_limit_bounds q2 hq2
      rw [getTransactions_eq regex s user q2 test hq2 hs2]
      simp only [listing, hf, hlim]
      rw [hskip _ _ hP2 (by omega)]
    refine ⟨(q.page.getD 1).toNat, (q.limit.getD 20).toNat, hpc, hlc, by omega, by omega,
      by omega, ?_, ?_, ?_, ?_, hlen, ?_⟩
    · rw [getTransactions_eq regex s user q test hq hs]
    · exact hpage q hq hs rfl rfl
    · rw [hpage q hq hs rfl rfl]
      exact List.length_take_le _ _
    · rw [getTransactions_eq regex s user q test hq hs]
      have hcastL : (((q.limit.getD 20).toNat : Nat) : ℚ) = ((q.limit.getD 20 : Int) : ℚ) := by
        rw [← Int.cast_natCast, hlc]
      simp only [hlen, hpc, hcastL]
    · have hchunk : ∀ k : Nat,
          (getTransactions regex s user { q with page := some ((k : Int) + 1) }).transactions =
            ((listing s user q test).drop (k * (q.limit.getD 20).toNat)).take
              (q.limit.getD 20).toNat := by
        intro k
        have hq2 : ({ q with page := some ((k : Int) + 1) } : TransactionQuery).routeValid := by
          refine ⟨?_, hq.2.1, hq.2.2.1, hq.2.2.2⟩
          intro x hx
          simp only [Option.mem_def, Option.some.injEq] at hx
          omega
        have := hpage { q with page := some ((k : Int) + 1) } hq2 hs rfl rfl
        rw [this]
        have hk : ((Option.some ((k : Int) + 1)).getD 1).toNat - 1 = k := by
          simp only [Option.getD_some]
          omega
        simp only [hk]
      simp only [hchunk]
      rw [flatMap_chunks]
      exact List.take_of_length_le (length_le_ceil_mul _ _ (by omega))

theorem mem_listing (s : Store) (user : Nat) (q : TransactionQuery) (test : String → Bool)
    (t : Transaction) :
    t ∈ listing s user q test ↔ t ∈ s.transactions ∧ queryFilter user q test t = true := by
  unfold listing sortByDateDesc
  rw [(List.perm_insertionSort dateDesc _).mem_iff, List.mem_filter]

/-- The filters and the order of `getTransactions`, the search text apart: for a query that
passes the route validators, every returned item is a transaction of the store owned by the
caller, has the supplied type and category, lies between the two dates when both are
supplied, and passes the test that the store's engine derives from the search text; the
items are in date-descending order. -/
theorem getTransactions_items (regex : String → Option (String → Bool)) (s : Store)
    (user : Nat) (q : TransactionQuery) (test : String → Bool) (hq : q.routeValid)
    (hs : searchTest regex q = some test) :
    (∀ t ∈ (getTransactions regex s user q).transactions,
      t ∈ s.transactions ∧ t.user = user ∧ (∀ ty ∈ q.type, t.type = ty) ∧
      (∀ c ∈ q.category, t.category = c) ∧
      (∀ a ∈ q.startDate, ∀ b ∈ q.endDate, Date.le a t.date ∧ Date.le t.date b) ∧
      test t.description = true) ∧
    (getTransactions regex s user q).transactions.Pairwise dateDesc := by
  rw [getTransactions_eq regex s user q test hq hs]
  constructor
  · intro t ht
    have hmem : t ∈ listing s user q test :=
      List.mem_of_mem_drop (List.mem_of_mem_take ht)
    rw [mem_listing] at hmem
    obtain ⟨hin, hf⟩ := hmem
    unfold queryFilter at hf
    simp only [Bool.and_eq_true, decide_eq_true_eq] at hf
    obtain ⟨⟨⟨⟨hu, hty⟩, hc⟩, hd⟩, hte⟩ := hf
    refine ⟨hin, hu, ?_, ?_, ?_, hte⟩
    · intro ty hmty
      have hne : ty ≠ "" := by
        intro he
        have := hq.2.2.1 ty hmty
        rw [he] at this
        exact absurd this (by decide)
      simp only [Option.mem_def] at hmty
      simpa [hmty, textGiven, hne] using hty
    · intro c hmc
      have hne : c ≠ "" := hq.2.2.2 c hmc
      simp only [Option.mem_def] at hmc
      simpa [hmc, textGiven, hne] using hc
    · intro a ha b hb
      simp only [Option.mem_def] at ha hb
      simpa [ha, hb] using hd
  · have hsorted : (listing s user q test).Pairwise dateDesc :=
      List.sorted_insertionSort dateDesc _
    exact List.Pairwise.sublist
      ((List.take_sublist _ _).trans (List.drop_sublist _ _)) hsorted

/-- C20 (evaluation at a failing input): the search text `.` is handed to the store as a
regular expression. With any engine for which, as for the engine of the store, the pattern
`.` is valid and matches in "groceries", the listing of user 1 for `?search=.` returns the
groceries, although the description "groceries" does not contain the text ".". -/
theorem getTransactions_search_is_pattern (regex : String → Option (String → Bool))
    (test : String → Bool) (hdot : regex "." = some test)
    (hmatch : test groceries.description = true) :
    (getTransactions regex juneStore 1 dotQuery).status = 200 ∧
    groceries ∈ (getTransactions regex juneStore 1 dotQuery).transactions ∧
    containsIgnoreCase groceries.description "." = false := by
  have hq : dotQuery.routeValid := by decide
  have hs : searchTest regex dotQuery = some test := hdot
  rw [getTransactions_eq regex juneStore 1 dotQuery test hq hs]
  refine ⟨rfl, ?_, by decide⟩
  have hin : groceries ∈ listing juneStore 1 dotQuery test := by
    rw [mem_listing]
    refine ⟨by simp [juneStore], ?_⟩
    have : queryFilter 1 dotQuery test groceries = test groceries.description := by
      simp [queryFilter, dotQuery, emptyQuery, textGiven, groceries]
    rw [this, hmatch]
  have hlen : (listing juneStore 1 dotQuery test).length ≤ 20 := by
    unfold listing sortByDateDesc
    rw [List.length_insertionSort]
    exact le_trans (List.length_filter_le _ _) (by simp [juneStore])
  show groceries ∈ ((listing juneStore 1 dotQuery test).drop 0).take 20
  rw [List.drop_zero, List.take_of_length_le hlen]
  exact hin

/-! ### Witnesses of the budget, listing and account theorems -/

/-- Witness of C11: user 1 asks for a second Food budget of June 2024. -/
theorem createBudget_conflict_witness :
    foodJune 120 ∈ juneStore.budgets ∧ foodJuneBody.routeValid ∧
    createBudget juneStore 1 9 foodJuneBody =
      { status := 400, store := juneStore, message := some budgetExists } :=
  ⟨by decide!, by decide!,
    (createBudget_conflict juneStore 1 9 foodJuneBody (foodJune 120) (by decide!)
      (by decide)).2.2 (by decide!)⟩

/-- Witness of C12: the store with the Food and the Bills budget of user 1 is reachable; its
keys are unique, and renaming the Bills budget to Food is refused. -/
theorem budget_keys_unique_witness :
    twoBudgetStore.budgets = [foodJune 0, billsJune 0] ∧
    uniqueBudgetKeys twoBudgetStore.budgets ∧
    (updateBudget twoBudgetStore 1 2 toFoodPatch).status ≠ 200 ∧
    (updateBudget twoBudgetStore 1 2 toFoodPatch).store = twoBudgetStore :=
  have hreach : BudgetReachable twoBudgetStore :=
    BudgetReachable.create _ 1 2 billsJuneBody
      (BudgetReachable.create emptyStore 1 1 foodJuneBody BudgetReachable.empty (by decide!))
      (by decide!)
  have h := budget_keys_unique twoBudgetStore hreach
  have h2 := h.2 1 2 toFoodPatch (billsJune 0) (foodJune 0) (by decide!) (by decide!)
    (by decide!) (by decide!)
  ⟨by decide!, h.1, h2.1, h2.2.1⟩

/-- Witness of C14: the entry of the worked example, 380 remaining. -/
theorem progress_remaining_witness :
    exampleEntry ∈ getBudgetProgress exampleAfterFirst 1 6 2024 ∧ 0 ≤ exampleEntry.remaining :=
  ⟨by decide!, (progress_remaining exampleAfterFirst 1 6 2024 exampleEntry (by decide!)).2.1⟩

/-- Witness of C15: the entry of the worked example, status "good" at 24 percent. -/
theorem progress_status_witness :
    exampleEntry ∈ getBudgetProgress exampleAfterFirst 1 6 2024 ∧
    (exampleEntry.status = "good" ↔ exampleEntry.percentage < 80) :=
  ⟨by decide!, (progress_status exampleAfterFirst 1 6 2024 exampleEntry (by decide!)).2.2.1⟩

/-- Witness of C17: user 1 asks for transaction 12 and budget 3, both owned by user 2. -/
theorem foreign_id_not_found_witness :
    deleteTransaction twoUserStore 1 12 =
      { status := 404, store := twoUserStore, message := some transactionNotFound } ∧
    deleteBudget twoUserStore 1 3 =
      { status := 404, store := twoUserStore, message := some budgetNotFound } :=
  ⟨((foreign_id_not_found twoUserStore 1 12).1 (by decide)).2.2.1,
    ((foreign_id_not_found twoUserStore 1 3).2 (by decide)).2.2.1⟩

/-- Witness of C18: user 2 deletes the account in the store of two users. -/
theorem deleteUserAccount_cascade_witness :
    uniqueUserIds twoUserStore.users ∧
    (deleteUserAccount twoUserStore 2).store.users =
      twoUserStore.users.filter (fun u => decide (u.id ≠ 2)) :=
  ⟨by decide, (deleteUserAccount_cascade twoUserStore 2 (by decide)).2.2.2.2.2.2.1⟩

/-- Witness of C19: the expenses of user 1, one per page. -/
theorem getTransactions_pagination_witness :
    onePerPageQuery.routeValid ∧
    ∃ page limit : Nat, (limit : Int) = 1 ∧ (page : Int) = 1 ∧
      (getTransactions wildcardRegex juneStore 1 onePerPageQuery).transactions =
        ((listing juneStore 1 onePerPageQuery (fun _ => true)).drop ((page - 1) * limit)).take
          limit := by
  refine ⟨by decide, ?_⟩
  obtain ⟨page, limit, h1, h2, -, -, -, -, h3, -⟩ :=
    (getTransactions_pagination wildcardRegex juneStore 1 onePerPageQuery).2 (by decide)
      (fun _ => true) rfl
  exact ⟨page, limit, h2, h1, h3⟩

/-- Witness of C20: the engine `wildcardRegex` accepts the pattern `.` and finds a match
in "groceries". -/
theorem getTransactions_search_is_pattern_witness :
    groceries ∈ (getTransactions wildcardRegex juneStore 1 dotQuery).transactions ∧
    containsIgnoreCase groceries.description "." = false :=
  (getTransactions_search_is_pattern wildcardRegex
    (fun text => text.toList.tails.any (wildcardMatchesAt ".".toList)) rfl (by decide)).2

/-! ### The pagination helper -/

/-- C27: `validatePagination` always returns a page of at least 1 and a limit between 1 and
100. An absent (missing or non-numeric) or zero page gives 1 and so does a negative page;
an absent or zero limit gives 20, a limit above 100 gives 100 and a negative limit gives 1;
a page of at least 1 and a limit between 1 and 100 are returned unchanged. -/
theorem validatePagination_bounds (page limit : Option Int) :
    1 ≤ (validatePagination page limit).1 ∧
    1 ≤ (validatePagination page limit).2 ∧ (validatePagination page limit).2 ≤ 100 ∧
    (page = none ∨ page = some 0 → (validatePagination page limit).1 = 1) ∧
    (∀ p, page = some p → p < 0 → (validatePagination page limit).1 = 1) ∧
    (limit = none ∨ limit = some 0 → (validatePagination page limit).2 = 20) ∧
    (∀ l, limit = some l → 100 < l → (validatePagination page limit).2 = 100) ∧
    (∀ l, limit = some l → l < 0 → (validatePagination page limit).2 = 1) ∧
    (∀ p, page = some p → 1 ≤ p → (validatePagination page limit).1 = p) ∧
    (∀ l, limit = some l → 1 ≤ l → l ≤ 100 → (validatePagination page limit).2 = l) := by
  have hp : (validatePagination page limit).1 = max 1 (intOr page 1) := rfl
  have hl : (validatePagination page limit).2 = min 100 (max 1 (intOr limit 20)) := rfl
  rw [hp, hl]
  refine ⟨by omega, by omega, by omega, ?_, ?_, ?_, ?_, ?_, ?_, ?_⟩
  · rintro (h | h) <;> simp [h, intOr]
  · intro p h hneg
    have hne : ¬ p = 0 := by omega
    simp only [h, intOr, hne, if_false]
    omega
  · rintro (h | h) <;> simp [h, intOr]
  · intro l h hbig
    have hne : ¬ l = 0 := by omega
    simp only [h, intOr, hne, if_false]
    omega
  · intro l h hneg
    have hne : ¬ l = 0 := by omega
    simp only [h, intOr, hne, if_false]
    omega
  · intro p h hpos
    have hne : ¬ p = 0 := by omega
    simp only [h, intOr, hne, if_false]
    omega
  · intro l h h1 h2
    have hne : ¬ l = 0 := by omega
    simp only [h, intOr, hne, if_false]
    omega

/-! ### Rounding at the thresholds -/

theorem le_mathRound_iff (c : Int) (spent limit : ℚ) (hlimit : 0 < limit) :
    c ≤ mathRound (spent / limit * 100) ↔ (2 * (c : ℚ) - 1) * limit ≤ 200 * spent := by
  unfold mathRound
  rw [Int.le_floor]
  have h1 : spent / limit * 100 + 1 / 2 = (200 * spent + limit) / (2 * limit) := by
    field_simp
    ring
  rw [h1, le_div_iff₀ (by linarith)]
  constructor <;> intro h <;> linarith

theorem status_of_entry (s : Store) (user : Nat) (month year : Int) (p : BudgetProgress)
    (hp : p ∈ getBudgetProgress s user month year) (hlimit : 0 < p.budget.limit) :
    (p.status = "exceeded" ↔ 199 * p.budget.limit ≤ 200 * p.actualSpent) ∧
    (p.status = "warning" ↔
      159 * p.budget.limit ≤ 200 * p.actualSpent ∧ 200 * p.actualSpent < 199 * p.budget.limit) ∧
    (p.status = "good" ↔ 200 * p.actualSpent < 159 * p.budget.limit) := by
  obtain ⟨h1, -, h3⟩ := mem_getBudgetProgress s user month year p hp
  rw [if_pos hlimit] at h1
  have e1 : ("exceeded" : String) ≠ "warning" := by decide
  have e2 : ("exceeded" : String) ≠ "good" := by decide
  have e3 : ("warning" : String) ≠ "good" := by decide
  have k100 : (100 : Int) ≤ p.percentage ↔ 199 * p.budget.limit ≤ 200 * p.actualSpent := by
    rw [h1, le_mathRound_iff 100 _ _ hlimit]
    norm_num
  have k80 : (80 : Int) ≤ p.percentage ↔ 159 * p.budget.limit ≤ 200 * p.actualSpent := by
    rw [h1, le_mathRound_iff 80 _ _ hlimit]
    norm_num
  by_cases h100 : p.percentage ≥ 100
  · rw [if_pos h100] at h3
    have a := k100.mp h100
    rw [h3]
    refine ⟨⟨fun _ => a, fun _ => rfl⟩, ⟨fun h => absurd h e1, fun h => ?_⟩,
      ⟨fun h => absurd h e2, fun h => ?_⟩⟩
    · exact absurd a (not_le.mpr h.2)
    · exfalso
      have : (0 : ℚ) < p.budget.limit := hlimit
      linarith
  · have a : ¬ 199 * p.budget.limit ≤ 200 * p.actualSpent := fun h => h100 (k100.mpr h)
    by_cases h80 : p.percentage ≥ 80
    · rw [if_neg h100, if_pos h80] at h3
      have b := k80.mp h80
      rw [h3]
      refine ⟨⟨fun h => absurd h.symm e1, fun h => absurd h a⟩,
        ⟨fun _ => ⟨b, not_le.mp a⟩, fun _ => rfl⟩, ⟨fun h => absurd h e3, fun h => ?_⟩⟩
      exact absurd b (not_le.mpr h)
    · rw [if_neg h100, if_neg h80] at h3
      have b : ¬ 159 * p.budget.limit ≤ 200 * p.actualSpent := fun h => h80 (k80.mpr h)
      rw [h3]
      exact ⟨⟨fun h => absurd h.symm e2, fun h => absurd h a⟩,
        ⟨fun h => absurd h.symm e3, fun h => absurd h.1 b⟩, ⟨fun _ => not_le.mp b, fun _ => rfl⟩⟩

/-- C28: rounding at the thresholds, in exact arithmetic. For an entry of a Progress result
with a positive limit, the status is "exceeded" exactly when 200·actualSpent ≥ 199·limit,
"warning" exactly when 159·limit ≤ 200·actualSpent < 199·limit, and "good" exactly when
200·actualSpent < 159·limit. Hence the status is monotone in actualSpent: of two entries
with the same positive limit, the one with the larger actualSpent has a status of at least
the same rank (good, warning, exceeded). -/
theorem status_thresholds (s : Store) (user : Nat) (month year : Int) (p : BudgetProgress)
    (hp : p ∈ getBudgetProgress s user month year) (hlimit : 0 < p.budget.limit) :
    (p.status = "exceeded" ↔ 199 * p.budget.limit ≤ 200 * p.actualSpent) ∧
    (p.status = "warning" ↔
      159 * p.budget.limit ≤ 200 * p.actualSpent ∧ 200 * p.actualSpent < 199 * p.budget.limit) ∧
    (p.status = "good" ↔ 200 * p.actualSpent < 159 * p.budget.limit) ∧
    (∀ (s2 : Store) (user2 : Nat) (month2 year2 : Int) (p2 : BudgetProgress),
      p2 ∈ getBudgetProgress s2 user2 month2 year2 → p2.budget.limit = p.budget.limit →
      p.actualSpent ≤ p2.actualSpent → statusRank p.status ≤ statusRank p2.status) := by
  obtain ⟨a1, a2, a3⟩ := status_of_entry s user month year p hp hlimit
  refine ⟨a1, a2, a3, ?_⟩
  intro s2 user2 month2 year2 p2 hp2 hsame hle
  obtain ⟨b1, b2, b3⟩ := status_of_entry s2 user2 month2 year2 p2 hp2 (hsame ▸ hlimit)
  rw [hsame] at b1 b2 b3
  have e1 : ("warning" : String) ≠ "exceeded" := by decide
  have e2 : ("good" : String) ≠ "exceeded" := by decide
  have e3 : ("good" : String) ≠ "warning" := by decide
  by_cases c1 : 199 * p.budget.limit ≤ 200 * p.actualSpent
  · have d1 : p2.status = "exceeded" := b1.mpr (by linarith)
    have d0 : p.status = "exceeded" := a1.mpr c1
    rw [d0, d1]
  · by_cases c2 : 159 * p.budget.limit ≤ 200 * p.actualSpent
    · have d0 : p.status = "warning" := a2.mpr ⟨c2, not_le.mp c1⟩
      rw [d0]
      by_cases c3 : 199 * p.budget.limit ≤ 200 * p2.actualSpent
      · rw [b1.mpr c3]
        decide
      · rw [b2.mpr ⟨by linarith, not_le.mp c3⟩]
    · have d0 : p.status = "good" := a3.mpr (not_le.mp c2)
      rw [d0]
      have : statusRank "good" = 0 := by decide
      rw [this]
      exact Nat.zero_le _

/-! ### The transaction cache of the client -/

/-- C29: the reducer of the client. `DELETE_TRANSACTION_SUCCESS(id)` keeps, in their order,
exactly the entries whose `_id` differs from `id`; `UPDATE_TRANSACTION_SUCCESS(t)` keeps
length and order and puts `t` at exactly the positions whose entry has the `_id` of `t`;
`CREATE_TRANSACTION_SUCCESS(t)` prepends `t`; each of the three leaves `loading`, `error`,
`pagination`, `stats` and `filters` unchanged; an unknown action returns the state. -/
theorem transactionReducer_cache (state : ClientState) :
    (∀ id : Nat,
      (transactionReducer state (.deleteTransactionSuccess id)).transactions =
        state.transactions.filter (fun t => decide (t.id ≠ id)) ∧
      (transactionReducer state (.deleteTransactionSuccess id)).transactions.Sublist
        state.transactions ∧
      (∀ t, t ∈ (transactionReducer state (.deleteTransactionSuccess id)).transactions ↔
        t ∈ state.transactions ∧ t.id ≠ id) ∧
      transactionReducer state (.deleteTransactionSuccess id) =
        { state with
          transactions := (transactionReducer state (.deleteTransactionSuccess id)).transactions }) ∧
    (∀ t : Transaction,
      (transactionReducer state (.updateTransactionSuccess t)).transactions.length =
        state.transactions.length ∧
      (∀ i : Nat, (transactionReducer state (.updateTransactionSuccess t)).transactions[i]? =
        state.transactions[i]?.map (fun x => if x.id = t.id then t else x)) ∧
      transactionReducer state (.updateTransactionSuccess t) =
        { state with
          transactions := (transactionReducer state (.updateTransactionSuccess t)).transactions }) ∧
    (∀ t : Transaction,
      transactionReducer state (.createTransactionSuccess t) =
        { state with transactions := t :: state.transactions }) ∧
    (∀ type : String, transactionReducer state (.unknown type) = state) := by
  refine ⟨?_, ?_, fun _ => rfl, fun _ => rfl⟩
  · intro id
    refine ⟨rfl, List.filter_sublist _, ?_, rfl⟩
    intro t
    show t ∈ state.transactions.filter (fun t => decide (t.id ≠ id)) ↔ _
    rw [List.mem_filter]
    simp
  · intro t
    refine ⟨?_, ?_, rfl⟩
    · show (state.transactions.map _).length = _
      exact List.length_map _ _
    · intro i
      show (state.transactions.map _)[i]? = _
      exact List.getElem?_map _ _ _

/-! ### The budget summary of the client -/

theorem foldl_summaryStep (l : List BudgetProgress) (acc : BudgetSummary) :
    (l.foldl summaryStep acc).totalCategories = acc.totalCategories ∧
    (l.foldl summaryStep acc).totalBudget =
      acc.totalBudget + (l.map (fun p => p.budget.limit)).sum ∧
    (l.foldl summaryStep acc).totalRemaining =
      acc.totalRemaining + (l.map (fun p => p.remaining)).sum ∧
    (l.foldl summaryStep acc).exceededCount =
      acc.exceededCount + l.countP (fun p => decide (p.status = "exceeded")) ∧
    (l.foldl summaryStep acc).warningCount =
      acc.warningCount + l.countP (fun p => decide (p.status = "warning")) ∧
    (l.foldl summaryStep acc).exceededCount + (l.foldl summaryStep acc).warningCount +
      (l.foldl summaryStep acc).goodCount =
      acc.exceededCount + acc.warningCount + acc.goodCount + l.length := by
  induction l generalizing acc with
  | nil => simp
  | cons p rest ih =>
    rw [List.foldl_cons]
    obtain ⟨h1, h2, h3, h4, h5, h6⟩ := ih (summaryStep acc p)
    have e1 : ("warning" : String) ≠ "exceeded" := by decide
    refine ⟨h1.trans ?_, h2.trans ?_, h3.trans ?_, h4.trans ?_, h5.trans ?_, h6.trans ?_⟩
    · unfold summaryStep
      split_ifs <;> rfl
    · have : (summaryStep acc p).totalBudget = acc.totalBudget + p.budget.limit := by
        unfold summaryStep
        split_ifs <;> rfl
      rw [this, List.map_cons, List.sum_cons]
      ring
    · have : (summaryStep acc p).totalRemaining = acc.totalRemaining + p.remaining := by
        unfold summaryStep
        split_ifs <;> rfl
      rw [this, List.map_cons, List.sum_cons]
      ring
    · by_cases c1 : p.status = "exceeded"
      · simp [summaryStep, c1, List.countP_cons]
        omega
      · by_cases c2 : p.status = "warning" <;> simp [summaryStep, c1, c2, List.countP_cons]
    · by_cases c1 : p.status = "exceeded"
      · simp [summaryStep, c1, List.countP_cons]
      · by_cases c2 : p.status = "warning"
        · simp [summaryStep, c1, c2, List.countP_cons]
          omega
        · simp [summaryStep, c1, c2, List.countP_cons]
    · by_cases c1 : p.status = "exceeded"
      · simp [summaryStep, c1]
        omega
      · by_cases c2 : p.status = "warning"
        · simp [summaryStep, c1, c2]
          omega
        · simp [summaryStep, c1, c2]
          omega

/-- C30: `getSummary` over any Progress list. `totalCategories` is the length of the list;
the three counts add up to it; `exceededCount` and `warningCount` are the numbers of the
entries whose status is "exceeded" and "warning"; `totalBudget` is the sum of the limits and
`totalRemaining` the sum of the `remaining` fields, both sums in exact arithmetic; for the
empty list every field is 0. -/
theorem getSummary_totals (budgets : List BudgetProgress) :
    (getSummary budgets).totalCategories = budgets.length ∧
    (getSummary budgets).exceededCount + (getSummary budgets).warningCount +
      (getSummary budgets).goodCount = (getSummary budgets).totalCategories ∧
    (getSummary budgets).exceededCount =
      budgets.countP (fun p => decide (p.status = "exceeded")) ∧
    (getSummary budgets).warningCount =
      budgets.countP (fun p => decide (p.status = "warning")) ∧
    (getSummary budgets).totalBudget = (budgets.map (fun p => p.budget.limit)).sum ∧
    (getSummary budgets).totalRemaining = (budgets.map (fun p => p.remaining)).sum ∧
    getSummary [] =
      { totalBudget := 0, totalSpent := 0, totalRemaining := 0, exceededCount := 0,
        warningCount := 0, goodCount := 0, totalCategories := 0 } := by
  unfold getSummary
  obtain ⟨h1, h2, h3, h4, h5, h6⟩ := foldl_summaryStep budgets
    { totalBudget := 0, totalSpent := 0, totalRemaining := 0, exceededCount := 0,
      warningCount := 0, goodCount := 0, totalCategories := budgets.length }
  refine ⟨h1, ?_, ?_, ?_, ?_, ?_, rfl⟩
  · rw [h6, h1]
    simp
  · rw [h4]
    simp
  · rw [h5]
    simp
  · rw [h2]
    simp
  · rw [h3]
    simp

/-! ### Validation of a new transaction -/

/-- The rejections that the route of `POST /transactions` does perform: a type outside
income and expense, an amount below 0.01, an empty category, or a trimmed description
whose length is not between 1 and 200 is answered 400 and the store is returned as it
was. -/
theorem createTransaction_rejects (s : Store) (user newId : Nat) (body : TransactionBody)
    (h : body.type ∉ transactionTypes ∨ body.amount < 1 / 100 ∨ body.category = "" ∨
      (jsTrim body.description).length < 1 ∨ 200 < (jsTrim body.description).length) :
    createTransaction s user newId body = { status := 400, store := s } := by
  have hnot : ¬ body.routeValid := by
    rintro ⟨h1, h2, h3, h4, h5⟩
    rcases h with h | h | h | h | h
    · exact h h1
    · exact absurd h2 (not_le.mpr h)
    · exact h3 h
    · omega
    · omega
  unfold createTransaction
  simp [hnot]

/-- C21 (evaluation at failing inputs): a request with amount 1000000, above 999999.99,
passes the route validators, answers 201, is stored and raises `spent` of the Food budget
to 1000000; a request with the category "Gifts", outside the allowed set, is answered 500
"Server error" by the schema instead of 400, with the store unchanged. -/
theorem createTransaction_accepts_million :
    (99999999 : ℚ) / 100 < millionBody.amount ∧
    createTransaction exampleStart 1 30 millionBody =
      { status := 201
        store :=
          { users := []
            transactions :=
              [{ id := 30, user := 1, type := "expense", amount := 1000000, category := "Food",
                 description := "villa", date := june5 }]
            budgets := [foodJune 1000000] } } ∧
    giftsBody.category ∉ transactionCategories ∧
    createTransaction exampleStart 1 31 giftsBody =
      { status := 500, store := exampleStart, message := some serverError } :=
  ⟨by norm_num [millionBody], by decide!, by decide, by decide!⟩

/-! ### Amounts of the stored transactions -/

theorem mem_saveTransaction (ts : List Transaction) (u x : Transaction)
    (h : x ∈ saveTransaction ts u) : x = u ∨ x ∈ ts := by
  induction ts with
  | nil => simp [saveTransaction] at h
  | cons y rest ih =>
    unfold saveTransaction at h
    by_cases hy : y.id = u.id
    · rw [if_pos hy, List.mem_cons] at h
      rcases h with h | h
      · exact Or.inl h
      · exact Or.inr (List.mem_cons_of_mem _ h)
    · rw [if_neg hy, List.mem_cons] at h
      rcases h with h | h
      · exact Or.inr (h ▸ List.mem_cons_self _ _)
      · rcases ih h with h2 | h2
        · exact Or.inl h2
        · exact Or.inr (List.mem_cons_of_mem _ h2)

theorem createTransaction_transactions (s : Store) (user newId : Nat) (body : TransactionBody) :
    (createTransaction s user newId body).store.transactions = s.transactions ∨
    (body.routeValid ∧ (createTransaction s user newId body).store.transactions =
      s.transactions ++
        [{ id := newId, user := user, type := body.type, amount := body.amount,
           category := body.category, description := jsTrim body.description,
           date := body.date }]) := by
  unfold createTransaction
  by_cases hroute : body.routeValid
  · simp only [hroute, not_true_eq_false, if_false]
    split
    · exact Or.inl rfl
    · refine Or.inr ⟨trivial, ?_⟩
      split <;> rfl
  · simp [hroute]

theorem updateTransaction_transactions (s : Store) (user txId : Nat) (body : TransactionPatch) :
    (updateTransaction s user txId body).store.transactions = s.transactions ∨
    ∃ t, findTransaction s.transactions txId user = some t ∧ body.routeValid ∧
      (updateTransaction s user txId body).store.transactions =
        saveTransaction s.transactions (body.applyTo t) := by
  by_cases hroute : body.routeValid
  swap
  · left
    unfold updateTransaction
    simp [hroute]
  cases hfind : findTransaction s.transactions txId user with
  | none =>
    left
    unfold updateTransaction
    simp [hroute, hfind]
  | some t =>
    by_cases hschema : (body.applyTo t).schemaValid
    · right
      refine ⟨t, rfl, hroute, ?_⟩
      rw [updateTransaction_budgets s user txId body t hfind hroute hschema]
    · left
      unfold updateTransaction
      simp [hroute, hfind, hschema]

theorem deleteTransaction_transactions (s : Store) (user txId : Nat) :
    (deleteTransaction s user txId).store.transactions = s.transactions ∨
    (deleteTransaction s user txId).store.transactions = deleteById s.transactions txId := by
  unfold deleteTransaction
  cases findTransaction s.transactions txId user with
  | none => exact Or.inl rfl
  | some t =>
    right
    simp only []
    split <;> rfl

theorem createBudget_transactions (s : Store) (user newId : Nat) (body : BudgetBody) :
    (createBudget s user newId body).store.transactions = s.transactions := by
  unfold createBudget
  split
  · rfl
  · split
    · rfl
    · simp only []
      split <;> rfl

theorem updateBudget_transactions (s : Store) (user budgetId : Nat) (body : BudgetPatch) :
    (updateBudget s user budgetId body).store.transactions = s.transactions := by
  unfold updateBudget
  split
  · rfl
  · split
    · rfl
    · simp only []
      split
      · rfl
      · split <;> rfl

theorem deleteBudget_transactions (s : Store) (user budgetId : Nat) :
    (deleteBudget s user budgetId).store.transactions = s.transactions := by
  unfold deleteBudget
  split <;> rfl

/-- C22: in every store reachable from the empty store by the requests on transactions and
budgets, `createTransaction` and `updateTransaction` among them, every stored transaction
has an amount of at least 0.01, hence above 0. -/
theorem amounts_positive (s : Store) (h : Reachable s) :
    ∀ t ∈ s.transactions, 1 / 100 ≤ t.amount ∧ 0 < t.amount := by
  have key : ∀ t ∈ s.transactions, (1 : ℚ) / 100 ≤ t.amount := by
    induction h with
    | empty =>
      intro t ht
      simp [emptyStore] at ht
    | transactionCreated s user newId body _ ih =>
      intro t ht
      rcases createTransaction_transactions s user newId body with h1 | ⟨hroute, h1⟩
      · rw [h1] at ht
        exact ih t ht
      · rw [h1, List.mem_append, List.mem_singleton] at ht
        rcases ht with ht | ht
        · exact ih t ht
        · rw [ht]
          exact hroute.2.1
    | transactionUpdated s user txId body _ ih =>
      intro t ht
      rcases updateTransaction_transactions s user txId body with h1 | ⟨old, hfind, hroute, h1⟩
      · rw [h1] at ht
        exact ih t ht
      · rw [h1] at ht
        rcases mem_saveTransaction _ _ _ ht with h2 | h2
        · rw [h2]
          cases ha : body.amount with
          | none =>
            have : (body.applyTo old).amount = old.amount := by
              simp [TransactionPatch.applyTo, ha]
            rw [this]
            exact ih old (findTransaction_some _ _ _ _ hfind).1
          | some x =>
            have : (body.applyTo old).amount = x := by
              simp [TransactionPatch.applyTo, ha]
            rw [this]
            exact hroute.2.1 x (by simp [ha])
        · exact ih t h2
    | transactionDeleted s user txId _ ih =>
      intro t ht
      rcases deleteTransaction_transactions s user txId with h1 | h1
      · rw [h1] at ht
        exact ih t ht
      · rw [h1] at ht
        exact ih t ((List.eraseP_sublist _).subset ht)
    | budgetCreated s user newId body _ ih =>
      intro t ht
      rw [createBudget_transactions] at ht
      exact ih t ht
    | budgetUpdated s user budgetId body _ ih =>
      intro t ht
      rw [updateBudget_transactions] at ht
      exact ih t ht
    | budgetDeleted s user budgetId _ ih =>
      intro t ht
      rw [deleteBudget_transactions] at ht
      exact ih t ht
  intro t ht
  have h1 := key t ht
  exact ⟨h1, lt_of_lt_of_le (by norm_num) h1⟩

/-! ### A negative `spent` -/

/-- C23 (evaluation at a failing input): user 1 records an expense of 120 on Food dated
2024-06-05, creates the Food budget of July 2024 (backfilled with 0), moves that budget to
June 2024 (no new backfill) and deletes the expense. The four requests answer 201, 201, 200
and 200, and the reachable store they produce holds a budget whose `spent` is −120. -/
theorem spent_becomes_negative :
    (createTransaction emptyStore 1 10 groceriesBody).status = 201 ∧
    (createBudget overdrawn1 1 1 foodJulyBody).status = 201 ∧
    (updateBudget overdrawn2 1 1 toJunePatch).status = 200 ∧
    (deleteTransaction overdrawn3 1 10).status = 200 ∧
    Reachable overdrawn4 ∧
    overdrawn4.budgets = [foodJune (-120)] ∧
    ∃ b ∈ overdrawn4.budgets, b.spent < 0 := by
  have hb : overdrawn4.budgets = [foodJune (-120)] := by decide!
  refine ⟨by decide!, by decide!, by decide!, by decide!, ?_, hb, ?_⟩
  · exact Reachable.transactionDeleted _ 1 10
      (Reachable.budgetUpdated _ 1 1 toJunePatch
        (Reachable.budgetCreated _ 1 1 foodJulyBody
          (Reachable.transactionCreated emptyStore 1 10 groceriesBody Reachable.empty)))
  · rw [hb]
    exact ⟨foodJune (-120), List.mem_singleton.mpr rfl, by norm_num [foodJune]⟩

/-! ### Updating a budget -/

/-- C24: `updateBudget` does not backfill again. For a successful update (status 200) of the
caller's budget `b` whose body carries neither `spent` nor `user`, so that it changes only
category, limit, month and year, the stored budget keeps the `spent` of `b`, its `_id` and
its owner; the budgets after the update are the budgets before with the document of that
`_id` replaced and every other budget unchanged; transactions and users are unchanged. -/
theorem updateBudget_keeps_spent (s : Store) (user budgetId : Nat) (body : BudgetPatch)
    (b : Budget) (hfind : findBudgetById s.budgets budgetId user = some b)
    (hok : (updateBudget s user budgetId body).status = 200)
    (hspent : body.spent = none) (huser : body.user = none)
    (hids : uniqueBudgetIds s.budgets) :
    (body.applyTo b).spent = b.spent ∧ (body.applyTo b).id = b.id ∧
    (body.applyTo b).user = b.user ∧
    (updateBudget s user budgetId body).store.budgets =
      s.budgets.map (fun x => if x.id = budgetId then body.applyTo b else x) ∧
    (updateBudget s user budgetId body).store.transactions = s.transactions ∧
    (updateBudget s user budgetId body).store.users = s.users := by
  obtain ⟨-, hid, -⟩ := findBudgetById_some _ _ _ _ hfind
  refine ⟨by simp [BudgetPatch.applyTo, hspent], rfl, by simp [BudgetPatch.applyTo, huser],
    ?_, updateBudget_transactions s user budgetId body, ?_⟩
  · unfold updateBudget at hok ⊢
    by_cases hroute : body.routeValid
    swap
    · simp [hroute] at hok
    simp only [hroute, not_true_eq_false, if_false, hfind] at hok ⊢
    by_cases hschema : (body.applyTo b).schemaValid
    swap
    · simp [hschema] at hok
    simp only [hschema, not_true_eq_false, if_false] at hok ⊢
    by_cases hdup : duplicateKey s.budgets (body.applyTo b) = true
    · simp [hdup] at hok
    · rw [if_neg hdup]
      rw [saveBudget_eq_map s.budgets (body.applyTo b) hids]
      have : (body.applyTo b).id = budgetId := hid
      simp only [this]
  · unfold updateBudget
    split
    · rfl
    · split
      · rfl
      · simp only []
        split
        · rfl
        · split <;> rfl

/-! ### Isolation between users -/

theorem filter_eq_of_agree {α : Type} (p q : α → Bool) (l1 l2 : List α)
    (hpq : ∀ x, p x = true → q x = true) (h : l1.filter q = l2.filter q) :
    l1.filter p = l2.filter p := by
  have hsplit : ∀ l : List α, l.filter p = (l.filter q).filter p := by
    intro l
    rw [List.filter_filter]
    apply List.filter_congr
    intro x _
    cases hp : p x with
    | false => simp
    | true => simp [hpq x hp]
  rw [hsplit l1, hsplit l2, h]

theorem incSpent_filter_other (bs : List Budget) (u other : Nat) (c : String) (m y : Int)
    (d : ℚ) (hne : u ≠ other) :
    (incSpent bs u c m y d).filter (fun b => decide (b.user = other)) =
      bs.filter (fun b => decide (b.user = other)) := by
  induction bs with
  | nil => rfl
  | cons b rest ih =>
    unfold incSpent
    by_cases hb : b.hasKey u c m y
    · rw [if_pos hb]
      have hbu : ¬ b.user = other := fun h => hne (hb.1.symm.trans h)
      rw [List.filter_cons_of_neg (by simpa using hbu), List.filter_cons_of_neg (by simpa using hbu)]
    · rw [if_neg hb, List.filter_cons, List.filter_cons, ih]

theorem queryFilter_user (user : Nat) (q : TransactionQuery) (test : String → Bool)
    (t : Transaction) (h : queryFilter user q test t = true) :
    decide (t.user = user) = true := by
  unfold queryFilter at h
  simp only [Bool.and_eq_true] at h
  exact h.1.1.1.1

/-- C25: isolation between users. When two stores agree on the transactions and budgets
owned by A, the responses to A of `getTransactions`, `getTransactionStats`, `getBudgets`
and `getBudgetProgress` are the same in both, whatever the records of the other users are.
And a `createTransaction`, `updateTransaction` or `deleteTransaction` issued by another
user B leaves the budgets owned by A as they were. -/
theorem cross_user_isolation (userA : Nat) (s1 s2 : Store) (h : agreeOn userA s1 s2) :
    (∀ (regex : String → Option (String → Bool)) (q : TransactionQuery),
      getTransactions regex s1 userA q = getTransactions regex s2 userA q) ∧
    (∀ (utc : Date → Date) (now : Date),
      getTransactionStats utc now s1 userA = getTransactionStats utc now s2 userA) ∧
    (∀ month year : Int, getBudgets s1 userA month year = getBudgets s2 userA month year) ∧
    (∀ month year : Int,
      getBudgetProgress s1 userA month year = getBudgetProgress s2 userA month year) ∧
    (∀ (userB newId : Nat) (body : TransactionBody), userB ≠ userA →
      (createTransaction s1 userB newId body).store.budgets.filter
          (fun b => decide (b.user = userA)) =
        s1.budgets.filter (fun b => decide (b.user = userA))) ∧
    (∀ (userB txId : Nat) (body : TransactionPatch), userB ≠ userA →
      (updateTransaction s1 userB txId body).store.budgets.filter
          (fun b => decide (b.user = userA)) =
        s1.budgets.filter (fun b => decide (b.user = userA))) ∧
    (∀ (userB txId : Nat), userB ≠ userA →
      (deleteTransaction s1 userB txId).store.budgets.filter
          (fun b => decide (b.user = userA)) =
        s1.budgets.filter (fun b => decide (b.user = userA))) := by
  obtain ⟨ht, hb⟩ := h
  have hT : ∀ p : Transaction → Bool, (∀ t, p t = true → decide (t.user = userA) = true) →
      s1.transactions.filter p = s2.transactions.filter p :=
    fun p hp => filter_eq_of_agree p _ _ _ hp ht
  have hB : ∀ p : Budget → Bool, (∀ b, p b = true → decide (b.user = userA) = true) →
      s1.budgets.filter p = s2.budgets.filter p :=
    fun p hp => filter_eq_of_agree p _ _ _ hp hb
  have hmatch : ∀ (c : String) (a b : Date),
      matchExpenses s1.transactions userA c a b = matchExpenses s2.transactions userA c a b := by
    intro c a b
    unfold matchExpenses
    apply hT
    intro t hdec
    simp only [decide_eq_true_eq] at hdec ⊢
    exact hdec.1
  refine ⟨?_, ?_, ?_, ?_, ?_, ?_, ?_⟩
  · intro regex q
    have hq : ∀ test, s1.transactions.filter (queryFilter userA q test) =
        s2.transactions.filter (queryFilter userA q test) :=
      fun test => hT _ (queryFilter_user userA q test)
    unfold getTransactions
    simp only [hq]
  · intro utc now
    have h1 : ∀ a b, monthlyMatch s1.transactions userA a b =
        monthlyMatch s2.transactions userA a b := by
      intro a b
      unfold monthlyMatch
      apply hT
      intro t hdec
      simp only [decide_eq_true_eq] at hdec ⊢
      exact hdec.1
    have h2 : ∀ a b, categoriesMatch s1.transactions userA a b =
        categoriesMatch s2.transactions userA a b := by
      intro a b
      unfold categoriesMatch
      apply hT
      intro t hdec
      simp only [decide_eq_true_eq] at hdec ⊢
      exact hdec.1
    have h3 : ∀ a, trendsMatch s1.transactions userA a = trendsMatch s2.transactions userA a := by
      intro a
      unfold trendsMatch
      apply hT
      intro t hdec
      simp only [decide_eq_true_eq] at hdec ⊢
      exact hdec.1
    unfold getTransactionStats
    simp only [h1, h2, h3]
  · intro month year
    unfold getBudgets
    rw [hB]
    intro b hdec
    simp only [decide_eq_true_eq] at hdec ⊢
    exact hdec.1
  · intro month year
    unfold getBudgetProgress
    have hbud : s1.budgets.filter
        (fun b => decide (b.user = userA ∧ b.month = month ∧ b.year = year)) =
        s2.budgets.filter (fun b => decide (b.user = userA ∧ b.month = month ∧ b.year = year)) := by
      apply hB
      intro b hdec
      simp only [decide_eq_true_eq] at hdec ⊢
      exact hdec.1
    simp only [hbud, hmatch]
  · intro userB newId body hne
    rcases (by
        unfold createTransaction
        by_cases hroute : body.routeValid
        · simp only [hroute, not_true_eq_false, if_false]
          split
          · exact Or.inl rfl
          · split
            · exact Or.inr ⟨_, _, _, _, rfl⟩
            · exact Or.inl rfl
        · simp [hroute] :
        (createTransaction s1 userB newId body).store.budgets = s1.budgets ∨
        ∃ c m y d, (createTransaction s1 userB newId body).store.budgets =
          incSpent s1.budgets userB c m y d) with h1 | ⟨c, m, y, d, h1⟩
    · rw [h1]
    · rw [h1, incSpent_filter_other _ _ _ _ _ _ _ hne]
  · intro userB txId body hne
    by_cases hroute : body.routeValid
    swap
    · unfold updateTransaction
      simp [hroute]
    cases hfind : findTransaction s1.transactions txId userB with
    | none =>
      unfold updateTransaction
      simp [hroute, hfind]
    | some t =>
      by_cases hschema : (body.applyTo t).schemaValid
      · rw [updateTransaction_budgets s1 userB txId body t hfind hroute hschema]
        simp only []
        split <;> split <;>
          simp only [incSpent_filter_other _ _ _ _ _ _ _ hne]
      · unfold updateTransaction
        simp [hroute, hfind, hschema]
  · intro userB txId hne
    unfold deleteTransaction
    cases hfind : findTransaction s1.transactions txId userB with
    | none => rfl
    | some t =>
      simp only []
      split
      · exact incSpent_filter_other _ _ _ _ _ _ _ hne
      · rfl

/-! ### Statistics -/

theorem mem_groupKeys {κ : Type} [DecidableEq κ] (key : Transaction → κ)
    (ts : List Transaction) (k : κ) : k ∈ groupKeys key ts ↔ ∃ t ∈ ts, key t = k := by
  unfold groupKeys
  rw [List.mem_dedup, List.mem_map]

/-- The shape of the three aggregations of `getTransactionStats` over the documents they
match. `categories` is sorted by total descending, has pairwise distinct categories, one
for each category of a matched expense, and each entry carries the sum and the number of
the matched expenses of its category. `trends` is sorted ascending by (year, month), has
pairwise distinct (year, month, type), one for each such triple of a matched document, with
the summed total. `monthly` has pairwise distinct types, one for each type of a matched
document, with sum and number. -/
theorem getTransactionStats_structure (utc : Date → Date) (now : Date) (s : Store)
    (user : Nat) :
    ((getTransactionStats utc now s user).categories.Pairwise totalDesc ∧
      ((getTransactionStats utc now s user).categories.map (fun e => e.category)).Nodup ∧
      (∀ e ∈ (getTransactionStats utc now s user).categories,
        (∃ t ∈ currentMonthExpenses now s user, t.category = e.category) ∧
        e.total = totalAmount ((currentMonthExpenses now s user).filter
          (fun t => decide (t.category = e.category))) ∧
        e.count = ((currentMonthExpenses now s user).filter
          (fun t => decide (t.category = e.category))).length) ∧
      (∀ t ∈ currentMonthExpenses now s user,
        ∃ e ∈ (getTransactionStats utc now s user).categories, e.category = t.category)) ∧
    ((getTransactionStats utc now s user).trends.Pairwise yearMonthAsc ∧
      ((getTransactionStats utc now s user).trends.map
        (fun e => (e.year, e.month, e.type))).Nodup ∧
      (∀ e ∈ (getTransactionStats utc now s user).trends,
        (∃ t ∈ trailingDocs now s user,
          ((utc t.date).year, (utc t.date).month, t.type) = (e.year, e.month, e.type)) ∧
        e.total = totalAmount ((trailingDocs now s user).filter
          (fun t => decide (((utc t.date).year, (utc t.date).month, t.type) =
            (e.year, e.month, e.type))))) ∧
      (∀ t ∈ trailingDocs now s user,
        ∃ e ∈ (getTransactionStats utc now s user).trends,
          (e.year, e.month, e.type) = ((utc t.date).year, (utc t.date).month, t.type))) ∧
    (((getTransactionStats utc now s user).monthly.map (fun e => e.type)).Nodup ∧
      (∀ e ∈ (getTransactionStats utc now s user).monthly,
        (∃ t ∈ currentMonthDocs now s user, t.type = e.type) ∧
        e.total = totalAmount ((currentMonthDocs now s user).filter
          (fun t => decide (t.type = e.type))) ∧
        e.count = ((currentMonthDocs now s user).filter
          (fun t => decide (t.type = e.type))).length) ∧
      (∀ t ∈ currentMonthDocs now s user,
        ∃ e ∈ (getTransactionStats utc now s user).monthly, e.type = t.type)) := by
  refine ⟨?_, ?_, ?_⟩
  · -- categories
    have hcat : (getTransactionStats utc now s user).categories =
        ((groupKeys (fun t => t.category) (currentMonthExpenses now s user)).map (fun k =>
          ({ category := k
             total := totalAmount ((currentMonthExpenses now s user).filter
               (fun t => decide (t.category = k)))
             count := ((currentMonthExpenses now s user).filter
               (fun t => decide (t.category = k))).length } : CategoryStat))).insertionSort
          totalDesc := rfl
    rw [hcat]
    have hperm := List.perm_insertionSort totalDesc
      ((groupKeys (fun t => t.category) (currentMonthExpenses now s user)).map (fun k =>
          ({ category := k
             total := totalAmount ((currentMonthExpenses now s user).filter
               (fun t => decide (t.category = k)))
             count := ((currentMonthExpenses now s user).filter
               (fun t => decide (t.category = k))).length } : CategoryStat)))
    refine ⟨List.sorted_insertionSort totalDesc _, ?_, ?_, ?_⟩
    · rw [(hperm.map _).nodup_iff, List.map_map]
      have : ((fun e : CategoryStat => e.category) ∘ fun k =>
          ({ category := k
             total := totalAmount ((currentMonthExpenses now s user).filter
               (fun t => decide (t.category = k)))
             count := ((currentMonthExpenses now s user).filter
               (fun t => decide (t.category = k))).length } : CategoryStat)) = id := rfl
      rw [this, List.map_id]
      exact List.nodup_dedup _
    · intro e he
      rw [hperm.mem_iff, List.mem_map] at he
      obtain ⟨k, hk, rfl⟩ := he
      exact ⟨(mem_groupKeys _ _ _).mp hk, rfl, rfl⟩
    · intro t ht
      refine ⟨_, hperm.mem_iff.mpr (List.mem_map.mpr ⟨t.category, ?_, rfl⟩), rfl⟩
      exact (mem_groupKeys _ _ _).mpr ⟨t, ht, rfl⟩
  · -- trends
    have htr : (getTransactionStats utc now s user).trends =
        ((groupKeys (fun t => ((utc t.date).year, (utc t.date).month, t.type))
            (trailingDocs now s user)).map (fun k =>
          ({ year := k.1, month := k.2.1, type := k.2.2
             total := totalAmount ((trailingDocs now s user).filter
               (fun t => decide (((utc t.date).year, (utc t.date).month, t.type) = k))) } :
            TrendStat))).insertionSort yearMonthAsc := rfl
    rw [htr]
    have hperm := List.perm_insertionSort yearMonthAsc
      ((groupKeys (fun t => ((utc t.date).year, (utc t.date).month, t.type))
            (trailingDocs now s user)).map (fun k =>
          ({ year := k.1, month := k.2.1, type := k.2.2
             total := totalAmount ((trailingDocs now s user).filter
               (fun t => decide (((utc t.date).year, (utc t.date).month, t.type) = k))) } :
            TrendStat)))
    refine ⟨List.sorted_insertionSort yearMonthAsc _, ?_, ?_, ?_⟩
    · rw [(hperm.map _).nodup_iff, List.map_map]
      have : ((fun e : TrendStat => (e.year, e.month, e.type)) ∘ fun k : Int × Int × String =>
          ({ year := k.1, month := k.2.1, type := k.2.2
             total := totalAmount ((trailingDocs now s user).filter
               (fun t => decide (((utc t.date).year, (utc t.date).month, t.type) = k))) } :
            TrendStat)) = id := rfl
      rw [this, List.map_id]
      exact List.nodup_dedup _
    · intro e he
      rw [hperm.mem_iff, List.mem_map] at he
      obtain ⟨k, hk, rfl⟩ := he
      exact ⟨(mem_groupKeys _ _ _).mp hk, rfl⟩
    · intro t ht
      refine ⟨_, hperm.mem_iff.mpr (List.mem_map.mpr
        ⟨((utc t.date).year, (utc t.date).month, t.type), ?_, rfl⟩), rfl⟩
      exact (mem_groupKeys _ _ _).mpr ⟨t, ht, rfl⟩
  · -- monthly
    have hmo : (getTransactionStats utc now s user).monthly =
        (groupKeys (fun t => t.type) (currentMonthDocs now s user)).map (fun k =>
          ({ type := k
             total := totalAmount ((currentMonthDocs now s user).filter
               (fun t => decide (t.type = k)))
             count := ((currentMonthDocs now s user).filter
               (fun t => decide (t.type = k))).length } : TypeStat)) := rfl
    rw [hmo]
    refine ⟨?_, ?_, ?_⟩
    · rw [List.map_map]
      have : ((fun e : TypeStat => e.type) ∘ fun k =>
          ({ type := k
             total := totalAmount ((currentMonthDocs now s user).filter
               (fun t => decide (t.type = k)))
             count := ((currentMonthDocs now s user).filter
               (fun t => decide (t.type = k))).length } : TypeStat)) = id := rfl
      rw [this, List.map_id]
      exact List.nodup_dedup _
    · intro e he
      rw [List.mem_map] at he
      obtain ⟨k, hk, rfl⟩ := he
      exact ⟨(mem_groupKeys _ _ _).mp hk, rfl, rfl⟩
    · intro t ht
      exact ⟨_, List.mem_map.mpr ⟨t.type, (mem_groupKeys _ _ _).mpr ⟨t, ht, rfl⟩, rfl⟩, rfl⟩

/-- C26 (evaluation at a failing input): at a statistics request of June 15th 2024, user 1
owns one expense of 120 on Food dated 2024-06-30 23:59:59.500, a date of the current month.
`trends` has the entry (2024, 6, expense) with total 120, but `categories` and `monthly`
are empty, because the window of the current month closes at 23:59:59.000 of its last
day. -/
theorem getTransactionStats_misses_last_second :
    lateExpense.date.inMonth midJune.month midJune.year ∧
    lateExpense.type = "expense" ∧ lateExpense.user = 1 ∧
    (getTransactionStats utcIsLocal midJune lateStore 1).categories = [] ∧
    (getTransactionStats utcIsLocal midJune lateStore 1).monthly = [] ∧
    (getTransactionStats utcIsLocal midJune lateStore 1).trends =
      [{ year := 2024, month := 6, type := "expense", total := 120 }] := by
  decide!

/-! ### Witnesses of the validation, invariant and isolation theorems -/

/-- Witness of C22: the store after user 1 recorded the groceries is reachable. -/
theorem amounts_positive_witness :
    Reachable overdrawn1 ∧ ∀ t ∈ overdrawn1.transactions, 1 / 100 ≤ t.amount ∧ 0 < t.amount :=
  have hreach : Reachable overdrawn1 :=
    Reachable.transactionCreated emptyStore 1 10 groceriesBody Reachable.empty
  ⟨hreach, amounts_positive overdrawn1 hreach⟩

/-- Witness of C24: user 1 moves the Food budget of July 2024 to June. -/
theorem updateBudget_keeps_spent_witness :
    findBudgetById overdrawn2.budgets 1 1 = some { foodJune 0 with month := 7 } ∧
    (updateBudget overdrawn2 1 1 toJunePatch).status = 200 ∧
    (toJunePatch.applyTo { foodJune 0 with month := 7 }).spent = 0 ∧
    (updateBudget overdrawn2 1 1 toJunePatch).store.transactions = overdrawn2.transactions :=
  have h := updateBudget_keeps_spent overdrawn2 1 1 toJunePatch { foodJune 0 with month := 7 }
    (by decide!) (by decide!) (by decide) (by decide) (by decide!)
  ⟨by decide!, by decide!, h.1, h.2.2.2.2.1⟩

/-- Witness of C25: two stores that agree on the records of user 1 and differ in those of
user 2. -/
theorem cross_user_isolation_witness :
    agreeOn 1 juneStore juneStoreWithOthers ∧ juneStore ≠ juneStoreWithOthers ∧
    getBudgetProgress juneStore 1 6 2024 = getBudgetProgress juneStoreWithOthers 1 6 2024 :=
  ⟨by decide!, by decide!,
    (cross_user_isolation 1 juneStore juneStoreWithOthers (by decide!)).2.2.2.1 6 2024⟩

/-- Witness of C28: the entry of the worked example, 120 spent of 500. -/
theorem status_thresholds_witness :
    exampleEntry ∈ getBudgetProgress exampleAfterFirst 1 6 2024 ∧
    (exampleEntry.status = "good" ↔
      200 * exampleEntry.actualSpent < 159 * exampleEntry.budget.limit) :=
  ⟨by decide!,
    (status_thresholds exampleAfterFirst 1 6 2024 exampleEntry (by decide!)
      (by decide!)).2.2.1⟩

/-! ### Arithmetic of IEEE 754 doubles -/

/-- Values of `toDouble`: numbers that are doubles are kept, 0.1 + 0.2 is rounded to
0.30000000000000004, ties go to the even significand, and the subnormal range ends at 0. -/
theorem toDouble_values :
    toDouble 120 = 120 ∧ toDouble (1 / 2) = 1 / 2 ∧
    toDouble (1 / 10) = 3602879701896397 / 36028797018963968 ∧
    toDouble (2 / 10) = 3602879701896397 / 18014398509481984 ∧
    toDouble (3 / 10) = 5404319552844595 / 18014398509481984 ∧
    toDouble (toDouble (1 / 10) + toDouble (2 / 10)) = 1351079888211149 / 4503599627370496 ∧
    toDouble 9007199254740993 = 9007199254740992 ∧
    toDouble 9007199254740995 = 9007199254740996 ∧
    toDouble (-(1 / 10)) = -(3602879701896397 / 36028797018963968) ∧
    toDouble (3 / 2 ^ 1075) = 1 / 2 ^ 1073 ∧
    toDouble (1 / 2 ^ 1076) = 0 := by
  decide!

theorem incSpentWith_exact (bs : List Budget) (u : Nat) (c : String) (m y : Int) (d : ℚ) :
    incSpentWith exactArithmetic bs u c m y d = incSpent bs u c m y d := by
  induction bs with
  | nil => rfl
  | cons b rest ih =>
    unfold incSpentWith incSpent
    rw [ih]
    rfl

theorem createTransactionWith_exact (s : Store) (user newId : Nat) (body : TransactionBody) :
    createTransactionWith exactArithmetic s user newId body =
      createTransaction s user newId body := by
  unfold createTransactionWith createTransaction
  simp only [incSpentWith_exact]

theorem getBudgetProgressWith_exact (s : Store) (user : Nat) (month year : Int) :
    getBudgetProgressWith exactArithmetic s user month year =
      getBudgetProgress s user month year :=
  rfl

theorem map_bumpWith_of_no_key (ops : Arithmetic) (bs : List Budget) (u : Nat) (c : String)
    (m y : Int) (d : ℚ) (h : ∀ x ∈ bs, ¬ x.hasKey u c m y) :
    bs.map (bumpWith ops u c m y d) = bs := by
  induction bs with
  | nil => rfl
  | cons b rest ih =>
    have hb : ¬ b.hasKey u c m y := h b (List.mem_cons_self _ _)
    have hr : ∀ x ∈ rest, ¬ x.hasKey u c m y := fun x hx => h x (List.mem_cons_of_mem _ hx)
    simp [bumpWith, hb, ih hr]

theorem incSpentWith_eq_map (ops : Arithmetic) (bs : List Budget) (u : Nat) (c : String)
    (m y : Int) (d : ℚ) (h : uniqueBudgetKeys bs) :
    incSpentWith ops bs u c m y d = bs.map (bumpWith ops u c m y d) := by
  induction bs with
  | nil => rfl
  | cons b rest ih =>
    unfold uniqueBudgetKeys at h
    rw [List.pairwise_cons] at h
    unfold incSpentWith
    by_cases hb : b.hasKey u c m y
    · have hr : ∀ x ∈ rest, ¬ x.hasKey u c m y := by
        intro x hx hxk
        apply h.1 x hx
        unfold Budget.hasKey at hb hxk ⊢
        obtain ⟨h1, h2, h3, h4⟩ := hb
        obtain ⟨k1, k2, k3, k4⟩ := hxk
        exact ⟨h1.trans k1.symm, h2.trans k2.symm, h3.trans k3.symm, h4.trans k4.symm⟩
      rw [if_pos hb, List.map_cons, map_bumpWith_of_no_key ops rest u c m y d hr]
      simp [bumpWith, hb]
    · rw [if_neg hb, List.map_cons, ih h.2]
      simp [bumpWith, hb]

theorem map_bumpWith_of_exact (ops : Arithmetic) (bs : List Budget) (u : Nat) (c : String)
    (m y : Int) (d : ℚ)
    (h : ∀ b ∈ bs, b.hasKey u c m y → ops.add b.spent d = b.spent + d) :
    bs.map (bumpWith ops u c m y d) = bs.map (bumpIfKey u c m y d) := by
  apply List.map_congr_left
  intro b hb
  unfold bumpWith bumpIfKey
  by_cases hk : b.hasKey u c m y
  · rw [if_pos hk, if_pos hk, h b hb hk]
  · rw [if_neg hk, if_neg hk]

theorem createTransactionWith_eq (ops : Arithmetic) (s : Store) (user newId : Nat)
    (body : TransactionBody) (hroute : body.routeValid)
    (hcat : body.category ∈ transactionCategories) :
    createTransactionWith ops s user newId body =
      { status := 201
        store :=
          { users := s.users
            transactions := s.transactions ++
              [{ id := newId, user := user, type := body.type, amount := body.amount,
                 category := body.category, description := jsTrim body.description,
                 date := body.date }]
            budgets :=
              if body.type = "expense" then
                incSpentWith ops s.budgets user body.category body.date.month body.date.year
                  body.amount
              else s.budgets } } := by
  unfold createTransactionWith
  have hs := createTransaction_schemaValid user newId body hroute hcat
  simp only [hroute, not_true_eq_false, if_false, hs, Date.getMonth, Date.getFullYear,
    sub_add_cancel]
  by_cases h : body.type = "expense" <;> simp [h]

/-- C9 (in machine arithmetic): over any arithmetic `ops`, and so over `doubleArithmetic`,
the one of the running program, a valid `createTransaction` of type expense answers 201,
appends one transaction owned by the caller with the fields of the request, and replaces `spent` of the
caller's budget of (category, month of date, year of date), when there is one, by the
machine sum `ops.add spent amount`; every other budget, and in particular every budget of
another user, is unchanged. Where the machine sum is not rounded the budgets are those with
exactly `amount` added. -/
theorem createTransactionWith_expense (ops : Arithmetic) (s : Store) (user newId : Nat)
    (body : TransactionBody) (hroute : body.routeValid)
    (hcat : body.category ∈ transactionCategories) (htype : body.type = "expense")
    (huniq : uniqueBudgetKeys s.budgets) :
    (createTransactionWith ops s user newId body).status = 201 ∧
    (createTransactionWith ops s user newId body).store.transactions = s.transactions ++
      [{ id := newId, user := user, type := "expense", amount := body.amount,
         category := body.category, description := jsTrim body.description,
         date := body.date }] ∧
    (createTransactionWith ops s user newId body).store.budgets =
      s.budgets.map
        (bumpWith ops user body.category body.date.month body.date.year body.amount) ∧
    (∀ b ∈ s.budgets, b.hasKey user body.category body.date.month body.date.year →
      bumpWith ops user body.category body.date.month body.date.year body.amount b =
        { b with spent := ops.add b.spent body.amount }) ∧
    (∀ b ∈ s.budgets, ¬ b.hasKey user body.category body.date.month body.date.year →
      bumpWith ops user body.category body.date.month body.date.year body.amount b = b) ∧
    (∀ b ∈ s.budgets, b.user ≠ user →
      bumpWith ops user body.category body.date.month body.date.year body.amount b = b) ∧
    ((∀ b ∈ s.budgets, b.hasKey user body.category body.date.month body.date.year →
        ops.add b.spent body.amount = b.spent + body.amount) →
      (createTransactionWith ops s user newId body).store.budgets =
        s.budgets.map
          (bumpIfKey user body.category body.date.month body.date.year body.amount)) := by
  rw [createTransactionWith_eq ops s user newId body hroute hcat]
  have hb : (if body.type = "expense" then
        incSpentWith ops s.budgets user body.category body.date.month body.date.year
          body.amount
      else s.budgets) =
      s.budgets.map
        (bumpWith ops user body.category body.date.month body.date.year body.amount) := by
    rw [if_pos htype]
    exact incSpentWith_eq_map _ _ _ _ _ _ _ huniq
  refine ⟨rfl, ?_, hb, ?_, ?_, ?_, ?_⟩
  · simp [htype]
  · intro b _ hk
    simp [bumpWith, hk]
  · intro b _ hk
    simp [bumpWith, hk]
  · intro b _ hne
    simp [bumpWith, Budget.hasKey, hne]
  · intro hexact
    show (if body.type = "expense" then _ else _) = _
    rw [hb]
    exact map_bumpWith_of_exact _ _ _ _ _ _ _ hexact

/-- Witness of C9: over `doubleArithmetic`, user 1 records 0.2 on Food in June
2024 after 0.1. -/
theorem createTransactionWith_expense_witness :
    pointTwoBody.routeValid ∧ uniqueBudgetKeys pointOneStore.budgets ∧
    (createTransactionWith doubleArithmetic pointOneStore 1 21 pointTwoBody).status = 201 ∧
    (createTransactionWith doubleArithmetic pointOneStore 1 21 pointTwoBody).store.budgets =
      pointOneStore.budgets.map
        (bumpWith doubleArithmetic 1 "Food" 6 2024 pointTwoBody.amount) :=
  have h := createTransactionWith_expense doubleArithmetic pointOneStore 1 21 pointTwoBody
    (by decide!) (by decide) (by decide) (by decide!)
  ⟨by decide!, by decide!, h.1, h.2.2.1⟩

/-- C9 (counterexample to "by exactly `amount`"): the program computes with IEEE 754
doubles. User 1 has the Food budget of June 2024 with `spent` 0.1 (the number read from
`0.1`, left by a first expense) and records an expense of 0.2 on Food in June 2024. The
request answers 201 and the budget then holds 0.30000000000000004, which is not the sum of
the `spent` before and the amount: the increase is not the amount. -/
theorem createTransaction_expense_not_exact :
    pointTwoBody.routeValid ∧
    pointOneStore.budgets.map (fun b => b.spent) = [3602879701896397 / 36028797018963968] ∧
    pointTwoBody.amount = 3602879701896397 / 18014398509481984 ∧
    (createTransactionWith doubleArithmetic pointOneStore 1 21 pointTwoBody).status = 201 ∧
    (createTransactionWith doubleArithmetic pointOneStore 1 21 pointTwoBody).store.budgets.map
      (fun b => b.spent) = [1351079888211149 / 4503599627370496] ∧
    (1351079888211149 / 4503599627370496 : ℚ) - 3602879701896397 / 36028797018963968 ≠
      3602879701896397 / 18014398509481984 := by
  decide!

/-- Progress of one expense over `doubleArithmetic` and over `exactArithmetic`: 19.9 of 20
is 99 over doubles and 100 exactly, 0.09 of 0.4 is 22 over doubles and 23 exactly, 120 of
500 is 24. -/
theorem getBudgetProgressWith_double_values :
    (getBudgetProgressWith doubleArithmetic
        (singleExpenseStore (toDouble 20) (toDouble (199 / 10))) 1 6 2024).map
      (fun p => (p.percentage, p.status)) = [(99, "warning")] ∧
    (getBudgetProgressWith exactArithmetic
        (singleExpenseStore 20 (199 / 10)) 1 6 2024).map
      (fun p => (p.percentage, p.status)) = [(100, "exceeded")] ∧
    (getBudgetProgressWith doubleArithmetic
        (singleExpenseStore (toDouble (4 / 10)) (toDouble (9 / 100))) 1 6 2024).map
      (fun p => (p.percentage, p.status)) = [(22, "good")] ∧
    (getBudgetProgressWith exactArithmetic
        (singleExpenseStore (4 / 10) (9 / 100)) 1 6 2024).map
      (fun p => (p.percentage, p.status)) = [(23, "good")] ∧
    (getBudgetProgressWith doubleArithmetic
        (singleExpenseStore (toDouble 500) (toDouble 120)) 1 6 2024).map
      (fun p => (p.percentage, p.status)) = [(24, "good")] := by
  decide!

theorem mem_getBudgetProgressWith (ops : Arithmetic) (s : Store) (user : Nat)
    (month year : Int) (p : BudgetProgress)
    (hp : p ∈ getBudgetProgressWith ops s user month year) :
    p.percentage =
      (if p.budget.limit > 0
        then mathRound (ops.mul (ops.div p.actualSpent p.budget.limit) 100) else 0) ∧
    p.remaining = max 0 (ops.sub p.budget.limit p.actualSpent) ∧
    p.status = (if p.percentage ≥ 100 then "exceeded"
      else if p.percentage ≥ 80 then "warning" else "good") := by
  unfold getBudgetProgressWith at hp
  simp only [List.mem_map] at hp
  obtain ⟨b, -, rfl⟩ := hp
  exact ⟨rfl, rfl, rfl⟩

/-- C13 (in machine arithmetic): over any arithmetic `ops`, and so over `doubleArithmetic`,
the one of the running program, in every entry of a Progress result with a positive limit
the percentage is `Math.round` of the machine value `d` of `(actualSpent / limit) * 100`:
the integer `n` with `n ≤ d + 1/2 < n + 1`, hence within 1/2 of `d`, a half rounding
upwards; it is the integer nearest to actualSpent / limit × 100 where quotient and product
are not rounded. When the limit is not positive the percentage is 0. -/
theorem progressWith_percentage (ops : Arithmetic) (s : Store) (user : Nat)
    (month year : Int) (p : BudgetProgress)
    (hp : p ∈ getBudgetProgressWith ops s user month year) :
    (0 < p.budget.limit →
      p.percentage = mathRound (ops.mul (ops.div p.actualSpent p.budget.limit) 100) ∧
      (p.percentage : ℚ) ≤ ops.mul (ops.div p.actualSpent p.budget.limit) 100 + 1 / 2 ∧
      ops.mul (ops.div p.actualSpent p.budget.limit) 100 + 1 / 2 < (p.percentage : ℚ) + 1 ∧
      |(p.percentage : ℚ) - ops.mul (ops.div p.actualSpent p.budget.limit) 100| ≤ 1 / 2 ∧
      (ops.mul (ops.div p.actualSpent p.budget.limit) 100 =
          p.actualSpent / p.budget.limit * 100 →
        p.percentage = mathRound (p.actualSpent / p.budget.limit * 100))) ∧
    (p.budget.limit ≤ 0 → p.percentage = 0) := by
  obtain ⟨h1, -, -⟩ := mem_getBudgetProgressWith ops s user month year p hp
  constructor
  · intro hpos
    rw [if_pos hpos] at h1
    have hle : (p.percentage : ℚ) ≤
        ops.mul (ops.div p.actualSpent p.budget.limit) 100 + 1 / 2 := by
      rw [h1]
      exact Int.floor_le _
    have hlt : ops.mul (ops.div p.actualSpent p.budget.limit) 100 + 1 / 2 <
        (p.percentage : ℚ) + 1 := by
      rw [h1]
      exact Int.lt_floor_add_one _
    refine ⟨h1, hle, hlt, ?_, ?_⟩
    · rw [abs_le]
      constructor <;> linarith
    · intro hexact
      rw [h1, hexact]
  · intro hneg
    rw [if_neg (not_lt.mpr hneg)] at h1
    exact h1

/-- Witness of C13: over `doubleArithmetic`, 0.03 spent of a limit of 0.08. -/
theorem progressWith_percentage_witness :
    centsEntry ∈ getBudgetProgressWith doubleArithmetic centsStore 1 6 2024 ∧
    centsEntry.percentage =
      mathRound (doubleArithmetic.mul
        (doubleArithmetic.div centsEntry.actualSpent centsEntry.budget.limit) 100) :=
  ⟨by decide!,
    ((progressWith_percentage doubleArithmetic centsStore 1 6 2024 centsEntry (by decide!)).1
      (by decide!)).1⟩

/-- C13 (counterexample to "nearest integer"): the program computes with IEEE 754 doubles.
User 1 has the Food budget of June 2024 with limit 0.08 and one Food expense of 0.03 in
that month (the numbers read from `0.08` and `0.03`). Progress reports actualSpent 0.03 and
percentage 38: the quotient is rounded to 0.375 and the product is 37.5. The value of
actualSpent / limit × 100 for the reported actualSpent and limit lies below 37.5, its
nearest integer is 37, and 38 is further than 1/2 from it. -/
theorem progress_percentage_not_nearest :
    getBudgetProgressWith doubleArithmetic centsStore 1 6 2024 = [centsEntry] ∧
    centsEntry.percentage = 38 ∧
    doubleArithmetic.div centsEntry.actualSpent centsEntry.budget.limit = 3 / 8 ∧
    doubleArithmetic.mul (3 / 8) 100 = 75 / 2 ∧
    centsEntry.actualSpent / centsEntry.budget.limit * 100 < 75 / 2 ∧
    mathRound (centsEntry.actualSpent / centsEntry.budget.limit * 100) = 37 ∧
    ¬ |((38 : Int) : ℚ) - centsEntry.actualSpent / centsEntry.budget.limit * 100| ≤ 1 / 2 := by
  decide!

end FinanceTracker
